import Mathlib

/-!
Contact constraint resolution (`src/Contact.h`).

A shallow embedding of `ContactJacobian`, `Contact::Contact` and
`Contact::processContact`.

* `double` is an arbitrary linearly ordered field `K` (exact arithmetic); the
  square root used by `glm::normalize` is a parameter `sqrt : K → K`.
* `RigidBody *` is an address (`Nat`) into a store of bodies, so that two
  handles naming the same body alias as they do in the source.
* `exit(0)` after a diagnostic is the `Except.error` result of the constructor.
-/

set_option autoImplicit false
set_option linter.unusedSectionVars false

/-! ## glm vectors -/

/-- The `glm::dvec3` type: three scalars. -/
@[ext]
structure Vec3 (K : Type) where
  x : K
  y : K
  z : K

namespace Vec3

variable {K : Type} [LinearOrderedField K]

/-- The vector `glm::dvec3(0,0,0)`. -/
def zero : Vec3 K := ⟨0, 0, 0⟩

/-- Unary minus on `glm::dvec3`. -/
def neg (v : Vec3 K) : Vec3 K := ⟨-v.x, -v.y, -v.z⟩

/-- Componentwise sum (`operator+`, also used by `operator+=`). -/
def add (u v : Vec3 K) : Vec3 K := ⟨u.x + v.x, u.y + v.y, u.z + v.z⟩

/-- Componentwise difference (`operator-`). -/
def sub (u v : Vec3 K) : Vec3 K := ⟨u.x - v.x, u.y - v.y, u.z - v.z⟩

/-- Vector times scalar (`operator*`). -/
def scale (v : Vec3 K) (k : K) : Vec3 K := ⟨v.x * k, v.y * k, v.z * k⟩

/-- The function `glm::dot`. -/
def dot (u v : Vec3 K) : K := u.x * v.x + u.y * v.y + u.z * v.z

/-- The function `glm::cross`. -/
def cross (u v : Vec3 K) : Vec3 K :=
  ⟨u.y * v.z - v.y * u.z, u.z * v.x - v.z * u.x, u.x * v.y - v.x * u.y⟩

/-- The function `glm::normalize`: `v * inversesqrt(dot(v, v))`, with
`inversesqrt(t) = 1 / sqrt(t)`. -/
def normalize (sqrt : K → K) (v : Vec3 K) : Vec3 K := scale v (1 / sqrt (dot v v))

end Vec3

/-- A 3x3 tensor, given by its three rows. -/
structure Mat3 (K : Type) where
  r0 : Vec3 K
  r1 : Vec3 K
  r2 : Vec3 K

/-- Matrix times vector. -/
def Mat3.apply {K : Type} [LinearOrderedField K] (m : Mat3 K) (v : Vec3 K) : Vec3 K :=
  ⟨Vec3.dot m.r0 v, Vec3.dot m.r1 v, Vec3.dot m.r2 v⟩

/-- The all-zero tensor. -/
def Mat3.zero {K : Type} [LinearOrderedField K] : Mat3 K := ⟨Vec3.zero, Vec3.zero, Vec3.zero⟩

/-! ## The macros of `Contact.h` -/

section Macros

variable {K : Type} [LinearOrderedField K]

/-- The macro `isnZero(value, threshold)`:
`(value <= -threshold || value >= threshold)`. -/
def isnZero (value threshold : K) : Prop := value ≤ -threshold ∨ value ≥ threshold

/-- The macro `isZero(value, threshold)`:
`(value >= -threshold && value <= threshold)`. -/
def isZero (value threshold : K) : Prop := value ≥ -threshold ∧ value ≤ threshold

instance (value threshold : K) : Decidable (isnZero value threshold) := by
  unfold isnZero; infer_instance

instance (value threshold : K) : Decidable (isZero value threshold) := by
  unfold isZero; infer_instance

end Macros

/-! ## The rigid body -/

/-- Modelled from the spec: the class `RigidBody`, which `Contact.h` uses and does
not define. The fields are the state the spec lists for the body (inverse mass,
inverse inertia tensor, centre of mass, current velocities, the two velocity
correction accumulators `deltaV`, `deltaW`); the impulse accumulated from the
external forces and torques over a step of length `dt` is given by the two
operations `linearImpulse`, `angularImpulse`, for which the spec has no formula. -/
structure RigidBody (K : Type) where
  invMass : K
  invInertia : Mat3 K
  centerOfMass : Vec3 K
  linearVelocity : Vec3 K
  angularVelocity : Vec3 K
  linearImpulse : K → Vec3 K
  angularImpulse : K → Vec3 K
  deltaV : Vec3 K
  deltaW : Vec3 K

namespace RigidBody

variable {K : Type} [LinearOrderedField K]

/-- Modelled from the spec: `linearImpulse(dt)`, the impulse accumulated from
external forces over the step. -/
def getLinearImpulse (b : RigidBody K) (dt : K) : Vec3 K := b.linearImpulse dt

/-- Modelled from the spec: `angularImpulse(dt)`, the impulse accumulated from
external torques over the step. -/
def getAngularImpulse (b : RigidBody K) (dt : K) : Vec3 K := b.angularImpulse dt

/-- Modelled from the spec: `leverArmCross(point, direction)`, which is
`(point - centerOfMass) × direction`. -/
def getRcrossN (b : RigidBody K) (point direction : Vec3 K) : Vec3 K :=
  Vec3.cross (Vec3.sub point b.centerOfMass) direction

/-- Modelled from the spec: `scaleByInverseMass(v)`, the inverse-mass scalar
applied to `v`. -/
def getScaledByMinv (b : RigidBody K) (v : Vec3 K) : Vec3 K := Vec3.scale v b.invMass

/-- Modelled from the spec: `scaleByInverseInertia(v)`, the inverse-inertia
tensor applied to `v`. -/
def getScaledByIinv (b : RigidBody K) (v : Vec3 K) : Vec3 K := b.invInertia.apply v

/-- Modelled from the spec: `dotWithLinearVelocity(v)`. -/
def getDotWithV (b : RigidBody K) (v : Vec3 K) : K := Vec3.dot b.linearVelocity v

/-- Modelled from the spec: `dotWithAngularVelocity(v)`. -/
def getDotWithW (b : RigidBody K) (v : Vec3 K) : K := Vec3.dot b.angularVelocity v

end RigidBody

/-- The memory holding the bodies: a `RigidBody *` is an address. -/
abbrev Store (K : Type) := Nat → RigidBody K

namespace Store

variable {K : Type}

/-- The assignment `p->deltaV = v`. -/
def setDeltaV (s : Store K) (p : Nat) (v : Vec3 K) : Store K :=
  Function.update s p { s p with deltaV := v }

/-- The assignment `p->deltaW = v`. -/
def setDeltaW (s : Store K) (p : Nat) (v : Vec3 K) : Store K :=
  Function.update s p { s p with deltaW := v }

end Store

/-! ## `ContactJacobian` and `Contact` -/

/-- The struct `ContactJacobian`. -/
structure ContactJacobian (K : Type) where
  linN : Vec3 K
  angN : Vec3 K
  linN_scaledD : Vec3 K
  angN_scaledD : Vec3 K
  linN_scaledM : Vec3 K
  angN_scaledM : Vec3 K
  linT1 : Vec3 K
  angT1 : Vec3 K
  linT1_scaledD : Vec3 K
  angT1_scaledD : Vec3 K
  linT1_scaledM : Vec3 K
  angT1_scaledM : Vec3 K
  linT2 : Vec3 K
  angT2 : Vec3 K
  linT2_scaledD : Vec3 K
  angT2_scaledD : Vec3 K
  linT2_scaledM : Vec3 K
  angT2_scaledM : Vec3 K

/-- The class `Contact`: the two body handles and the public fields. -/
structure Contact (K : Type) where
  A : Nat
  B : Nat
  jA : ContactJacobian K
  jB : ContactJacobian K
  b_row1_scaledD : K
  b_row2_scaledD : K
  b_row3_scaledD : K
  lambda1 : K
  lambda2 : K
  lambda3 : K

/-- The two ways the constructor ends the process: the message
`"<row>:Two Constrained objects colliding..."` of the effective-mass check of a
row, and the message `"Contact Normal is zero."` of the tangent case split. -/
inductive Fatal where
  | degenerateConstraint (row : Nat)
  | degenerateNormal
  deriving DecidableEq

section Code

variable {K : Type} [LinearOrderedField K]

open Vec3 in
/-- `Contact::processContact(double mu)` (lines 156-194): one sweep over the three
rows, on the contact and the store holding its two bodies. -/
def Contact.processContact (c : Contact K) (s : Store K) (mu : K) : Contact K × Store K :=
  let lambda_final1 := c.lambda1 - c.b_row1_scaledD - dot c.jA.linN_scaledD (s c.A).deltaV
    - dot c.jA.angN_scaledD (s c.A).deltaW - dot c.jB.linN_scaledD (s c.B).deltaV
    - dot c.jB.angN_scaledD (s c.B).deltaW
  let lambda_final1 := if lambda_final1 < 0 then 0 else lambda_final1
  let lambda_final2 := c.lambda2 - c.b_row2_scaledD - dot c.jA.linT1_scaledD (s c.A).deltaV
    - dot c.jA.angT1_scaledD (s c.A).deltaW - dot c.jB.linT1_scaledD (s c.B).deltaV
    - dot c.jB.angT1_scaledD (s c.B).deltaW
  let max_tangent1 := mu * lambda_final1
  let lambda_final2 :=
    if lambda_final2 < -max_tangent1 then -max_tangent1
    else if lambda_final2 > max_tangent1 then max_tangent1
    else lambda_final2
  let lambda_final3 := c.lambda3 - c.b_row3_scaledD - dot c.jA.linT2_scaledD (s c.A).deltaV
    - dot c.jA.angT2_scaledD (s c.A).deltaW - dot c.jB.linT2_scaledD (s c.B).deltaV
    - dot c.jB.angT2_scaledD (s c.B).deltaW
  let max_tangent2 := mu * lambda_final1
  let lambda_final3 :=
    if lambda_final3 < -max_tangent2 then -max_tangent2
    else if lambda_final3 > max_tangent2 then max_tangent2
    else lambda_final3
  let delta_lambda1 := lambda_final1 - c.lambda1
  let delta_lambda2 := lambda_final2 - c.lambda2
  let delta_lambda3 := lambda_final3 - c.lambda3
  let s := s.setDeltaV c.A (add (s c.A).deltaV
    (add (add (scale c.jA.linN_scaledM delta_lambda1) (scale c.jA.linT1_scaledM delta_lambda2))
      (scale c.jA.linT2_scaledM delta_lambda3)))
  let s := s.setDeltaW c.A (add (s c.A).deltaW
    (add (add (scale c.jA.angN_scaledM delta_lambda1) (scale c.jA.angT1_scaledM delta_lambda2))
      (scale c.jA.angT2_scaledM delta_lambda3)))
  let s := s.setDeltaV c.B (add (s c.B).deltaV
    (add (add (scale c.jB.linN_scaledM delta_lambda1) (scale c.jB.linT1_scaledM delta_lambda2))
      (scale c.jB.linT2_scaledM delta_lambda3)))
  let s := s.setDeltaW c.B (add (s c.B).deltaW
    (add (add (scale c.jB.angN_scaledM delta_lambda1) (scale c.jB.angT1_scaledM delta_lambda2))
      (scale c.jB.angT2_scaledM delta_lambda3)))
  ({ c with lambda1 := lambda_final1, lambda2 := lambda_final2, lambda3 := lambda_final3 }, s)

/-- The case split of lines 88-98 choosing `tangent1` from the contact normal;
`none` is the branch that prints `"Contact Normal is zero."` and exits. -/
def Contact.tangent1 (contactNormal : Vec3 K) : Option (Vec3 K) :=
  if isnZero contactNormal.x (1 / 10 ^ 3) then
    some ⟨-contactNormal.y - contactNormal.z, contactNormal.x, contactNormal.x⟩
  else if isnZero contactNormal.y (1 / 10 ^ 6) then
    some ⟨contactNormal.y, -contactNormal.z - contactNormal.x, contactNormal.y⟩
  else if isnZero contactNormal.z (1 / 10 ^ 16) then
    some ⟨contactNormal.z, contactNormal.z, -contactNormal.x - contactNormal.y⟩
  else none

open Vec3 RigidBody in
/-- The constructor `Contact::Contact(A, B, contactPoint, contactNormal, bounce, dt)`
(lines 46-154), named `new` here since `Contact.Contact` would shadow the type. The result of `glm::normalize(tangent1)` on line 99 is dropped
by the source, so `tangent1` is used as the case split left it. -/
def Contact.new (sqrt : K → K) (s : Store K) (A B : Nat)
    (contactPoint contactNormal : Vec3 K) (bounce dt : K) :
    Except Fatal (Contact K × Store K) :=
  let s := s.setDeltaV A Vec3.zero
  let s := s.setDeltaW A Vec3.zero
  let s := s.setDeltaV B Vec3.zero
  let s := s.setDeltaW B Vec3.zero
  let lambda1 : K := 0
  let lambda2 : K := 0
  let lambda3 : K := 0
  let linImpA := (s A).getLinearImpulse dt
  let angImpA := (s A).getAngularImpulse dt
  let linImpB := (s B).getLinearImpulse dt
  let angImpB := (s B).getAngularImpulse dt
  -- normal direction
  let jA_linN := neg contactNormal
  let jA_angN := neg ((s A).getRcrossN contactPoint contactNormal)
  let jB_linN := contactNormal
  let jB_angN := (s B).getRcrossN contactPoint contactNormal
  let jA_linN_scaledM := (s A).getScaledByMinv jA_linN
  let jA_angN_scaledM := (s A).getScaledByIinv jA_angN
  let jB_linN_scaledM := (s B).getScaledByMinv jB_linN
  let jB_angN_scaledM := (s B).getScaledByIinv jB_angN
  let D_row1_inv := dot jA_linN jA_linN_scaledM + dot jA_angN jA_angN_scaledM +
    dot jB_linN jB_linN_scaledM + dot jB_angN jB_angN_scaledM
  if isZero D_row1_inv (1 / 10 ^ 6) then .error (.degenerateConstraint 1) else
  let D_row1_inv := 1 / D_row1_inv
  let jA_linN_scaledD := scale jA_linN D_row1_inv
  let jA_angN_scaledD := scale jA_angN D_row1_inv
  let jB_linN_scaledD := scale jB_linN D_row1_inv
  let jB_angN_scaledD := scale jB_angN D_row1_inv
  let b_row1_scaledD := dot jA_linN linImpA + dot jA_angN angImpA +
    dot jB_linN linImpB + dot jB_angN angImpB +
    bounce * ((s A).getDotWithV jA_linN + (s A).getDotWithW jA_angN +
      (s B).getDotWithV jB_linN + (s B).getDotWithW jB_angN)
  let b_row1_scaledD := b_row1_scaledD * D_row1_inv
  -- tangential direction 1
  match Contact.tangent1 contactNormal with
  | none => .error .degenerateNormal
  | some tangent1 =>
  let jA_linT1 := neg tangent1
  let jA_angT1 := neg ((s A).getRcrossN contactPoint tangent1)
  let jB_linT1 := tangent1
  let jB_angT1 := (s B).getRcrossN contactPoint tangent1
  let jA_linT1_scaledM := (s A).getScaledByMinv jA_linT1
  let jA_angT1_scaledM := (s A).getScaledByIinv jA_angT1
  let jB_linT1_scaledM := (s B).getScaledByMinv jB_linT1
  let jB_angT1_scaledM := (s B).getScaledByIinv jB_angT1
  let D_row2_inv := dot jA_linT1 jA_linT1_scaledM + dot jA_angT1 jA_angT1_scaledM +
    dot jB_linT1 jB_linT1_scaledM + dot jB_angT1 jB_angT1_scaledM
  if isZero D_row2_inv (1 / 10 ^ 6) then .error (.degenerateConstraint 2) else
  let D_row2_inv := 1 / D_row2_inv
  let jA_linT1_scaledD := scale jA_linT1 D_row2_inv
  let jA_angT1_scaledD := scale jA_angT1 D_row2_inv
  let jB_linT1_scaledD := scale jB_linT1 D_row2_inv
  let jB_angT1_scaledD := scale jB_angT1 D_row2_inv
  let b_row2_scaledD := dot jA_linT1 linImpA + dot jA_angT1 angImpA +
    dot jB_linT1 linImpB + dot jB_angT1 angImpB
  let b_row2_scaledD := b_row2_scaledD * D_row2_inv
  -- tangential direction 2
  let tangent2 := normalize sqrt (cross contactNormal tangent1)
  let jA_linT2 := neg tangent2
  let jA_angT2 := neg ((s A).getRcrossN contactPoint tangent2)
  let jB_linT2 := tangent2
  let jB_angT2 := (s B).getRcrossN contactPoint tangent2
  let jA_linT2_scaledM := (s A).getScaledByMinv jA_linT2
  let jA_angT2_scaledM := (s A).getScaledByIinv jA_angT2
  let jB_linT2_scaledM := (s B).getScaledByMinv jB_linT2
  let jB_angT2_scaledM := (s B).getScaledByIinv jB_angT2
  let D_row3_inv := dot jA_linT2 jA_linT2_scaledM + dot jA_angT2 jA_angT2_scaledM +
    dot jB_linT2 jB_linT2_scaledM + dot jB_angT2 jB_angT2_scaledM
  if isZero D_row3_inv (1 / 10 ^ 6) then .error (.degenerateConstraint 3) else
  let D_row3_inv := 1 / D_row3_inv
  let jA_linT2_scaledD := scale jA_linT2 D_row3_inv
  let jA_angT2_scaledD := scale jA_angT2 D_row3_inv
  let jB_linT2_scaledD := scale jB_linT2 D_row3_inv
  let jB_angT2_scaledD := scale jB_angT2 D_row3_inv
  let b_row3_scaledD := dot jA_linT2 linImpA + dot jA_angT2 angImpA +
    dot jB_linT2 linImpB + dot jB_angT2 angImpB
  let b_row3_scaledD := b_row3_scaledD * D_row3_inv
  .ok ({ A := A, B := B,
         jA := { linN := jA_linN, angN := jA_angN,
                 linN_scaledD := jA_linN_scaledD, angN_scaledD := jA_angN_scaledD,
                 linN_scaledM := jA_linN_scaledM, angN_scaledM := jA_angN_scaledM,
                 linT1 := jA_linT1, angT1 := jA_angT1,
                 linT1_scaledD := jA_linT1_scaledD, angT1_scaledD := jA_angT1_scaledD,
                 linT1_scaledM := jA_linT1_scaledM, angT1_scaledM := jA_angT1_scaledM,
                 linT2 := jA_linT2, angT2 := jA_angT2,
                 linT2_scaledD := jA_linT2_scaledD, angT2_scaledD := jA_angT2_scaledD,
                 linT2_scaledM := jA_linT2_scaledM, angT2_scaledM := jA_angT2_scaledM },
         jB := { linN := jB_linN, angN := jB_angN,
                 linN_scaledD := jB_linN_scaledD, angN_scaledD := jB_angN_scaledD,
                 linN_scaledM := jB_linN_scaledM, angN_scaledM := jB_angN_scaledM,
                 linT1 := jB_linT1, angT1 := jB_angT1,
                 linT1_scaledD := jB_linT1_scaledD, angT1_scaledD := jB_angT1_scaledD,
                 linT1_scaledM := jB_linT1_scaledM, angT1_scaledM := jB_angT1_scaledM,
                 linT2 := jB_linT2, angT2 := jB_angT2,
                 linT2_scaledD := jB_linT2_scaledD, angT2_scaledD := jB_angT2_scaledD,
                 linT2_scaledM := jB_linT2_scaledM, angT2_scaledM := jB_angT2_scaledM },
         b_row1_scaledD := b_row1_scaledD,
         b_row2_scaledD := b_row2_scaledD,
         b_row3_scaledD := b_row3_scaledD,
         lambda1 := lambda1, lambda2 := lambda2, lambda3 := lambda3 }, s)

/-- A finite sequence of `processContact` calls, one per friction coefficient of
the list, in order. -/
def Contact.processContacts (c : Contact K) (s : Store K) : List K → Contact K × Store K
  | [] => (c, s)
  | mu :: mus =>
    let r := c.processContact s mu
    Contact.processContacts r.1 r.2 mus

end Code

/-! ## Derived descriptions of the constructor

The definitions below restate what `Contact.new` computes in terms of the two
bodies, so that theorems can name the intermediate quantities (the row
denominators, the biases, the assembled record). Each is tied to `Contact.new`
by `Contact.new_eq`. -/

section Derived

variable {K : Type} [LinearOrderedField K]

open Vec3 RigidBody

/-- The store after lines 47-48: both bodies' accumulators set to zero. -/
def Store.zeroed (s : Store K) (A B : Nat) : Store K :=
  (((s.setDeltaV A Vec3.zero).setDeltaW A Vec3.zero).setDeltaV B Vec3.zero).setDeltaW B Vec3.zero

/-- The effective-mass denominator of the row with direction `dir`: the sum over both
bodies of `dot(lin, lin_scaledM) + dot(ang, ang_scaledM)`, with `lin = -dir` for body `A`
and `lin = dir` for body `B`. -/
def Contact.rowD (bA bB : RigidBody K) (contactPoint dir : Vec3 K) : K :=
  dot (neg dir) (bA.getScaledByMinv (neg dir)) +
    dot (neg (bA.getRcrossN contactPoint dir)) (bA.getScaledByIinv (neg (bA.getRcrossN contactPoint dir))) +
    dot dir (bB.getScaledByMinv dir) +
    dot (bB.getRcrossN contactPoint dir) (bB.getScaledByIinv (bB.getRcrossN contactPoint dir))

/-- The projection of the external impulses on the row with direction `dir`. -/
def Contact.rowImpulse (bA bB : RigidBody K) (contactPoint dir : Vec3 K) (dt : K) : K :=
  dot (neg dir) (bA.getLinearImpulse dt) + dot (neg (bA.getRcrossN contactPoint dir)) (bA.getAngularImpulse dt) +
    dot dir (bB.getLinearImpulse dt) + dot (bB.getRcrossN contactPoint dir) (bB.getAngularImpulse dt)

/-- The projection of the current velocities on the row with direction `dir`. -/
def Contact.rowVelocity (bA bB : RigidBody K) (contactPoint dir : Vec3 K) : K :=
  bA.getDotWithV (neg dir) + bA.getDotWithW (neg (bA.getRcrossN contactPoint dir)) +
    bB.getDotWithV dir + bB.getDotWithW (bB.getRcrossN contactPoint dir)

/-- The record the constructor leaves when no check fails, for the tangent `t1` chosen by
the case split. -/
def Contact.assembled (sqrt : K → K) (bA bB : RigidBody K) (A B : Nat)
    (contactPoint n t1 : Vec3 K) (bounce dt : K) : Contact K :=
  let t2 := normalize sqrt (cross n t1)
  let d1 := 1 / Contact.rowD bA bB contactPoint n
  let d2 := 1 / Contact.rowD bA bB contactPoint t1
  let d3 := 1 / Contact.rowD bA bB contactPoint t2
  { A := A, B := B,
    jA := { linN := neg n, angN := neg (bA.getRcrossN contactPoint n),
            linN_scaledD := scale (neg n) d1,
            angN_scaledD := scale (neg (bA.getRcrossN contactPoint n)) d1,
            linN_scaledM := bA.getScaledByMinv (neg n),
            angN_scaledM := bA.getScaledByIinv (neg (bA.getRcrossN contactPoint n)),
            linT1 := neg t1, angT1 := neg (bA.getRcrossN contactPoint t1),
            linT1_scaledD := scale (neg t1) d2,
            angT1_scaledD := scale (neg (bA.getRcrossN contactPoint t1)) d2,
            linT1_scaledM := bA.getScaledByMinv (neg t1),
            angT1_scaledM := bA.getScaledByIinv (neg (bA.getRcrossN contactPoint t1)),
            linT2 := neg t2, angT2 := neg (bA.getRcrossN contactPoint t2),
            linT2_scaledD := scale (neg t2) d3,
            angT2_scaledD := scale (neg (bA.getRcrossN contactPoint t2)) d3,
            linT2_scaledM := bA.getScaledByMinv (neg t2),
            angT2_scaledM := bA.getScaledByIinv (neg (bA.getRcrossN contactPoint t2)) },
    jB := { linN := n, angN := bB.getRcrossN contactPoint n,
            linN_scaledD := scale n d1,
            angN_scaledD := scale (bB.getRcrossN contactPoint n) d1,
            linN_scaledM := bB.getScaledByMinv n,
            angN_scaledM := bB.getScaledByIinv (bB.getRcrossN contactPoint n),
            linT1 := t1, angT1 := bB.getRcrossN contactPoint t1,
            linT1_scaledD := scale t1 d2,
            angT1_scaledD := scale (bB.getRcrossN contactPoint t1) d2,
            linT1_scaledM := bB.getScaledByMinv t1,
            angT1_scaledM := bB.getScaledByIinv (bB.getRcrossN contactPoint t1),
            linT2 := t2, angT2 := bB.getRcrossN contactPoint t2,
            linT2_scaledD := scale t2 d3,
            angT2_scaledD := scale (bB.getRcrossN contactPoint t2) d3,
            linT2_scaledM := bB.getScaledByMinv t2,
            angT2_scaledM := bB.getScaledByIinv (bB.getRcrossN contactPoint t2) },
    b_row1_scaledD := (Contact.rowImpulse bA bB contactPoint n dt +
      bounce * Contact.rowVelocity bA bB contactPoint n) * d1,
    b_row2_scaledD := Contact.rowImpulse bA bB contactPoint t1 dt * d2,
    b_row3_scaledD := Contact.rowImpulse bA bB contactPoint t2 dt * d3,
    lambda1 := 0, lambda2 := 0, lambda3 := 0 }

/-- The constructor's control flow over the derived quantities. -/
def Contact.newDerived (sqrt : K → K) (s : Store K) (A B : Nat)
    (contactPoint n : Vec3 K) (bounce dt : K) : Except Fatal (Contact K × Store K) :=
  let s0 := s.zeroed A B
  if isZero (Contact.rowD (s0 A) (s0 B) contactPoint n) (1 / 10 ^ 6) then
    .error (.degenerateConstraint 1)
  else match Contact.tangent1 n with
    | none => .error .degenerateNormal
    | some t1 =>
      if isZero (Contact.rowD (s0 A) (s0 B) contactPoint t1) (1 / 10 ^ 6) then
        .error (.degenerateConstraint 2)
      else if isZero (Contact.rowD (s0 A) (s0 B) contactPoint (normalize sqrt (cross n t1)))
          (1 / 10 ^ 6) then
        .error (.degenerateConstraint 3)
      else .ok (Contact.assembled sqrt (s0 A) (s0 B) A B contactPoint n t1 bounce dt, s0)

end Derived

/-- The fields of a body other than its two accumulators. -/
def RigidBody.sameFrame {K : Type} (b b' : RigidBody K) : Prop :=
  b'.invMass = b.invMass ∧ b'.invInertia = b.invInertia ∧ b'.centerOfMass = b.centerOfMass ∧
    b'.linearVelocity = b.linearVelocity ∧ b'.angularVelocity = b.angularVelocity ∧
    b'.linearImpulse = b.linearImpulse ∧ b'.angularImpulse = b.angularImpulse

/-! ## A concrete scene over `ℚ`

Body `0` is fixed (zero inverse mass and inertia), body `1` has unit inverse mass and is
pushed along `-n` by an external impulse of magnitude `3`. The contact normal
`n = (2/3, 2/3, -1/3)` has unit length, and so have the tangent `(-1/3, 2/3, 2/3)` the
case split chooses and `cross(n, t1) = (2/3, -1/3, 2/3)`: the only square root taken is
that of `1`, on which `Rat.sqrt` is exact. -/

/-- The fixed body of the scene. -/
def sceneFixed : RigidBody ℚ :=
  { invMass := 0, invInertia := Mat3.zero, centerOfMass := ⟨0, 0, 0⟩,
    linearVelocity := ⟨0, 0, 0⟩, angularVelocity := ⟨0, 0, 0⟩,
    linearImpulse := fun _ => ⟨0, 0, 0⟩, angularImpulse := fun _ => ⟨0, 0, 0⟩,
    deltaV := ⟨5, 5, 5⟩, deltaW := ⟨1, 2, 3⟩ }

/-- The movable body of the scene. -/
def sceneMovable : RigidBody ℚ :=
  { invMass := 1, invInertia := ⟨⟨1, 0, 0⟩, ⟨0, 1, 0⟩, ⟨0, 0, 1⟩⟩, centerOfMass := ⟨0, 0, 0⟩,
    linearVelocity := ⟨0, 0, 0⟩, angularVelocity := ⟨0, 0, 0⟩,
    linearImpulse := fun _ => ⟨-2, -2, 1⟩, angularImpulse := fun _ => ⟨0, 0, 0⟩,
    deltaV := ⟨7, 7, 7⟩, deltaW := ⟨0, 0, 1⟩ }

/-- The store of the scene: the fixed body at address `0`, the movable one elsewhere. -/
def sceneStore : Store ℚ := fun p => if p = 0 then sceneFixed else sceneMovable

/-- The contact normal of the scene. -/
def sceneNormal : Vec3 ℚ := ⟨2 / 3, 2 / 3, -1 / 3⟩

/-- The tangent the case split chooses for `sceneNormal`. -/
def sceneTangent : Vec3 ℚ := ⟨-1 / 3, 2 / 3, 2 / 3⟩

/-- The contact point of the scene, on the line through the centre of mass of the movable
body along the normal. -/
def scenePoint : Vec3 ℚ := ⟨-2, -2, 1⟩

/-- The contact the constructor builds in the scene. -/
def sceneContact : Contact ℚ :=
  Contact.assembled Rat.sqrt (sceneStore 0) (sceneStore 1) 0 1
    scenePoint sceneNormal sceneTangent 0 1

/-- A contact with nothing to resolve: zero biases, zero impulses and zero accumulators on
both of its bodies. -/
def Contact.Idle {K : Type} [LinearOrderedField K] (c : Contact K) (s : Store K) : Prop :=
  (c.b_row1_scaledD = 0 ∧ c.b_row2_scaledD = 0 ∧ c.b_row3_scaledD = 0) ∧
  (c.lambda1 = 0 ∧ c.lambda2 = 0 ∧ c.lambda3 = 0) ∧
  ((s c.A).deltaV = Vec3.zero ∧ (s c.A).deltaW = Vec3.zero ∧
    (s c.B).deltaV = Vec3.zero ∧ (s c.B).deltaW = Vec3.zero)

/-- What the constructor leaves for a body `B` resting on a fixed body `A` under an external
impulse of magnitude `p` against the normal `n`: the normal bias is `-p`, the tangent biases
vanish, impulses move only `B`, along `n`, and the tangent rows do not see a velocity
correction along `n`. -/
def Contact.RestsOn {K : Type} [LinearOrderedField K] (c : Contact K) (n : Vec3 K) (p : K) :
    Prop :=
  c.A ≠ c.B ∧
  (c.b_row1_scaledD = -p ∧ c.b_row2_scaledD = 0 ∧ c.b_row3_scaledD = 0) ∧
  (c.jA.linN_scaledM = Vec3.zero ∧ c.jA.angN_scaledM = Vec3.zero ∧
    c.jA.linT1_scaledM = Vec3.zero ∧ c.jA.angT1_scaledM = Vec3.zero ∧
    c.jA.linT2_scaledM = Vec3.zero ∧ c.jA.angT2_scaledM = Vec3.zero) ∧
  (c.jB.linN_scaledM = n ∧ c.jB.angN_scaledM = Vec3.zero) ∧
  (Vec3.dot c.jB.linN_scaledD n = 1 ∧ Vec3.dot c.jB.linT1_scaledD n = 0 ∧
    Vec3.dot c.jB.linT2_scaledD n = 0)

/-- The state of a resting contact that carries the normal impulse `l`: the tangent impulses
are zero, body `A` has received nothing and body `B` the velocity correction `n * l`. -/
def Contact.Carries {K : Type} [LinearOrderedField K] (c : Contact K) (s : Store K)
    (n : Vec3 K) (l : K) : Prop :=
  (c.lambda1 = l ∧ c.lambda2 = 0 ∧ c.lambda3 = 0) ∧
  ((s c.A).deltaV = Vec3.zero ∧ (s c.A).deltaW = Vec3.zero ∧
    (s c.B).deltaV = Vec3.scale n l ∧ (s c.B).deltaW = Vec3.zero)

/-- A body of the given inverse mass with zero inverse inertia, at rest at the origin, with
no external impulse. -/
def pointBody {K : Type} [LinearOrderedField K] (invMass : K) : RigidBody K :=
  { invMass := invMass, invInertia := Mat3.zero, centerOfMass := Vec3.zero,
    linearVelocity := Vec3.zero, angularVelocity := Vec3.zero,
    linearImpulse := fun _ => Vec3.zero, angularImpulse := fun _ => Vec3.zero,
    deltaV := Vec3.zero, deltaW := Vec3.zero }

/-- The unclamped candidate of the normal row (lines 158-160). -/
def Contact.cand1 {K : Type} [LinearOrderedField K] (c : Contact K) (s : Store K) : K :=
  c.lambda1 - c.b_row1_scaledD - Vec3.dot c.jA.linN_scaledD (s c.A).deltaV
    - Vec3.dot c.jA.angN_scaledD (s c.A).deltaW - Vec3.dot c.jB.linN_scaledD (s c.B).deltaV
    - Vec3.dot c.jB.angN_scaledD (s c.B).deltaW

/-- The unclamped candidate of the first tangent row (lines 164-166). -/
def Contact.cand2 {K : Type} [LinearOrderedField K] (c : Contact K) (s : Store K) : K :=
  c.lambda2 - c.b_row2_scaledD - Vec3.dot c.jA.linT1_scaledD (s c.A).deltaV
    - Vec3.dot c.jA.angT1_scaledD (s c.A).deltaW - Vec3.dot c.jB.linT1_scaledD (s c.B).deltaV
    - Vec3.dot c.jB.angT1_scaledD (s c.B).deltaW

/-- The unclamped candidate of the second tangent row (lines 172-174). -/
def Contact.cand3 {K : Type} [LinearOrderedField K] (c : Contact K) (s : Store K) : K :=
  c.lambda3 - c.b_row3_scaledD - Vec3.dot c.jA.linT2_scaledD (s c.A).deltaV
    - Vec3.dot c.jA.angT2_scaledD (s c.A).deltaW - Vec3.dot c.jB.linT2_scaledD (s c.B).deltaV
    - Vec3.dot c.jB.angT2_scaledD (s c.B).deltaW

/-- The clamp of line 162. -/
def clampNormal {K : Type} [LinearOrderedField K] (x : K) : K := if x < 0 then 0 else x

/-- The clamp of lines 169-170 and 177-178, with `m` the value of `max_tangent`. -/
def clampTangent {K : Type} [LinearOrderedField K] (x m : K) : K :=
  if x < -m then -m else if x > m then m else x

/-- The sum `v + (m1 * d1 + m2 * d2 + m3 * d3)` that lines 184-189 store back. -/
def Vec3.bump {K : Type} [LinearOrderedField K] (v m1 m2 m3 : Vec3 K) (d1 d2 d3 : K) : Vec3 K :=
  Vec3.add v (Vec3.add (Vec3.add (Vec3.scale m1 d1) (Vec3.scale m2 d2)) (Vec3.scale m3 d3))

/-- A body of the given inverse mass with zero inverse inertia, at rest at the origin, on
which the external forces put the linear impulse `imp` over every step. -/
def pushedBody {K : Type} [LinearOrderedField K] (invMass : K) (imp : Vec3 K) : RigidBody K :=
  { invMass := invMass, invInertia := Mat3.zero, centerOfMass := Vec3.zero,
    linearVelocity := Vec3.zero, angularVelocity := Vec3.zero,
    linearImpulse := fun _ => imp, angularImpulse := fun _ => Vec3.zero,
    deltaV := Vec3.zero, deltaW := Vec3.zero }

/-- The rows of a contact are mutually decoupled: for all rows `i ≠ j`, the sum over both
bodies of `dot(lin_i_scaledD, lin_j_scaledM) + dot(ang_i_scaledD, ang_j_scaledM)` is `0`. -/
def Contact.Decoupled {K : Type} [LinearOrderedField K] (c : Contact K) : Prop :=
  (Vec3.dot c.jA.linN_scaledD c.jA.linT1_scaledM + Vec3.dot c.jA.angN_scaledD c.jA.angT1_scaledM +
    Vec3.dot c.jB.linN_scaledD c.jB.linT1_scaledM + Vec3.dot c.jB.angN_scaledD c.jB.angT1_scaledM
      = 0) ∧
  (Vec3.dot c.jA.linN_scaledD c.jA.linT2_scaledM + Vec3.dot c.jA.angN_scaledD c.jA.angT2_scaledM +
    Vec3.dot c.jB.linN_scaledD c.jB.linT2_scaledM + Vec3.dot c.jB.angN_scaledD c.jB.angT2_scaledM
      = 0) ∧
  (Vec3.dot c.jA.linT1_scaledD c.jA.linN_scaledM + Vec3.dot c.jA.angT1_scaledD c.jA.angN_scaledM +
    Vec3.dot c.jB.linT1_scaledD c.jB.linN_scaledM + Vec3.dot c.jB.angT1_scaledD c.jB.angN_scaledM
      = 0) ∧
  (Vec3.dot c.jA.linT1_scaledD c.jA.linT2_scaledM +
    Vec3.dot c.jA.angT1_scaledD c.jA.angT2_scaledM +
    Vec3.dot c.jB.linT1_scaledD c.jB.linT2_scaledM +
    Vec3.dot c.jB.angT1_scaledD c.jB.angT2_scaledM = 0) ∧
  (Vec3.dot c.jA.linT2_scaledD c.jA.linN_scaledM + Vec3.dot c.jA.angT2_scaledD c.jA.angN_scaledM +
    Vec3.dot c.jB.linT2_scaledD c.jB.linN_scaledM + Vec3.dot c.jB.angT2_scaledD c.jB.angN_scaledM
      = 0) ∧
  (Vec3.dot c.jA.linT2_scaledD c.jA.linT1_scaledM +
    Vec3.dot c.jA.angT2_scaledD c.jA.angT1_scaledM +
    Vec3.dot c.jB.linT2_scaledD c.jB.linT1_scaledM +
    Vec3.dot c.jB.angT2_scaledD c.jB.angT1_scaledM = 0)

/-- Each row's D-scaled directions paired with its own mass-scaled directions sum to `1`
over both bodies. -/
def Contact.UnitDiagonal {K : Type} [LinearOrderedField K] (c : Contact K) : Prop :=
  (Vec3.dot c.jA.linN_scaledD c.jA.linN_scaledM + Vec3.dot c.jA.angN_scaledD c.jA.angN_scaledM +
    Vec3.dot c.jB.linN_scaledD c.jB.linN_scaledM + Vec3.dot c.jB.angN_scaledD c.jB.angN_scaledM
      = 1) ∧
  (Vec3.dot c.jA.linT1_scaledD c.jA.linT1_scaledM +
    Vec3.dot c.jA.angT1_scaledD c.jA.angT1_scaledM +
    Vec3.dot c.jB.linT1_scaledD c.jB.linT1_scaledM +
    Vec3.dot c.jB.angT1_scaledD c.jB.angT1_scaledM = 1) ∧
  (Vec3.dot c.jA.linT2_scaledD c.jA.linT2_scaledM +
    Vec3.dot c.jA.angT2_scaledD c.jA.angT2_scaledM +
    Vec3.dot c.jB.linT2_scaledD c.jB.linT2_scaledM +
    Vec3.dot c.jB.angT2_scaledD c.jB.angT2_scaledM = 1)

/-- The accumulators of the two bodies are what the accumulated impulses account for. -/
def Contact.Accounted {K : Type} [LinearOrderedField K] (c : Contact K) (s : Store K) : Prop :=
  (s c.A).deltaV = Vec3.add (Vec3.add (Vec3.scale c.jA.linN_scaledM c.lambda1)
      (Vec3.scale c.jA.linT1_scaledM c.lambda2)) (Vec3.scale c.jA.linT2_scaledM c.lambda3) ∧
  (s c.A).deltaW = Vec3.add (Vec3.add (Vec3.scale c.jA.angN_scaledM c.lambda1)
      (Vec3.scale c.jA.angT1_scaledM c.lambda2)) (Vec3.scale c.jA.angT2_scaledM c.lambda3) ∧
  (s c.B).deltaV = Vec3.add (Vec3.add (Vec3.scale c.jB.linN_scaledM c.lambda1)
      (Vec3.scale c.jB.linT1_scaledM c.lambda2)) (Vec3.scale c.jB.linT2_scaledM c.lambda3) ∧
  (s c.B).deltaW = Vec3.add (Vec3.add (Vec3.scale c.jB.angN_scaledM c.lambda1)
      (Vec3.scale c.jB.angT1_scaledM c.lambda2)) (Vec3.scale c.jB.angT2_scaledM c.lambda3)


/-- The four accumulator updates of lines 184-189 for given impulse changes. -/
def Contact.applyDeltas {K : Type} [LinearOrderedField K] (c : Contact K) (s : Store K)
    (d1 d2 d3 : K) : Store K :=
  let s := s.setDeltaV c.A (Vec3.bump (s c.A).deltaV c.jA.linN_scaledM c.jA.linT1_scaledM
    c.jA.linT2_scaledM d1 d2 d3)
  let s := s.setDeltaW c.A (Vec3.bump (s c.A).deltaW c.jA.angN_scaledM c.jA.angT1_scaledM
    c.jA.angT2_scaledM d1 d2 d3)
  let s := s.setDeltaV c.B (Vec3.bump (s c.B).deltaV c.jB.linN_scaledM c.jB.linT1_scaledM
    c.jB.linT2_scaledM d1 d2 d3)
  s.setDeltaW c.B (Vec3.bump (s c.B).deltaW c.jB.angN_scaledM c.jB.angT1_scaledM
    c.jB.angT2_scaledM d1 d2 d3)


/-- A store with a fixed point body at address `0` and, at every other address, a point body
of inverse mass `1` pushed by the linear impulse `imp`. -/
def pushStore {K : Type} [LinearOrderedField K] (imp : Vec3 K) : Store K :=
  fun p => if p = 0 then pointBody 0 else pushedBody 1 imp

/-- The contact the constructor builds between the bodies `0` and `1` of `pushStore imp`, with
the contact point and normal of the scene. -/
def pushContact (imp : Vec3 ℚ) (bounce dt : ℚ) : Contact ℚ :=
  Contact.assembled Rat.sqrt (pushStore imp 0) (pushStore imp 1) 0 1 scenePoint sceneNormal
    sceneTangent bounce dt


/-- Two `processContact` calls in a row with the same friction coefficient. -/
def Contact.processTwice {K : Type} [LinearOrderedField K] (c : Contact K) (s : Store K)
    (mu : K) : Contact K × Store K :=
  (c.processContact s mu).1.processContact (c.processContact s mu).2 mu

/-- The contact the constructor builds when both handles name the same point body of inverse
mass `1`, in the frame of the scene. -/
def selfContact : Contact ℚ :=
  Contact.assembled Rat.sqrt (pointBody 1) (pointBody 1) 0 0 scenePoint sceneNormal sceneTangent
    0 1


/-- A store in which every address holds a point body of inverse mass `1`. -/
def selfStore : Store ℚ := fun _ => pointBody 1

/-- The contact `selfContact` holding the normal impulse `1`. -/
def selfLoaded : Contact ℚ := { selfContact with lambda1 := 1 }


/-- The contact `c` with its three accumulated impulses set to `l1`, `l2`, `l3` (the fields
are public). -/
def Contact.withImpulses {K : Type} (c : Contact K) (l1 l2 l3 : K) : Contact K :=
  { c with lambda1 := l1, lambda2 := l2, lambda3 := l3 }


section Lemmas

variable {K : Type} [LinearOrderedField K]

theorem Contact.new_eq (sqrt : K → K) (s : Store K) (A B : Nat)
    (contactPoint n : Vec3 K) (bounce dt : K) :
    Contact.new sqrt s A B contactPoint n bounce dt =
      Contact.newDerived sqrt s A B contactPoint n bounce dt := by
  unfold Contact.new Contact.newDerived
  rfl

/-! ### Vector algebra -/

@[simp] theorem Vec3.dot_zero_right (v : Vec3 K) : Vec3.dot v Vec3.zero = 0 := by
  simp [Vec3.dot, Vec3.zero]

@[simp] theorem Vec3.dot_zero_left (v : Vec3 K) : Vec3.dot Vec3.zero v = 0 := by
  simp [Vec3.dot, Vec3.zero]

@[simp] theorem Vec3.scale_zero (v : Vec3 K) : Vec3.scale v 0 = Vec3.zero := by
  simp [Vec3.scale, Vec3.zero]

@[simp] theorem Vec3.zero_scale (k : K) : Vec3.scale Vec3.zero k = Vec3.zero := by
  simp [Vec3.scale, Vec3.zero]

@[simp] theorem Vec3.neg_zero : Vec3.neg (Vec3.zero : Vec3 K) = Vec3.zero := by
  simp [Vec3.neg, Vec3.zero]

@[simp] theorem Vec3.add_zero_right (v : Vec3 K) : Vec3.add v Vec3.zero = v := by
  simp [Vec3.add, Vec3.zero]

@[simp] theorem Vec3.add_zero_left (v : Vec3 K) : Vec3.add Vec3.zero v = v := by
  simp [Vec3.add, Vec3.zero]

@[simp] theorem Vec3.cross_zero_right (v : Vec3 K) : Vec3.cross v Vec3.zero = Vec3.zero := by
  simp [Vec3.cross, Vec3.zero]

@[simp] theorem Mat3.apply_zero (m : Mat3 K) : m.apply Vec3.zero = Vec3.zero := by
  simp [Mat3.apply, Vec3.zero, Vec3.dot]

@[simp] theorem Mat3.zero_apply (v : Vec3 K) : (Mat3.zero : Mat3 K).apply v = Vec3.zero := by
  simp [Mat3.apply, Mat3.zero]
  rfl

theorem Vec3.dot_scale_left (u v : Vec3 K) (k : K) :
    Vec3.dot (Vec3.scale u k) v = k * Vec3.dot u v := by
  simp only [Vec3.dot, Vec3.scale]; ring

theorem Vec3.dot_scale_right (u v : Vec3 K) (k : K) :
    Vec3.dot u (Vec3.scale v k) = k * Vec3.dot u v := by
  simp only [Vec3.dot, Vec3.scale]; ring

theorem Vec3.dot_comm (u v : Vec3 K) : Vec3.dot u v = Vec3.dot v u := by
  simp only [Vec3.dot]; ring

theorem Vec3.dot_neg_left (u v : Vec3 K) : Vec3.dot (Vec3.neg u) v = -Vec3.dot u v := by
  simp only [Vec3.dot, Vec3.neg]; ring

theorem Vec3.dot_cross_left (u v : Vec3 K) : Vec3.dot (Vec3.cross u v) u = 0 := by
  simp only [Vec3.dot, Vec3.cross]; ring

theorem Vec3.dot_cross_right (u v : Vec3 K) : Vec3.dot (Vec3.cross u v) v = 0 := by
  simp only [Vec3.dot, Vec3.cross]; ring

/-- Lagrange's identity for `glm::cross`. -/
theorem Vec3.dot_cross_self (u v : Vec3 K) :
    Vec3.dot (Vec3.cross u v) (Vec3.cross u v) =
      Vec3.dot u u * Vec3.dot v v - Vec3.dot u v ^ 2 := by
  simp only [Vec3.dot, Vec3.cross]; ring

theorem Vec3.dot_self_nonneg (v : Vec3 K) : 0 ≤ Vec3.dot v v := by
  simp only [Vec3.dot]
  nlinarith [mul_self_nonneg v.x, mul_self_nonneg v.y, mul_self_nonneg v.z]

theorem Vec3.dot_self_pos_of_x (v : Vec3 K) (h : v.x ≠ 0) : 0 < Vec3.dot v v := by
  simp only [Vec3.dot]
  nlinarith [mul_self_pos.mpr h, mul_self_nonneg v.y, mul_self_nonneg v.z]

theorem Vec3.dot_self_pos_of_y (v : Vec3 K) (h : v.y ≠ 0) : 0 < Vec3.dot v v := by
  simp only [Vec3.dot]
  nlinarith [mul_self_pos.mpr h, mul_self_nonneg v.x, mul_self_nonneg v.z]

theorem Vec3.dot_self_pos_of_z (v : Vec3 K) (h : v.z ≠ 0) : 0 < Vec3.dot v v := by
  simp only [Vec3.dot]
  nlinarith [mul_self_pos.mpr h, mul_self_nonneg v.x, mul_self_nonneg v.y]

theorem Vec3.ne_zero_of_dot_self_pos (v : Vec3 K) (h : 0 < Vec3.dot v v) : v ≠ Vec3.zero := by
  intro hv
  rw [hv, Vec3.dot_zero_left] at h
  exact lt_irrefl _ h

/-- The result of `glm::normalize` has unit length when `sqrt` squares back to the squared
length of a non-zero vector. -/
theorem Vec3.dot_normalize_self (sqrt : K → K) (v : Vec3 K) (hv : 0 < Vec3.dot v v)
    (hs : sqrt (Vec3.dot v v) * sqrt (Vec3.dot v v) = Vec3.dot v v) :
    Vec3.dot (Vec3.normalize sqrt v) (Vec3.normalize sqrt v) = 1 := by
  have hne : sqrt (Vec3.dot v v) ≠ 0 := by
    intro h0
    rw [h0, mul_zero] at hs
    exact absurd hs.symm (ne_of_gt hv)
  unfold Vec3.normalize
  rw [Vec3.dot_scale_left, Vec3.dot_scale_right]
  generalize sqrt (Vec3.dot v v) = r at hs hne
  rw [← hs]
  field_simp

/-- An active `isnZero` test against a positive threshold excludes `0`. -/
theorem ne_zero_of_isnZero (v t : K) (ht : 0 < t) (h : isnZero v t) : v ≠ 0 := by
  intro hv
  unfold isnZero at h
  rw [hv] at h
  rcases h with h | h <;> linarith

/-- The three branches of the tangent case split. -/
theorem Contact.tangent1_cases (n t1 : Vec3 K) (h : Contact.tangent1 n = some t1) :
    (isnZero n.x (1 / 10 ^ 3) ∧ t1 = ⟨-n.y - n.z, n.x, n.x⟩) ∨
    (¬ isnZero n.x (1 / 10 ^ 3) ∧ isnZero n.y (1 / 10 ^ 6) ∧ t1 = ⟨n.y, -n.z - n.x, n.y⟩) ∨
    (¬ isnZero n.x (1 / 10 ^ 3) ∧ ¬ isnZero n.y (1 / 10 ^ 6) ∧ isnZero n.z (1 / 10 ^ 16) ∧
      t1 = ⟨n.z, n.z, -n.x - n.y⟩) := by
  unfold Contact.tangent1 at h
  split_ifs at h with hx hy hz
  · exact Or.inl ⟨hx, (Option.some.inj h).symm⟩
  · exact Or.inr (Or.inl ⟨hx, hy, (Option.some.inj h).symm⟩)
  · exact Or.inr (Or.inr ⟨hx, hy, hz, (Option.some.inj h).symm⟩)

/-- The chosen tangent is orthogonal to the normal, and both have positive squared length. -/
theorem Contact.tangent1_spec (n t1 : Vec3 K) (h : Contact.tangent1 n = some t1) :
    Vec3.dot t1 n = 0 ∧ 0 < Vec3.dot t1 t1 ∧ 0 < Vec3.dot n n := by
  rcases Contact.tangent1_cases n t1 h with ⟨hx, rfl⟩ | ⟨-, hy, rfl⟩ | ⟨-, -, hz, rfl⟩
  · have h0 := ne_zero_of_isnZero _ _ (by positivity) hx
    refine ⟨?_, Vec3.dot_self_pos_of_y _ h0, Vec3.dot_self_pos_of_x _ h0⟩
    simp only [Vec3.dot]; ring
  · have h0 := ne_zero_of_isnZero _ _ (by positivity) hy
    refine ⟨?_, Vec3.dot_self_pos_of_x _ h0, Vec3.dot_self_pos_of_y _ h0⟩
    simp only [Vec3.dot]; ring
  · have h0 := ne_zero_of_isnZero _ _ (by positivity) hz
    refine ⟨?_, Vec3.dot_self_pos_of_x _ h0, Vec3.dot_self_pos_of_z _ h0⟩
    simp only [Vec3.dot]; ring

/-- The cross product of the normal with the chosen tangent has positive squared length. -/
theorem Contact.cross_tangent1_pos (n t1 : Vec3 K) (h : Contact.tangent1 n = some t1) :
    0 < Vec3.dot (Vec3.cross n t1) (Vec3.cross n t1) := by
  obtain ⟨h0, ht, hn⟩ := Contact.tangent1_spec n t1 h
  rw [Vec3.dot_cross_self, Vec3.dot_comm n t1, h0]
  have := mul_pos hn ht
  simpa using this

/-- The threshold `1e-6` of the effective-mass checks contains `0`. -/
theorem isZero_zero : isZero (0 : K) (1 / 10 ^ 6) := by
  unfold isZero
  constructor
  · simp
  · positivity

/-- The macro `isnZero` in terms of the absolute value. -/
theorem isnZero_iff_abs (v t : K) : isnZero v t ↔ t ≤ |v| := by
  unfold isnZero
  rw [le_abs']

/-- The macro `isZero` in terms of the absolute value. -/
theorem isZero_iff_abs (v t : K) : isZero v t ↔ |v| ≤ t := by
  unfold isZero
  rw [abs_le]

/-- A row along the zero direction has denominator `0`. -/
theorem Contact.rowD_zero_dir (bA bB : RigidBody K) (cp : Vec3 K) :
    Contact.rowD bA bB cp Vec3.zero = 0 := by
  simp [Contact.rowD, RigidBody.getRcrossN, RigidBody.getScaledByMinv,
    RigidBody.getScaledByIinv]

/-- Two bodies without inverse mass and inverse inertia give every row denominator `0`. -/
theorem Contact.rowD_immovable (bA bB : RigidBody K) (cp dir : Vec3 K)
    (hA : bA.invMass = 0) (hA' : bA.invInertia = Mat3.zero)
    (hB : bB.invMass = 0) (hB' : bB.invInertia = Mat3.zero) :
    Contact.rowD bA bB cp dir = 0 := by
  simp [Contact.rowD, RigidBody.getScaledByMinv, RigidBody.getScaledByIinv, hA, hA', hB, hB']

/-! ### Reading the store after an assignment -/

@[simp] theorem Store.setDeltaV_deltaV (s : Store K) (p q : Nat) (v : Vec3 K) :
    (s.setDeltaV p v q).deltaV = if q = p then v else (s q).deltaV := by
  unfold Store.setDeltaV Function.update
  split_ifs with h
  · subst h; rfl
  · rfl

@[simp] theorem Store.setDeltaV_deltaW (s : Store K) (p q : Nat) (v : Vec3 K) :
    (s.setDeltaV p v q).deltaW = (s q).deltaW := by
  unfold Store.setDeltaV Function.update
  split_ifs with h
  · subst h; rfl
  · rfl

@[simp] theorem Store.setDeltaW_deltaW (s : Store K) (p q : Nat) (v : Vec3 K) :
    (s.setDeltaW p v q).deltaW = if q = p then v else (s q).deltaW := by
  unfold Store.setDeltaW Function.update
  split_ifs with h
  · subst h; rfl
  · rfl

@[simp] theorem Store.setDeltaW_deltaV (s : Store K) (p q : Nat) (v : Vec3 K) :
    (s.setDeltaW p v q).deltaV = (s q).deltaV := by
  unfold Store.setDeltaW Function.update
  split_ifs with h
  · subst h; rfl
  · rfl

theorem Store.setDeltaV_frame (s : Store K) (p q : Nat) (v : Vec3 K) :
    RigidBody.sameFrame (s q) (s.setDeltaV p v q) := by
  unfold Store.setDeltaV Function.update RigidBody.sameFrame
  split_ifs with h
  · subst h; simp
  · simp

theorem Store.setDeltaW_frame (s : Store K) (p q : Nat) (v : Vec3 K) :
    RigidBody.sameFrame (s q) (s.setDeltaW p v q) := by
  unfold Store.setDeltaW Function.update RigidBody.sameFrame
  split_ifs with h
  · subst h; simp
  · simp

theorem RigidBody.sameFrame.trans {a b c : RigidBody K} (h₁ : RigidBody.sameFrame a b)
    (h₂ : RigidBody.sameFrame b c) : RigidBody.sameFrame a c := by
  unfold RigidBody.sameFrame at *
  obtain ⟨a1, a2, a3, a4, a5, a6, a7⟩ := h₁
  obtain ⟨b1, b2, b3, b4, b5, b6, b7⟩ := h₂
  exact ⟨b1.trans a1, b2.trans a2, b3.trans a3, b4.trans a4, b5.trans a5, b6.trans a6,
    b7.trans a7⟩

theorem Store.zeroed_frame (s : Store K) (A B q : Nat) :
    RigidBody.sameFrame (s q) (s.zeroed A B q) := by
  unfold Store.zeroed
  exact (((Store.setDeltaV_frame s A q _).trans (Store.setDeltaW_frame _ A q _)).trans
    (Store.setDeltaV_frame _ B q _)).trans (Store.setDeltaW_frame _ B q _)

theorem Store.zeroed_deltaV (s : Store K) (A B q : Nat) :
    (s.zeroed A B q).deltaV = if q = A ∨ q = B then Vec3.zero else (s q).deltaV := by
  unfold Store.zeroed
  simp only [Store.setDeltaW_deltaV, Store.setDeltaV_deltaV]
  by_cases hB : q = B <;> by_cases hA : q = A <;> simp [hA, hB]

theorem Store.zeroed_deltaW (s : Store K) (A B q : Nat) :
    (s.zeroed A B q).deltaW = if q = A ∨ q = B then Vec3.zero else (s q).deltaW := by
  unfold Store.zeroed
  simp only [Store.setDeltaW_deltaW, Store.setDeltaV_deltaW]
  by_cases hB : q = B <;> by_cases hA : q = A <;> simp [hA, hB]

/-- The derived row quantities read only the frame of the two bodies. -/
theorem Contact.rowD_congr {bA bA' bB bB' : RigidBody K} (hA : RigidBody.sameFrame bA bA')
    (hB : RigidBody.sameFrame bB bB') (cp dir : Vec3 K) :
    Contact.rowD bA' bB' cp dir = Contact.rowD bA bB cp dir := by
  obtain ⟨a1, a2, a3, -, -, -, -⟩ := hA
  obtain ⟨b1, b2, b3, -, -, -, -⟩ := hB
  simp only [Contact.rowD, RigidBody.getScaledByMinv, RigidBody.getScaledByIinv,
    RigidBody.getRcrossN, a1, a2, a3, b1, b2, b3]

theorem Contact.rowD_zeroed (s : Store K) (A B : Nat) (cp dir : Vec3 K) :
    Contact.rowD (s.zeroed A B A) (s.zeroed A B B) cp dir = Contact.rowD (s A) (s B) cp dir :=
  Contact.rowD_congr (Store.zeroed_frame s A B A) (Store.zeroed_frame s A B B) cp dir

/-- The assembled record reads only the frame of the two bodies. -/
theorem Contact.assembled_congr {bA bA' bB bB' : RigidBody K} (hA : RigidBody.sameFrame bA bA')
    (hB : RigidBody.sameFrame bB bB') (sqrt : K → K) (A B : Nat) (cp n t1 : Vec3 K)
    (bounce dt : K) :
    Contact.assembled sqrt bA' bB' A B cp n t1 bounce dt =
      Contact.assembled sqrt bA bB A B cp n t1 bounce dt := by
  obtain ⟨a1, a2, a3, a4, a5, a6, a7⟩ := hA
  obtain ⟨b1, b2, b3, b4, b5, b6, b7⟩ := hB
  simp only [Contact.assembled, Contact.rowD, Contact.rowImpulse, Contact.rowVelocity,
    RigidBody.getScaledByMinv, RigidBody.getScaledByIinv, RigidBody.getRcrossN,
    RigidBody.getLinearImpulse, RigidBody.getAngularImpulse, RigidBody.getDotWithV,
    RigidBody.getDotWithW, a1, a2, a3, a4, a5, a6, a7, b1, b2, b3, b4, b5, b6, b7]

theorem Contact.assembled_zeroed (s : Store K) (sqrt : K → K) (A B : Nat) (cp n t1 : Vec3 K)
    (bounce dt : K) :
    Contact.assembled sqrt (s.zeroed A B A) (s.zeroed A B B) A B cp n t1 bounce dt =
      Contact.assembled sqrt (s A) (s B) A B cp n t1 bounce dt :=
  Contact.assembled_congr (Store.zeroed_frame s A B A) (Store.zeroed_frame s A B B) _ _ _ _ _ _
    _ _

/-- The constructor stops at the first check when the normal row's denominator is within the
threshold. -/
theorem Contact.new_row1 (sqrt : K → K) (s : Store K) (A B : Nat) (cp n : Vec3 K) (bounce dt : K)
    (h : isZero (Contact.rowD (s A) (s B) cp n) (1 / 10 ^ 6)) :
    Contact.new sqrt s A B cp n bounce dt = .error (.degenerateConstraint 1) := by
  rw [Contact.new_eq]
  simp only [Contact.newDerived, Contact.rowD_zeroed, if_pos h]

/-- The constructor's outcome in terms of the denominators of the two bodies as given. -/
theorem Contact.new_cases (sqrt : K → K) (s : Store K) (A B : Nat) (cp n : Vec3 K)
    (bounce dt : K) :
    Contact.new sqrt s A B cp n bounce dt =
      if isZero (Contact.rowD (s A) (s B) cp n) (1 / 10 ^ 6) then
        .error (.degenerateConstraint 1)
      else match Contact.tangent1 n with
        | none => .error .degenerateNormal
        | some t1 =>
          if isZero (Contact.rowD (s A) (s B) cp t1) (1 / 10 ^ 6) then
            .error (.degenerateConstraint 2)
          else if isZero (Contact.rowD (s A) (s B) cp (Vec3.normalize sqrt (Vec3.cross n t1)))
              (1 / 10 ^ 6) then
            .error (.degenerateConstraint 3)
          else .ok (Contact.assembled sqrt (s A) (s B) A B cp n t1
            bounce dt, s.zeroed A B) := by
  rw [Contact.new_eq]
  simp only [Contact.newDerived, Contact.rowD_zeroed, Contact.assembled_zeroed]

/-- The denominator of a row between two bodies without inverse inertia. -/
theorem Contact.rowD_pointBody (a b : K) (cp dir : Vec3 K) :
    Contact.rowD (pointBody a) (pointBody b) cp dir = (a + b) * Vec3.dot dir dir := by
  simp only [Contact.rowD, pointBody, RigidBody.getScaledByMinv, RigidBody.getScaledByIinv,
    Mat3.zero_apply, Vec3.dot_zero_right]
  simp only [Vec3.dot, Vec3.neg, Vec3.scale]
  ring

/-! ### The resolve step -/

/-- The two-sided clamp of lines 169-170 and 177-178 lands in `[-m, m]` when `m ≥ 0`. -/
theorem abs_clamp_le (x m : K) (hm : 0 ≤ m) :
    |if x < -m then -m else if x > m then m else x| ≤ m := by
  rw [abs_le]
  split_ifs with a b <;> constructor <;> linarith

theorem Contact.processContact_lambda1_nonneg (c : Contact K) (s : Store K) (mu : K) :
    0 ≤ (c.processContact s mu).1.lambda1 := by
  simp only [Contact.processContact]
  split_ifs with h
  · exact le_refl 0
  · exact not_lt.mp h

theorem Contact.processContacts_lambda1_nonneg (c : Contact K) (s : Store K) (mus : List K)
    (h : 0 ≤ c.lambda1) : 0 ≤ (c.processContacts s mus).1.lambda1 := by
  induction mus generalizing c s with
  | nil => exact h
  | cons mu mus ih =>
    simp only [Contact.processContacts]
    exact ih _ _ (Contact.processContact_lambda1_nonneg c s mu)

/-- What a successful construction returned. -/
theorem Contact.new_ok {sqrt : K → K} {s : Store K} {A B : Nat} {cp n : Vec3 K} {bounce dt : K}
    {c : Contact K} {s' : Store K} (h : Contact.new sqrt s A B cp n bounce dt = .ok (c, s')) :
    ∃ t1, Contact.tangent1 n = some t1 ∧
      ¬ isZero (Contact.rowD (s A) (s B) cp n) (1 / 10 ^ 6) ∧
      ¬ isZero (Contact.rowD (s A) (s B) cp t1) (1 / 10 ^ 6) ∧
      ¬ isZero (Contact.rowD (s A) (s B) cp (Vec3.normalize sqrt (Vec3.cross n t1))) (1 / 10 ^ 6) ∧
      c = Contact.assembled sqrt (s A) (s B) A B cp n t1 bounce dt ∧
      s' = s.zeroed A B := by
  rw [Contact.new_eq] at h
  simp only [Contact.newDerived, Contact.rowD_zeroed, Contact.assembled_zeroed] at h
  split_ifs at h with h1
  split at h
  · cases h
  · rename_i t1 ht1
    split_ifs at h with h2 h3
    simp only [Except.ok.injEq, Prod.mk.injEq] at h
    exact ⟨t1, ht1, h1, h2, h3, h.1.symm, h.2.symm⟩

/-- The constructor succeeds when the three denominators clear the threshold and the
case split chooses a tangent. -/
theorem Contact.new_of_checks (sqrt : K → K) (s : Store K) (A B : Nat) (cp n t1 : Vec3 K)
    (bounce dt : K) (ht1 : Contact.tangent1 n = some t1)
    (h1 : ¬ isZero (Contact.rowD (s A) (s B) cp n) (1 / 10 ^ 6))
    (h2 : ¬ isZero (Contact.rowD (s A) (s B) cp t1) (1 / 10 ^ 6))
    (h3 : ¬ isZero (Contact.rowD (s A) (s B) cp (Vec3.normalize sqrt (Vec3.cross n t1)))
      (1 / 10 ^ 6)) :
    Contact.new sqrt s A B cp n bounce dt =
      .ok (Contact.assembled sqrt (s A) (s B) A B cp n t1 bounce dt,
        s.zeroed A B) := by
  rw [Contact.new_eq]
  simp only [Contact.newDerived, Contact.rowD_zeroed, Contact.assembled_zeroed, ht1, if_neg h1,
    if_neg h2, if_neg h3]

theorem Contact.processContact_A (c : Contact K) (s : Store K) (mu : K) :
    (c.processContact s mu).1.A = c.A := rfl

theorem Contact.processContact_B (c : Contact K) (s : Store K) (mu : K) :
    (c.processContact s mu).1.B = c.B := rfl

theorem Contact.processContacts_A (c : Contact K) (s : Store K) (mus : List K) :
    (c.processContacts s mus).1.A = c.A := by
  induction mus generalizing c s with
  | nil => rfl
  | cons mu mus ih => simp only [Contact.processContacts]; rw [ih]; rfl

theorem Contact.processContacts_B (c : Contact K) (s : Store K) (mus : List K) :
    (c.processContacts s mus).1.B = c.B := by
  induction mus generalizing c s with
  | nil => rfl
  | cons mu mus ih => simp only [Contact.processContacts]; rw [ih]; rfl

/-- An idle contact stays idle under `processContact`, whatever the friction coefficient. -/
theorem Contact.Idle.idle_step {c : Contact K} {s : Store K} (h : c.Idle s) (mu : K) :
    (c.processContact s mu).1.Idle (c.processContact s mu).2 := by
  obtain ⟨⟨b1, b2, b3⟩, ⟨l1, l2, l3⟩, ⟨aV, aW, bV, bW⟩⟩ := h
  simp [Contact.Idle, Contact.processContact, b1, b2, b3, l1, l2, l3, aV, aW, bV, bW]

theorem Contact.Idle.idle_steps {c : Contact K} {s : Store K} (h : c.Idle s)
    (mus : List K) : (c.processContacts s mus).1.Idle (c.processContacts s mus).2 := by
  induction mus generalizing c s with
  | nil => exact h
  | cons mu mus ih =>
    simp only [Contact.processContacts]
    exact ih (h.idle_step mu)

/-- Between bodies at rest with no external impulse, a constructed contact is idle. -/
theorem Contact.assembled_idle (sqrt : K → K) (s : Store K) (A B : Nat) (cp n t1 : Vec3 K)
    (bounce dt : K)
    (hvA : (s A).linearVelocity = Vec3.zero) (hwA : (s A).angularVelocity = Vec3.zero)
    (hvB : (s B).linearVelocity = Vec3.zero) (hwB : (s B).angularVelocity = Vec3.zero)
    (hiA : (s A).getLinearImpulse dt = Vec3.zero) (hjA : (s A).getAngularImpulse dt = Vec3.zero)
    (hiB : (s B).getLinearImpulse dt = Vec3.zero) (hjB : (s B).getAngularImpulse dt = Vec3.zero) :
    (Contact.assembled sqrt (s A) (s B) A B cp n t1 bounce dt).Idle (s.zeroed A B) := by
  refine ⟨⟨?_, ?_, ?_⟩, ⟨rfl, rfl, rfl⟩, ⟨?_, ?_, ?_, ?_⟩⟩
  · simp [Contact.assembled, Contact.rowImpulse, Contact.rowVelocity, RigidBody.getDotWithV,
      RigidBody.getDotWithW, hvA, hwA, hvB, hwB, hiA, hjA, hiB, hjB]
  · simp [Contact.assembled, Contact.rowImpulse, hiA, hjA, hiB, hjB]
  · simp [Contact.assembled, Contact.rowImpulse, hiA, hjA, hiB, hjB]
  · show (s.zeroed A B A).deltaV = Vec3.zero
    rw [Store.zeroed_deltaV, if_pos (Or.inl rfl)]
  · show (s.zeroed A B A).deltaW = Vec3.zero
    rw [Store.zeroed_deltaW, if_pos (Or.inl rfl)]
  · show (s.zeroed A B B).deltaV = Vec3.zero
    rw [Store.zeroed_deltaV, if_pos (Or.inr rfl)]
  · show (s.zeroed A B B).deltaW = Vec3.zero
    rw [Store.zeroed_deltaW, if_pos (Or.inr rfl)]

theorem Contact.RestsOn.rests_step {c : Contact K} {n : Vec3 K} {p : K}
    (h : c.RestsOn n p) (s : Store K) (mu : K) : (c.processContact s mu).1.RestsOn n p := h

/-- One resolve step of a resting contact: whatever normal impulse it carried, it carries
`p` afterwards. -/
theorem Contact.Carries.carries_step {c : Contact K} {s : Store K} {n : Vec3 K} {p l : K}
    (hS : c.RestsOn n p) (hC : c.Carries s n l) (hp : 0 ≤ p) (mu : K) (hmu : 0 ≤ mu) :
    (c.processContact s mu).1.Carries (c.processContact s mu).2 n p := by
  obtain ⟨hne, ⟨b1, b2, b3⟩, ⟨m1, m2, m3, m4, m5, m6⟩, ⟨mB1, mB2⟩, ⟨d1, d2, d3⟩⟩ := hS
  obtain ⟨⟨l1, l2, l3⟩, ⟨aV, aW, bV, bW⟩⟩ := hC
  have e1 : c.lambda1 - c.b_row1_scaledD - Vec3.dot c.jA.linN_scaledD (s c.A).deltaV
      - Vec3.dot c.jA.angN_scaledD (s c.A).deltaW - Vec3.dot c.jB.linN_scaledD (s c.B).deltaV
      - Vec3.dot c.jB.angN_scaledD (s c.B).deltaW = p := by
    rw [l1, b1, aV, aW, bV, bW, Vec3.dot_zero_right, Vec3.dot_zero_right, Vec3.dot_zero_right,
      Vec3.dot_scale_right, d1]
    ring
  have e2 : c.lambda2 - c.b_row2_scaledD - Vec3.dot c.jA.linT1_scaledD (s c.A).deltaV
      - Vec3.dot c.jA.angT1_scaledD (s c.A).deltaW - Vec3.dot c.jB.linT1_scaledD (s c.B).deltaV
      - Vec3.dot c.jB.angT1_scaledD (s c.B).deltaW = 0 := by
    rw [l2, b2, aV, aW, bV, bW, Vec3.dot_zero_right, Vec3.dot_zero_right, Vec3.dot_zero_right,
      Vec3.dot_scale_right, d2]
    ring
  have e3 : c.lambda3 - c.b_row3_scaledD - Vec3.dot c.jA.linT2_scaledD (s c.A).deltaV
      - Vec3.dot c.jA.angT2_scaledD (s c.A).deltaW - Vec3.dot c.jB.linT2_scaledD (s c.B).deltaV
      - Vec3.dot c.jB.angT2_scaledD (s c.B).deltaW = 0 := by
    rw [l3, b3, aV, aW, bV, bW, Vec3.dot_zero_right, Vec3.dot_zero_right, Vec3.dot_zero_right,
      Vec3.dot_scale_right, d3]
    ring
  have hmp : 0 ≤ mu * p := mul_nonneg hmu hp
  have c1 : ¬ p < 0 := not_lt.mpr hp
  have c2 : ¬ (0 < -(mu * p)) := by linarith
  have c3 : ¬ (0 > mu * p) := not_lt.mpr hmp
  have hne' : c.B ≠ c.A := fun h => hne h.symm
  simp only [Contact.Carries, Contact.processContact, e1, e2, e3, if_neg c1, if_neg c2,
    if_neg c3]
  refine ⟨by simp, ?_, ?_, ?_, ?_⟩
  · simp [hne, hne', aV, aW, bV, bW, m1, m2, m3, m4, m5, m6, mB1, mB2, l1, l2, l3]
  · simp [hne, hne', aV, aW, bV, bW, m1, m2, m3, m4, m5, m6, mB1, mB2, l1, l2, l3]
  · simp [hne, hne', aV, aW, bV, bW, m1, m2, m3, m4, m5, m6, mB1, mB2, l1, l2, l3]
    simp only [Vec3.add, Vec3.scale, Vec3.zero]
    ext <;> simp <;> ring
  · simp [hne, hne', aV, aW, bV, bW, m1, m2, m3, m4, m5, m6, mB1, mB2, l1, l2, l3]

theorem Vec3.scale_one (v : Vec3 K) : Vec3.scale v 1 = v := by
  simp [Vec3.scale]

/-- The contact the constructor builds for a unit-mass body resting on a fixed one. -/
theorem Contact.assembled_restsOn (sqrt : K → K) (bA bB : RigidBody K) (A B : Nat)
    (cp n t1 : Vec3 K) (bounce dt p : K) (hAB : A ≠ B)
    (hmA : bA.invMass = 0) (hIA : bA.invInertia = Mat3.zero)
    (hvA : bA.linearVelocity = Vec3.zero) (hwA : bA.angularVelocity = Vec3.zero)
    (hiA : bA.getLinearImpulse dt = Vec3.zero) (hjA : bA.getAngularImpulse dt = Vec3.zero)
    (hmB : bB.invMass = 1)
    (hvB : bB.linearVelocity = Vec3.zero) (hwB : bB.angularVelocity = Vec3.zero)
    (hiB : bB.getLinearImpulse dt = Vec3.scale n (-p))
    (hjB : bB.getAngularImpulse dt = Vec3.zero)
    (hn : Vec3.dot n n = 1) (hr : bB.getRcrossN cp n = Vec3.zero)
    (ht : Contact.tangent1 n = some t1) :
    (Contact.assembled sqrt bA bB A B cp n t1 bounce dt).RestsOn n p := by
  have ht1n : Vec3.dot t1 n = 0 := (Contact.tangent1_spec n t1 ht).1
  have ht2n : Vec3.dot (Vec3.normalize sqrt (Vec3.cross n t1)) n = 0 := by
    unfold Vec3.normalize
    rw [Vec3.dot_scale_left, Vec3.dot_cross_left, mul_zero]
  have hD1 : Contact.rowD bA bB cp n = 1 := by
    simp [Contact.rowD, RigidBody.getScaledByMinv, RigidBody.getScaledByIinv, hmA, hIA, hmB, hr,
      Vec3.scale_one, hn]
  have hI1 : Contact.rowImpulse bA bB cp n dt = -p := by
    simp [Contact.rowImpulse, hiA, hjA, hiB, hjB, Vec3.dot_scale_right, hn]
  have hV1 : Contact.rowVelocity bA bB cp n = 0 := by
    simp [Contact.rowVelocity, RigidBody.getDotWithV, RigidBody.getDotWithW, hvA, hwA, hvB, hwB]
  have hI2 : Contact.rowImpulse bA bB cp t1 dt = 0 := by
    simp [Contact.rowImpulse, hiA, hjA, hiB, hjB, Vec3.dot_scale_right, ht1n]
  have hI3 : Contact.rowImpulse bA bB cp (Vec3.normalize sqrt (Vec3.cross n t1)) dt = 0 := by
    simp [Contact.rowImpulse, hiA, hjA, hiB, hjB, Vec3.dot_scale_right, ht2n]
  refine ⟨hAB, ⟨?_, ?_, ?_⟩, ⟨?_, ?_, ?_, ?_, ?_, ?_⟩, ⟨?_, ?_⟩, ⟨?_, ?_, ?_⟩⟩
  · simp [Contact.assembled, hD1, hI1, hV1]
  · simp [Contact.assembled, hI2]
  · simp [Contact.assembled, hI3]
  · simp [Contact.assembled, RigidBody.getScaledByMinv, hmA]
  · simp [Contact.assembled, RigidBody.getScaledByIinv, hIA]
  · simp [Contact.assembled, RigidBody.getScaledByMinv, hmA]
  · simp [Contact.assembled, RigidBody.getScaledByIinv, hIA]
  · simp [Contact.assembled, RigidBody.getScaledByMinv, hmA]
  · simp [Contact.assembled, RigidBody.getScaledByIinv, hIA]
  · simp [Contact.assembled, RigidBody.getScaledByMinv, hmB, Vec3.scale_one]
  · simp [Contact.assembled, RigidBody.getScaledByIinv, hr]
  · simp [Contact.assembled, hD1, Vec3.scale_one, hn]
  · simp [Contact.assembled, Vec3.dot_scale_left, ht1n]
  · simp [Contact.assembled, Vec3.dot_scale_left, ht2n]

/-- After at least one resolve step with a non-negative friction coefficient, a resting
contact carries `p`. -/
theorem Contact.Carries.carries_steps {n : Vec3 K} {p : K} (hp : 0 ≤ p) (mu : K)
    (hmu : 0 ≤ mu) (k : Nat) :
    ∀ (c : Contact K) (s : Store K) (l : K), c.RestsOn n p → c.Carries s n l →
      (c.processContacts s (List.replicate (k + 1) mu)).1.Carries
        (c.processContacts s (List.replicate (k + 1) mu)).2 n p := by
  induction k with
  | zero =>
    intro c s l hS hC
    exact hC.carries_step hS hp mu hmu
  | succ k ih =>
    intro c s l hS hC
    rw [List.replicate_succ]
    simp only [Contact.processContacts]
    exact ih _ _ p (hS.rests_step s mu) (hC.carries_step hS hp mu hmu)

/-! ### The scene -/

theorem Rat.sqrt_one_eq : Rat.sqrt 1 = 1 := by
  simp

theorem scene_tangent1 : Contact.tangent1 sceneNormal = some sceneTangent := by
  simp only [Contact.tangent1, sceneNormal, sceneTangent, isnZero]
  norm_num

theorem scene_cross : Vec3.cross sceneNormal sceneTangent = ⟨2 / 3, -1 / 3, 2 / 3⟩ := by
  simp only [Vec3.cross, sceneNormal, sceneTangent]
  norm_num

theorem scene_tangent2 :
    Vec3.normalize Rat.sqrt (Vec3.cross sceneNormal sceneTangent) = ⟨2 / 3, -1 / 3, 2 / 3⟩ := by
  rw [scene_cross]
  have h : Vec3.dot (⟨2 / 3, -1 / 3, 2 / 3⟩ : Vec3 ℚ) ⟨2 / 3, -1 / 3, 2 / 3⟩ = 1 := by
    simp only [Vec3.dot]; norm_num
  simp only [Vec3.normalize, h, Rat.sqrt_one_eq, Vec3.scale]
  norm_num

theorem scene_rowD1 : Contact.rowD (sceneStore 0) (sceneStore 1) scenePoint sceneNormal = 1 := by
  simp [Contact.rowD, sceneStore, sceneFixed, sceneMovable, scenePoint, sceneNormal,
    RigidBody.getScaledByMinv, RigidBody.getScaledByIinv, RigidBody.getRcrossN, Mat3.apply,
    Mat3.zero, Vec3.dot, Vec3.neg, Vec3.scale, Vec3.cross, Vec3.sub, Vec3.zero]
  norm_num

theorem scene_rowD2 : Contact.rowD (sceneStore 0) (sceneStore 1) scenePoint sceneTangent = 10 := by
  simp [Contact.rowD, sceneStore, sceneFixed, sceneMovable, scenePoint, sceneTangent,
    RigidBody.getScaledByMinv, RigidBody.getScaledByIinv, RigidBody.getRcrossN, Mat3.apply,
    Mat3.zero, Vec3.dot, Vec3.neg, Vec3.scale, Vec3.cross, Vec3.sub, Vec3.zero]
  norm_num

theorem scene_rowD3 :
    Contact.rowD (sceneStore 0) (sceneStore 1) scenePoint
      (Vec3.normalize Rat.sqrt (Vec3.cross sceneNormal sceneTangent)) = 10 := by
  rw [scene_tangent2]
  simp [Contact.rowD, sceneStore, sceneFixed, sceneMovable, scenePoint,
    RigidBody.getScaledByMinv, RigidBody.getScaledByIinv, RigidBody.getRcrossN, Mat3.apply,
    Mat3.zero, Vec3.dot, Vec3.neg, Vec3.scale, Vec3.cross, Vec3.sub, Vec3.zero]
  norm_num

/-- The constructor succeeds in the scene. -/
theorem scene_new (bounce dt : ℚ) :
    Contact.new Rat.sqrt sceneStore 0 1 scenePoint sceneNormal bounce dt =
      .ok (Contact.assembled Rat.sqrt (sceneStore 0) (sceneStore 1) 0 1
        scenePoint sceneNormal sceneTangent bounce dt, sceneStore.zeroed 0 1) := by
  apply Contact.new_of_checks _ _ _ _ _ _ _ _ _ scene_tangent1
  · rw [scene_rowD1]; unfold isZero; norm_num
  · rw [scene_rowD2]; unfold isZero; norm_num
  · rw [scene_rowD3]; unfold isZero; norm_num

/-! ### The resolve step in terms of its candidates -/

theorem Contact.processContact_lambda1 (c : Contact K) (s : Store K) (mu : K) :
    (c.processContact s mu).1.lambda1 = clampNormal (c.cand1 s) := rfl

theorem Contact.processContact_lambda2 (c : Contact K) (s : Store K) (mu : K) :
    (c.processContact s mu).1.lambda2 =
      clampTangent (c.cand2 s) (mu * clampNormal (c.cand1 s)) := rfl

theorem Contact.processContact_lambda3 (c : Contact K) (s : Store K) (mu : K) :
    (c.processContact s mu).1.lambda3 =
      clampTangent (c.cand3 s) (mu * clampNormal (c.cand1 s)) := rfl

theorem Contact.processContact_jA (c : Contact K) (s : Store K) (mu : K) :
    (c.processContact s mu).1.jA = c.jA := rfl

theorem Contact.processContact_jB (c : Contact K) (s : Store K) (mu : K) :
    (c.processContact s mu).1.jB = c.jB := rfl

/-- The accumulators after one resolve step on two distinct bodies. -/
theorem Contact.processContact_store (c : Contact K) (s : Store K) (mu : K) (hne : c.A ≠ c.B) :
    ((c.processContact s mu).2 c.A).deltaV =
      Vec3.bump (s c.A).deltaV c.jA.linN_scaledM c.jA.linT1_scaledM c.jA.linT2_scaledM
        ((c.processContact s mu).1.lambda1 - c.lambda1)
        ((c.processContact s mu).1.lambda2 - c.lambda2)
        ((c.processContact s mu).1.lambda3 - c.lambda3) ∧
    ((c.processContact s mu).2 c.A).deltaW =
      Vec3.bump (s c.A).deltaW c.jA.angN_scaledM c.jA.angT1_scaledM c.jA.angT2_scaledM
        ((c.processContact s mu).1.lambda1 - c.lambda1)
        ((c.processContact s mu).1.lambda2 - c.lambda2)
        ((c.processContact s mu).1.lambda3 - c.lambda3) ∧
    ((c.processContact s mu).2 c.B).deltaV =
      Vec3.bump (s c.B).deltaV c.jB.linN_scaledM c.jB.linT1_scaledM c.jB.linT2_scaledM
        ((c.processContact s mu).1.lambda1 - c.lambda1)
        ((c.processContact s mu).1.lambda2 - c.lambda2)
        ((c.processContact s mu).1.lambda3 - c.lambda3) ∧
    ((c.processContact s mu).2 c.B).deltaW =
      Vec3.bump (s c.B).deltaW c.jB.angN_scaledM c.jB.angT1_scaledM c.jB.angT2_scaledM
        ((c.processContact s mu).1.lambda1 - c.lambda1)
        ((c.processContact s mu).1.lambda2 - c.lambda2)
        ((c.processContact s mu).1.lambda3 - c.lambda3) := by
  have hne' : c.B ≠ c.A := fun h => hne h.symm
  simp only [Contact.processContact, Vec3.bump]
  refine ⟨?_, ?_, ?_, ?_⟩ <;> simp [hne, hne']

theorem Contact.processContact_snd (c : Contact K) (s : Store K) (mu : K) :
    (c.processContact s mu).2 =
      c.applyDeltas s ((c.processContact s mu).1.lambda1 - c.lambda1)
        ((c.processContact s mu).1.lambda2 - c.lambda2)
        ((c.processContact s mu).1.lambda3 - c.lambda3) := rfl

@[simp] theorem Vec3.bump_zero (v m1 m2 m3 : Vec3 K) : Vec3.bump v m1 m2 m3 0 0 0 = v := by
  simp [Vec3.bump]

/-- Without impulse changes the accumulator updates store back what they read. -/
theorem Contact.applyDeltas_zero_deltaV (c : Contact K) (s : Store K) (q : Nat) :
    (c.applyDeltas s 0 0 0 q).deltaV = (s q).deltaV := by
  simp only [Contact.applyDeltas, Vec3.bump_zero, Store.setDeltaW_deltaV,
    Store.setDeltaV_deltaV]
  by_cases hB : q = c.B <;> by_cases hA : q = c.A <;> by_cases hAB : c.A = c.B <;>
    simp_all

theorem Contact.applyDeltas_zero_deltaW (c : Contact K) (s : Store K) (q : Nat) :
    (c.applyDeltas s 0 0 0 q).deltaW = (s q).deltaW := by
  simp only [Contact.applyDeltas, Vec3.bump_zero, Store.setDeltaW_deltaW,
    Store.setDeltaV_deltaW]
  by_cases hB : q = c.B <;> by_cases hA : q = c.A <;> by_cases hAB : c.A = c.B <;>
    simp_all

/-- A step on a contact without impulses whose bodies have empty accumulators: every
candidate is the negated bias. -/
theorem Contact.cand_fresh (c : Contact K) (s : Store K)
    (hl : c.lambda1 = 0 ∧ c.lambda2 = 0 ∧ c.lambda3 = 0)
    (ha : (s c.A).deltaV = Vec3.zero ∧ (s c.A).deltaW = Vec3.zero ∧
      (s c.B).deltaV = Vec3.zero ∧ (s c.B).deltaW = Vec3.zero) :
    c.cand1 s = -c.b_row1_scaledD ∧ c.cand2 s = -c.b_row2_scaledD ∧
      c.cand3 s = -c.b_row3_scaledD := by
  obtain ⟨l1, l2, l3⟩ := hl
  obtain ⟨aV, aW, bV, bW⟩ := ha
  simp [Contact.cand1, Contact.cand2, Contact.cand3, l1, l2, l3, aV, aW, bV, bW]

/-- With a negative bound the tangent clamp returns one of its two ends. -/
theorem clampTangent_of_neg (x m : K) (hm : m < 0) :
    clampTangent x m = m ∨ clampTangent x m = -m := by
  unfold clampTangent
  split_ifs with h1 h2
  · exact Or.inr rfl
  · exact Or.inl rfl
  · exact absurd (show x > m by linarith) h2

/-- With the bound `0` the tangent clamp returns `0`. -/
theorem clampTangent_zero (x : K) : clampTangent x 0 = 0 := by
  unfold clampTangent
  split_ifs with h1 h2
  · simp
  · rfl
  · simp only [neg_zero, not_lt] at h1
    exact le_antisymm (not_lt.mp h2) h1


/-- The accumulators of both bodies are empty after lines 47-48. -/
theorem Store.zeroed_fresh (s : Store K) (A B : Nat) :
    (s.zeroed A B A).deltaV = Vec3.zero ∧ (s.zeroed A B A).deltaW = Vec3.zero ∧
      (s.zeroed A B B).deltaV = Vec3.zero ∧ (s.zeroed A B B).deltaW = Vec3.zero := by
  refine ⟨?_, ?_, ?_, ?_⟩
  · rw [Store.zeroed_deltaV, if_pos (Or.inl rfl)]
  · rw [Store.zeroed_deltaW, if_pos (Or.inl rfl)]
  · rw [Store.zeroed_deltaV, if_pos (Or.inr rfl)]
  · rw [Store.zeroed_deltaW, if_pos (Or.inr rfl)]

/-- The denominator of a row between two bodies without inverse inertia. -/
theorem Contact.rowD_no_inertia (bA bB : RigidBody K) (hA : bA.invInertia = Mat3.zero)
    (hB : bB.invInertia = Mat3.zero) (cp dir : Vec3 K) :
    Contact.rowD bA bB cp dir = (bA.invMass + bB.invMass) * Vec3.dot dir dir := by
  simp only [Contact.rowD, RigidBody.getScaledByMinv, RigidBody.getScaledByIinv, hA, hB,
    Mat3.zero_apply, Vec3.dot_zero_right]
  simp only [Vec3.dot, Vec3.neg, Vec3.scale]
  ring

/-- A step on an impulse-free contact with empty accumulators and a non-negative normal bias
changes nothing. -/
theorem Contact.processContact_unloaded (c : Contact K) (s : Store K) (mu : K)
    (hl : c.lambda1 = 0 ∧ c.lambda2 = 0 ∧ c.lambda3 = 0)
    (ha : (s c.A).deltaV = Vec3.zero ∧ (s c.A).deltaW = Vec3.zero ∧
      (s c.B).deltaV = Vec3.zero ∧ (s c.B).deltaW = Vec3.zero)
    (hb : 0 ≤ c.b_row1_scaledD) :
    ((c.processContact s mu).1.lambda1 = 0 ∧ (c.processContact s mu).1.lambda2 = 0 ∧
      (c.processContact s mu).1.lambda3 = 0) ∧
    (((c.processContact s mu).2 c.A).deltaV = Vec3.zero ∧
      ((c.processContact s mu).2 c.A).deltaW = Vec3.zero ∧
      ((c.processContact s mu).2 c.B).deltaV = Vec3.zero ∧
      ((c.processContact s mu).2 c.B).deltaW = Vec3.zero) := by
  obtain ⟨e1, e2, e3⟩ := Contact.cand_fresh c s hl ha
  have h1 : (c.processContact s mu).1.lambda1 = 0 := by
    rw [Contact.processContact_lambda1, e1]
    unfold clampNormal
    split_ifs with h
    · rfl
    · linarith
  have h2 : (c.processContact s mu).1.lambda2 = 0 := by
    have := h1
    rw [Contact.processContact_lambda1] at this
    rw [Contact.processContact_lambda2, this, mul_zero, clampTangent_zero]
  have h3 : (c.processContact s mu).1.lambda3 = 0 := by
    have := h1
    rw [Contact.processContact_lambda1] at this
    rw [Contact.processContact_lambda3, this, mul_zero, clampTangent_zero]
  refine ⟨⟨h1, h2, h3⟩, ?_⟩
  obtain ⟨l1, l2, l3⟩ := hl
  obtain ⟨aV, aW, bV, bW⟩ := ha
  rw [Contact.processContact_snd, h1, h2, h3, l1, l2, l3, sub_zero]
  simp only [Contact.applyDeltas_zero_deltaV, Contact.applyDeltas_zero_deltaW]
  exact ⟨aV, aW, bV, bW⟩

theorem Contact.processContacts_unloaded (mus : List K) :
    ∀ (c : Contact K) (s : Store K),
      (c.lambda1 = 0 ∧ c.lambda2 = 0 ∧ c.lambda3 = 0) →
      ((s c.A).deltaV = Vec3.zero ∧ (s c.A).deltaW = Vec3.zero ∧
        (s c.B).deltaV = Vec3.zero ∧ (s c.B).deltaW = Vec3.zero) →
      0 ≤ c.b_row1_scaledD →
      ((c.processContacts s mus).1.lambda1 = 0 ∧ (c.processContacts s mus).1.lambda2 = 0 ∧
        (c.processContacts s mus).1.lambda3 = 0) ∧
      (((c.processContacts s mus).2 c.A).deltaV = Vec3.zero ∧
        ((c.processContacts s mus).2 c.A).deltaW = Vec3.zero ∧
        ((c.processContacts s mus).2 c.B).deltaV = Vec3.zero ∧
        ((c.processContacts s mus).2 c.B).deltaW = Vec3.zero) := by
  induction mus with
  | nil => intro c s hl ha _; exact ⟨hl, ha⟩
  | cons mu mus ih =>
    intro c s hl ha hb
    obtain ⟨hl', ha'⟩ := Contact.processContact_unloaded c s mu hl ha hb
    simp only [Contact.processContacts]
    exact ih (c.processContact s mu).1 (c.processContact s mu).2 hl' ha' hb


/-! ### Point bodies under a push -/

theorem pushStore_rowD (imp cp dir : Vec3 K) :
    Contact.rowD (pushStore imp 0) (pushStore imp 1) cp dir = Vec3.dot dir dir := by
  rw [Contact.rowD_no_inertia _ _ rfl rfl]
  simp [pushStore, pointBody, pushedBody]

/-- The biases of a contact built between the two bodies of `pushStore imp`. -/
theorem pushStore_biases (sqrt : K → K) (imp cp n t1 : Vec3 K) (bounce dt : K) :
    (Contact.assembled sqrt (pushStore imp 0) (pushStore imp 1) 0 1 cp n t1 bounce
        dt).b_row1_scaledD = Vec3.dot n imp * (1 / Vec3.dot n n) ∧
    (Contact.assembled sqrt (pushStore imp 0) (pushStore imp 1) 0 1 cp n t1 bounce
        dt).b_row2_scaledD = Vec3.dot t1 imp * (1 / Vec3.dot t1 t1) ∧
    (Contact.assembled sqrt (pushStore imp 0) (pushStore imp 1) 0 1 cp n t1 bounce
        dt).b_row3_scaledD =
      Vec3.dot (Vec3.normalize sqrt (Vec3.cross n t1)) imp *
        (1 / Vec3.dot (Vec3.normalize sqrt (Vec3.cross n t1))
          (Vec3.normalize sqrt (Vec3.cross n t1))) := by
  have hI : ∀ dir : Vec3 K,
      Contact.rowImpulse (pushStore imp 0) (pushStore imp 1) cp dir dt = Vec3.dot dir imp := by
    intro dir
    simp [Contact.rowImpulse, pushStore, pointBody, pushedBody, RigidBody.getLinearImpulse,
      RigidBody.getAngularImpulse]
  have hV : ∀ dir : Vec3 K,
      Contact.rowVelocity (pushStore imp 0) (pushStore imp 1) cp dir = 0 := by
    intro dir
    simp [Contact.rowVelocity, pushStore, pointBody, pushedBody, RigidBody.getDotWithV,
      RigidBody.getDotWithW]
  refine ⟨?_, ?_, ?_⟩
  · simp only [Contact.assembled, hI, hV, pushStore_rowD, mul_zero, add_zero]
  · simp only [Contact.assembled, hI, pushStore_rowD]
  · simp only [Contact.assembled, hI, pushStore_rowD]

theorem scene_norms :
    Vec3.dot sceneNormal sceneNormal = 1 ∧ Vec3.dot sceneTangent sceneTangent = 1 ∧
      Vec3.dot (Vec3.normalize Rat.sqrt (Vec3.cross sceneNormal sceneTangent))
        (Vec3.normalize Rat.sqrt (Vec3.cross sceneNormal sceneTangent)) = 1 := by
  refine ⟨?_, ?_, ?_⟩
  · simp only [Vec3.dot, sceneNormal]; norm_num
  · simp only [Vec3.dot, sceneTangent]; norm_num
  · rw [scene_tangent2]
    simp only [Vec3.dot]; norm_num

/-- The constructor succeeds between the two bodies of `pushStore imp` in the frame of the
scene. -/
theorem pushContact_new (imp : Vec3 ℚ) (bounce dt : ℚ) :
    Contact.new Rat.sqrt (pushStore imp) 0 1 scenePoint sceneNormal bounce dt =
      .ok (pushContact imp bounce dt, (pushStore imp).zeroed 0 1) := by
  obtain ⟨h1, h2, h3⟩ := scene_norms
  apply Contact.new_of_checks _ _ _ _ _ _ _ _ _ scene_tangent1
  · rw [pushStore_rowD, h1]; unfold isZero; norm_num
  · rw [pushStore_rowD, h2]; unfold isZero; norm_num
  · rw [pushStore_rowD, h3]; unfold isZero; norm_num

/-- The biases of `pushContact`. -/
theorem pushContact_biases (imp : Vec3 ℚ) (bounce dt : ℚ) :
    (pushContact imp bounce dt).b_row1_scaledD = Vec3.dot sceneNormal imp ∧
    (pushContact imp bounce dt).b_row2_scaledD = Vec3.dot sceneTangent imp ∧
    (pushContact imp bounce dt).b_row3_scaledD = Vec3.dot ⟨2 / 3, -1 / 3, 2 / 3⟩ imp := by
  obtain ⟨h1, h2, h3⟩ := scene_norms
  obtain ⟨b1, b2, b3⟩ := pushStore_biases Rat.sqrt imp scenePoint sceneNormal sceneTangent
    bounce dt
  rw [h1] at b1
  rw [h2] at b2
  rw [h3, scene_tangent2] at b3
  refine ⟨?_, ?_, ?_⟩
  · rw [pushContact, b1]; norm_num
  · rw [pushContact, b2]; norm_num
  · rw [pushContact, b3]; norm_num

/-- A freshly built `pushContact` has no impulses and its bodies have empty accumulators. -/
theorem pushContact_fresh (imp : Vec3 ℚ) (bounce dt : ℚ) :
    ((pushContact imp bounce dt).lambda1 = 0 ∧ (pushContact imp bounce dt).lambda2 = 0 ∧
      (pushContact imp bounce dt).lambda3 = 0) ∧
    ((((pushStore imp).zeroed 0 1) (pushContact imp bounce dt).A).deltaV = Vec3.zero ∧
      (((pushStore imp).zeroed 0 1) (pushContact imp bounce dt).A).deltaW = Vec3.zero ∧
      (((pushStore imp).zeroed 0 1) (pushContact imp bounce dt).B).deltaV = Vec3.zero ∧
      (((pushStore imp).zeroed 0 1) (pushContact imp bounce dt).B).deltaW = Vec3.zero) :=
  ⟨⟨rfl, rfl, rfl⟩, Store.zeroed_fresh (pushStore imp) 0 1⟩


/-- The normal impulse after the first resolve step on a freshly built `pushContact`. -/
theorem pushContact_first_lambda1 (imp : Vec3 ℚ) (bounce dt mu : ℚ) :
    ((pushContact imp bounce dt).processContact ((pushStore imp).zeroed 0 1) mu).1.lambda1 =
      clampNormal (-Vec3.dot sceneNormal imp) := by
  obtain ⟨hl, ha⟩ := pushContact_fresh imp bounce dt
  rw [Contact.processContact_lambda1, (Contact.cand_fresh _ _ hl ha).1,
    (pushContact_biases imp bounce dt).1]

/-- The first tangent impulse after the first resolve step on a freshly built `pushContact`. -/
theorem pushContact_first_lambda2 (imp : Vec3 ℚ) (bounce dt mu : ℚ) :
    ((pushContact imp bounce dt).processContact ((pushStore imp).zeroed 0 1) mu).1.lambda2 =
      clampTangent (-Vec3.dot sceneTangent imp) (mu * clampNormal (-Vec3.dot sceneNormal imp)) := by
  obtain ⟨hl, ha⟩ := pushContact_fresh imp bounce dt
  rw [Contact.processContact_lambda2, (Contact.cand_fresh _ _ hl ha).1,
    (Contact.cand_fresh _ _ hl ha).2.1, (pushContact_biases imp bounce dt).1,
    (pushContact_biases imp bounce dt).2.1]


/-- A vector of unit length passes one of the three tests of the tangent case split. -/
theorem unit_passes_case_split (n : Vec3 K) (hn : n.x ^ 2 + n.y ^ 2 + n.z ^ 2 = 1) :
    1 / 10 ^ 3 ≤ |n.x| ∨ 1 / 10 ^ 6 ≤ |n.y| ∨ 1 / 10 ^ 16 ≤ |n.z| := by
  by_contra h
  push_neg at h
  obtain ⟨hx, hy, hz⟩ := h
  have hx2 : n.x ^ 2 < (1 / 10 ^ 3) ^ 2 := by
    rw [← sq_abs]; exact pow_lt_pow_left₀ hx (abs_nonneg _) (by norm_num)
  have hy2 : n.y ^ 2 < (1 / 10 ^ 6) ^ 2 := by
    rw [← sq_abs]; exact pow_lt_pow_left₀ hy (abs_nonneg _) (by norm_num)
  have hz2 : n.z ^ 2 < (1 / 10 ^ 16) ^ 2 := by
    rw [← sq_abs]; exact pow_lt_pow_left₀ hz (abs_nonneg _) (by norm_num)
  norm_num at hx2 hy2 hz2
  linarith

/-- The case split chooses a tangent exactly when one of its three tests passes. -/
theorem Contact.tangent1_isSome_iff (n : Vec3 K) :
    (∃ t1, Contact.tangent1 n = some t1) ↔
      (1 / 10 ^ 3 ≤ |n.x| ∨ 1 / 10 ^ 6 ≤ |n.y| ∨ 1 / 10 ^ 16 ≤ |n.z|) := by
  simp only [← isnZero_iff_abs]
  unfold Contact.tangent1
  constructor
  · rintro ⟨t1, h⟩
    split_ifs at h with hx hy hz
    · exact Or.inl hx
    · exact Or.inr (Or.inl hy)
    · exact Or.inr (Or.inr hz)
  · intro h
    split_ifs with hx hy hz
    · exact ⟨_, rfl⟩
    · exact ⟨_, rfl⟩
    · exact ⟨_, rfl⟩
    · rcases h with h | h | h
      · exact absurd h hx
      · exact absurd h hy
      · exact absurd h hz

/-- The constructor ends in the degenerate-normal error only when the case split chooses no
tangent. -/
theorem Contact.new_degenerateNormal (sqrt : K → K) (s : Store K) (A B : Nat) (cp n : Vec3 K)
    (bounce dt : K) (h : Contact.new sqrt s A B cp n bounce dt = .error .degenerateNormal) :
    Contact.tangent1 n = none := by
  rw [Contact.new_cases] at h
  by_cases h1 : isZero (Contact.rowD (s A) (s B) cp n) (1 / 10 ^ 6)
  · rw [if_pos h1] at h
    cases h
  · rw [if_neg h1] at h
    cases ht : Contact.tangent1 n with
    | none => rfl
    | some t1 =>
      rw [ht] at h
      dsimp only at h
      split_ifs at h <;> cases h


/-! ### The constructed rows -/

/-- A denominator that clears the threshold is not zero. -/
theorem ne_zero_of_not_isZero (d : K) (h : ¬ isZero d (1 / 10 ^ 6)) : d ≠ 0 := by
  intro h0
  rw [h0] at h
  exact h isZero_zero

/-- The store entries the constructor does not name are left as they were. -/
theorem Store.zeroed_other (s : Store K) (A B q : Nat) (hA : q ≠ A) (hB : q ≠ B) :
    s.zeroed A B q = s q := by
  simp [Store.zeroed, Store.setDeltaV, Store.setDeltaW, Function.update, hA, hB]

/-- The row denominator reads only inverse mass, inverse inertia and centre of mass. -/
theorem Contact.rowD_congr_mass {bA bA' bB bB' : RigidBody K}
    (a1 : bA'.invMass = bA.invMass) (a2 : bA'.invInertia = bA.invInertia)
    (a3 : bA'.centerOfMass = bA.centerOfMass)
    (b1 : bB'.invMass = bB.invMass) (b2 : bB'.invInertia = bB.invInertia)
    (b3 : bB'.centerOfMass = bB.centerOfMass) (cp dir : Vec3 K) :
    Contact.rowD bA' bB' cp dir = Contact.rowD bA bB cp dir := by
  simp only [Contact.rowD, RigidBody.getScaledByMinv, RigidBody.getScaledByIinv,
    RigidBody.getRcrossN, a1, a2, a3, b1, b2, b3]

/-- The impulse projection of a row reads only the centres of mass and the impulses. -/
theorem Contact.rowImpulse_congr {bA bA' bB bB' : RigidBody K}
    (a3 : bA'.centerOfMass = bA.centerOfMass) (a6 : bA'.linearImpulse = bA.linearImpulse)
    (a7 : bA'.angularImpulse = bA.angularImpulse)
    (b3 : bB'.centerOfMass = bB.centerOfMass) (b6 : bB'.linearImpulse = bB.linearImpulse)
    (b7 : bB'.angularImpulse = bB.angularImpulse) (cp dir : Vec3 K) (dt : K) :
    Contact.rowImpulse bA' bB' cp dir dt = Contact.rowImpulse bA bB cp dir dt := by
  simp only [Contact.rowImpulse, RigidBody.getLinearImpulse, RigidBody.getAngularImpulse,
    RigidBody.getRcrossN, a3, a6, a7, b3, b6, b7]

theorem unit_of_scaled_sum (D a b c d : K) (hD : D ≠ 0) (h : a + b + c + d = D) :
    1 / D * a + 1 / D * b + 1 / D * c + 1 / D * d = 1 := by
  field_simp
  linarith

/-- Each constructed row has unit diagonal: its D-scaled directions paired with its
mass-scaled directions sum to `1`. -/
theorem Contact.assembled_unitDiagonal (sqrt : K → K) (bA bB : RigidBody K) (A B : Nat)
    (cp n t1 : Vec3 K) (bounce dt : K)
    (h1 : Contact.rowD bA bB cp n ≠ 0) (h2 : Contact.rowD bA bB cp t1 ≠ 0)
    (h3 : Contact.rowD bA bB cp (Vec3.normalize sqrt (Vec3.cross n t1)) ≠ 0) :
    (Contact.assembled sqrt bA bB A B cp n t1 bounce dt).UnitDiagonal := by
  refine ⟨?_, ?_, ?_⟩
  · simp only [Contact.assembled, Vec3.dot_scale_left]
    exact unit_of_scaled_sum _ _ _ _ _ h1 rfl
  · simp only [Contact.assembled, Vec3.dot_scale_left]
    exact unit_of_scaled_sum _ _ _ _ _ h2 rfl
  · simp only [Contact.assembled, Vec3.dot_scale_left]
    exact unit_of_scaled_sum _ _ _ _ _ h3 rfl

/-- A constructed contact has unit diagonal. -/
theorem Contact.new_unitDiagonal {sqrt : K → K} {s : Store K} {A B : Nat} {cp n : Vec3 K}
    {bounce dt : K} {c : Contact K} {s' : Store K}
    (h : Contact.new sqrt s A B cp n bounce dt = .ok (c, s')) : c.UnitDiagonal := by
  obtain ⟨t1, -, h1, h2, h3, rfl, -⟩ := Contact.new_ok h
  exact Contact.assembled_unitDiagonal sqrt _ _ A B cp n t1 bounce dt
    (ne_zero_of_not_isZero _ h1) (ne_zero_of_not_isZero _ h2) (ne_zero_of_not_isZero _ h3)

theorem Vec3.dot_add_scale (u v m : Vec3 K) (d : K) :
    Vec3.dot u (Vec3.add v (Vec3.scale m d)) = Vec3.dot u v + d * Vec3.dot u m := by
  simp only [Vec3.dot, Vec3.add, Vec3.scale]; ring

/-- A row of unit diagonal sees its own mass-scaled directions, times `d`, as a velocity
change of exactly `d`. -/
theorem row_shift (uA aA uB aB mA nA mB nB vA wA vB wB : Vec3 K) (d : K)
    (hU : Vec3.dot uA mA + Vec3.dot aA nA + Vec3.dot uB mB + Vec3.dot aB nB = 1) :
    Vec3.dot uA (Vec3.add vA (Vec3.scale mA d)) + Vec3.dot aA (Vec3.add wA (Vec3.scale nA d)) +
        Vec3.dot uB (Vec3.add vB (Vec3.scale mB d)) +
        Vec3.dot aB (Vec3.add wB (Vec3.scale nB d)) =
      Vec3.dot uA vA + Vec3.dot aA wA + Vec3.dot uB vB + Vec3.dot aB wB + d := by
  simp only [Vec3.dot_add_scale]
  linear_combination d * hU


/-! ### Accumulators and impulses -/

theorem Vec3.bump_accounted (m1 m2 m3 : Vec3 K) (a1 a2 a3 b1 b2 b3 : K) :
    Vec3.bump (Vec3.add (Vec3.add (Vec3.scale m1 a1) (Vec3.scale m2 a2)) (Vec3.scale m3 a3))
        m1 m2 m3 (b1 - a1) (b2 - a2) (b3 - a3) =
      Vec3.add (Vec3.add (Vec3.scale m1 b1) (Vec3.scale m2 b2)) (Vec3.scale m3 b3) := by
  simp only [Vec3.bump, Vec3.add, Vec3.scale]
  ext <;> simp <;> ring

/-- One resolve step on two distinct bodies keeps the accumulators accounted for. -/
theorem Contact.Accounted.accounted_step {c : Contact K} {s : Store K} (h : c.Accounted s)
    (hne : c.A ≠ c.B) (mu : K) :
    (c.processContact s mu).1.Accounted (c.processContact s mu).2 := by
  obtain ⟨aV, aW, bV, bW⟩ := h
  obtain ⟨sAV, sAW, sBV, sBW⟩ := Contact.processContact_store c s mu hne
  refine ⟨?_, ?_, ?_, ?_⟩
  · show ((c.processContact s mu).2 c.A).deltaV = _
    rw [sAV, aV]; exact Vec3.bump_accounted _ _ _ _ _ _ _ _ _
  · show ((c.processContact s mu).2 c.A).deltaW = _
    rw [sAW, aW]; exact Vec3.bump_accounted _ _ _ _ _ _ _ _ _
  · show ((c.processContact s mu).2 c.B).deltaV = _
    rw [sBV, bV]; exact Vec3.bump_accounted _ _ _ _ _ _ _ _ _
  · show ((c.processContact s mu).2 c.B).deltaW = _
    rw [sBW, bW]; exact Vec3.bump_accounted _ _ _ _ _ _ _ _ _

theorem Contact.Accounted.accounted_steps (mus : List K) :
    ∀ (c : Contact K) (s : Store K), c.Accounted s → c.A ≠ c.B →
      (c.processContacts s mus).1.Accounted (c.processContacts s mus).2 := by
  induction mus with
  | nil => intro c s h _; exact h
  | cons mu mus ih =>
    intro c s h hne
    simp only [Contact.processContacts]
    exact ih _ _ (h.accounted_step hne mu) hne

/-- A freshly constructed contact is accounted for: no impulses, empty accumulators. -/
theorem Contact.assembled_accounted (sqrt : K → K) (s : Store K) (A B : Nat) (cp n t1 : Vec3 K)
    (bounce dt : K) :
    (Contact.assembled sqrt (s A) (s B) A B cp n t1 bounce dt).Accounted (s.zeroed A B) := by
  obtain ⟨aV, aW, bV, bW⟩ := Store.zeroed_fresh s A B
  refine ⟨?_, ?_, ?_, ?_⟩
  · show (s.zeroed A B A).deltaV = _
    rw [aV]; simp [Contact.assembled]
  · show (s.zeroed A B A).deltaW = _
    rw [aW]; simp [Contact.assembled]
  · show (s.zeroed A B B).deltaV = _
    rw [bV]; simp [Contact.assembled]
  · show (s.zeroed A B B).deltaW = _
    rw [bW]; simp [Contact.assembled]

/-- The linear impulses one step delivers to the two bodies of a constructed contact are
opposite once weighted by the other body's inverse mass. -/
theorem Vec3.bump_opposite (vA vB n t1 t2 : Vec3 K) (a b d1 d2 d3 : K) :
    Vec3.add
        (Vec3.scale (Vec3.sub (Vec3.bump vA (Vec3.scale (Vec3.neg n) a)
          (Vec3.scale (Vec3.neg t1) a) (Vec3.scale (Vec3.neg t2) a) d1 d2 d3) vA) b)
        (Vec3.scale (Vec3.sub (Vec3.bump vB (Vec3.scale n b) (Vec3.scale t1 b)
          (Vec3.scale t2 b) d1 d2 d3) vB) a) = Vec3.zero := by
  simp only [Vec3.bump, Vec3.add, Vec3.scale, Vec3.sub, Vec3.neg, Vec3.zero]
  ext <;> simp <;> ring


/-! ### Two sweeps -/

theorem Vec3.dot_bump (u v m1 m2 m3 : Vec3 K) (d1 d2 d3 : K) :
    Vec3.dot u (Vec3.bump v m1 m2 m3 d1 d2 d3) =
      Vec3.dot u v + d1 * Vec3.dot u m1 + d2 * Vec3.dot u m2 + d3 * Vec3.dot u m3 := by
  simp only [Vec3.dot, Vec3.bump, Vec3.add, Vec3.scale]; ring

/-- With unit diagonal and decoupled rows on two distinct bodies, a resolve step leaves all
three candidates as they were. -/
theorem Contact.cand_after_step (c : Contact K) (s : Store K) (mu : K) (hne : c.A ≠ c.B)
    (hU : c.UnitDiagonal) (hX : c.Decoupled) :
    (c.processContact s mu).1.cand1 (c.processContact s mu).2 = c.cand1 s ∧
    (c.processContact s mu).1.cand2 (c.processContact s mu).2 = c.cand2 s ∧
    (c.processContact s mu).1.cand3 (c.processContact s mu).2 = c.cand3 s := by
  obtain ⟨u1, u2, u3⟩ := hU
  obtain ⟨x12, x13, x21, x23, x31, x32⟩ := hX
  obtain ⟨sAV, sAW, sBV, sBW⟩ := Contact.processContact_store c s mu hne
  refine ⟨?_, ?_, ?_⟩
  · show (c.processContact s mu).1.lambda1 - c.b_row1_scaledD
        - Vec3.dot c.jA.linN_scaledD ((c.processContact s mu).2 c.A).deltaV
        - Vec3.dot c.jA.angN_scaledD ((c.processContact s mu).2 c.A).deltaW
        - Vec3.dot c.jB.linN_scaledD ((c.processContact s mu).2 c.B).deltaV
        - Vec3.dot c.jB.angN_scaledD ((c.processContact s mu).2 c.B).deltaW = c.cand1 s
    rw [sAV, sAW, sBV, sBW]
    simp only [Vec3.dot_bump, Contact.cand1]
    linear_combination (-((c.processContact s mu).1.lambda1 - c.lambda1)) * u1
      - ((c.processContact s mu).1.lambda2 - c.lambda2) * x12
      - ((c.processContact s mu).1.lambda3 - c.lambda3) * x13
  · show (c.processContact s mu).1.lambda2 - c.b_row2_scaledD
        - Vec3.dot c.jA.linT1_scaledD ((c.processContact s mu).2 c.A).deltaV
        - Vec3.dot c.jA.angT1_scaledD ((c.processContact s mu).2 c.A).deltaW
        - Vec3.dot c.jB.linT1_scaledD ((c.processContact s mu).2 c.B).deltaV
        - Vec3.dot c.jB.angT1_scaledD ((c.processContact s mu).2 c.B).deltaW = c.cand2 s
    rw [sAV, sAW, sBV, sBW]
    simp only [Vec3.dot_bump, Contact.cand2]
    linear_combination (-((c.processContact s mu).1.lambda1 - c.lambda1)) * x21
      - ((c.processContact s mu).1.lambda2 - c.lambda2) * u2
      - ((c.processContact s mu).1.lambda3 - c.lambda3) * x23
  · show (c.processContact s mu).1.lambda3 - c.b_row3_scaledD
        - Vec3.dot c.jA.linT2_scaledD ((c.processContact s mu).2 c.A).deltaV
        - Vec3.dot c.jA.angT2_scaledD ((c.processContact s mu).2 c.A).deltaW
        - Vec3.dot c.jB.linT2_scaledD ((c.processContact s mu).2 c.B).deltaV
        - Vec3.dot c.jB.angT2_scaledD ((c.processContact s mu).2 c.B).deltaW = c.cand3 s
    rw [sAV, sAW, sBV, sBW]
    simp only [Vec3.dot_bump, Contact.cand3]
    linear_combination (-((c.processContact s mu).1.lambda1 - c.lambda1)) * x31
      - ((c.processContact s mu).1.lambda2 - c.lambda2) * x32
      - ((c.processContact s mu).1.lambda3 - c.lambda3) * u3

/-- With unit diagonal and decoupled rows on two distinct bodies, the second of two resolve
steps changes neither the impulses nor the accumulators. -/
theorem Contact.processTwice_fixed (c : Contact K) (s : Store K) (mu : K) (hne : c.A ≠ c.B)
    (hU : c.UnitDiagonal) (hX : c.Decoupled) :
    ((c.processTwice s mu).1.lambda1 = (c.processContact s mu).1.lambda1 ∧
      (c.processTwice s mu).1.lambda2 = (c.processContact s mu).1.lambda2 ∧
      (c.processTwice s mu).1.lambda3 = (c.processContact s mu).1.lambda3) ∧
    (((c.processTwice s mu).2 c.A).deltaV = ((c.processContact s mu).2 c.A).deltaV ∧
      ((c.processTwice s mu).2 c.A).deltaW = ((c.processContact s mu).2 c.A).deltaW ∧
      ((c.processTwice s mu).2 c.B).deltaV = ((c.processContact s mu).2 c.B).deltaV ∧
      ((c.processTwice s mu).2 c.B).deltaW = ((c.processContact s mu).2 c.B).deltaW) := by
  obtain ⟨e1, e2, e3⟩ := Contact.cand_after_step c s mu hne hU hX
  have h1 : (c.processTwice s mu).1.lambda1 = (c.processContact s mu).1.lambda1 := by
    unfold Contact.processTwice
    rw [Contact.processContact_lambda1, e1, ← Contact.processContact_lambda1 c s mu]
  have h2 : (c.processTwice s mu).1.lambda2 = (c.processContact s mu).1.lambda2 := by
    unfold Contact.processTwice
    rw [Contact.processContact_lambda2, e1, e2, ← Contact.processContact_lambda2 c s mu]
  have h3 : (c.processTwice s mu).1.lambda3 = (c.processContact s mu).1.lambda3 := by
    unfold Contact.processTwice
    rw [Contact.processContact_lambda3, e1, e3, ← Contact.processContact_lambda3 c s mu]
  refine ⟨⟨h1, h2, h3⟩, ?_⟩
  have hs : (c.processTwice s mu).2 =
      (c.processContact s mu).1.applyDeltas (c.processContact s mu).2 0 0 0 := by
    have := Contact.processContact_snd (c.processContact s mu).1 (c.processContact s mu).2 mu
    unfold Contact.processTwice at h1 h2 h3 ⊢
    rw [this, h1, h2, h3, sub_self, sub_self, sub_self]
  rw [hs]
  simp only [Contact.applyDeltas_zero_deltaV, Contact.applyDeltas_zero_deltaW, and_self]

/-- Between two bodies without inverse inertia the constructed rows are decoupled. -/
theorem Contact.assembled_decoupled (sqrt : K → K) (bA bB : RigidBody K) (A B : Nat)
    (cp n t1 : Vec3 K) (bounce dt : K) (hA : bA.invInertia = Mat3.zero)
    (hB : bB.invInertia = Mat3.zero) (ht : Contact.tangent1 n = some t1) :
    (Contact.assembled sqrt bA bB A B cp n t1 bounce dt).Decoupled := by
  have h1 : Vec3.dot t1 n = 0 := (Contact.tangent1_spec n t1 ht).1
  have h1' : Vec3.dot n t1 = 0 := by rw [Vec3.dot_comm]; exact h1
  have h2 : Vec3.dot (Vec3.normalize sqrt (Vec3.cross n t1)) n = 0 := by
    unfold Vec3.normalize
    rw [Vec3.dot_scale_left, Vec3.dot_cross_left, mul_zero]
  have h2' : Vec3.dot n (Vec3.normalize sqrt (Vec3.cross n t1)) = 0 := by
    rw [Vec3.dot_comm]; exact h2
  have h3 : Vec3.dot (Vec3.normalize sqrt (Vec3.cross n t1)) t1 = 0 := by
    unfold Vec3.normalize
    rw [Vec3.dot_scale_left, Vec3.dot_cross_right, mul_zero]
  have h3' : Vec3.dot t1 (Vec3.normalize sqrt (Vec3.cross n t1)) = 0 := by
    rw [Vec3.dot_comm]; exact h3
  have key : ∀ (u v : Vec3 K) (d : K), Vec3.dot u v = 0 →
      Vec3.dot (Vec3.scale (Vec3.neg u) d) (Vec3.scale (Vec3.neg v) bA.invMass) +
        Vec3.dot (Vec3.scale (Vec3.neg (bA.getRcrossN cp u)) d) Vec3.zero +
        Vec3.dot (Vec3.scale u d) (Vec3.scale v bB.invMass) +
        Vec3.dot (Vec3.scale (bB.getRcrossN cp u) d) Vec3.zero = 0 := by
    intro u v d huv
    rw [Vec3.dot_zero_right, Vec3.dot_zero_right, Vec3.dot_scale_left, Vec3.dot_scale_right,
      Vec3.dot_scale_left, Vec3.dot_scale_right, Vec3.dot_neg_left]
    have : Vec3.dot u (Vec3.neg v) = -Vec3.dot u v := by
      simp only [Vec3.dot, Vec3.neg]; ring
    rw [this, huv]
    ring
  refine ⟨?_, ?_, ?_, ?_, ?_, ?_⟩ <;>
    simp only [Contact.assembled, RigidBody.getScaledByMinv, RigidBody.getScaledByIinv, hA, hB,
      Mat3.zero_apply]
  · exact key n t1 _ h1'
  · exact key n _ _ h2'
  · exact key t1 n _ h1
  · exact key t1 _ _ h3'
  · exact key _ n _ h2
  · exact key _ t1 _ h3


/-! ### One body under both handles -/

/-- With empty accumulators every candidate is the impulse minus the bias. -/
theorem Contact.cand_empty (c : Contact K) (s : Store K)
    (ha : (s c.A).deltaV = Vec3.zero ∧ (s c.A).deltaW = Vec3.zero ∧
      (s c.B).deltaV = Vec3.zero ∧ (s c.B).deltaW = Vec3.zero) :
    c.cand1 s = c.lambda1 - c.b_row1_scaledD ∧ c.cand2 s = c.lambda2 - c.b_row2_scaledD ∧
      c.cand3 s = c.lambda3 - c.b_row3_scaledD := by
  obtain ⟨aV, aW, bV, bW⟩ := ha
  simp [Contact.cand1, Contact.cand2, Contact.cand3, aV, aW, bV, bW]

theorem Vec3.scale_neg_left (v : Vec3 K) (k : K) :
    Vec3.scale (Vec3.neg v) k = Vec3.neg (Vec3.scale v k) := by
  simp only [Vec3.scale, Vec3.neg]
  ext <;> simp

theorem Mat3.apply_neg (m : Mat3 K) (v : Vec3 K) :
    m.apply (Vec3.neg v) = Vec3.neg (m.apply v) := by
  simp only [Mat3.apply, Vec3.neg, Vec3.dot]
  ext <;> simp <;> ring

theorem Vec3.bump_bump_neg (v m1 m2 m3 : Vec3 K) (d1 d2 d3 : K) :
    Vec3.bump (Vec3.bump v (Vec3.neg m1) (Vec3.neg m2) (Vec3.neg m3) d1 d2 d3) m1 m2 m3
      d1 d2 d3 = v := by
  simp only [Vec3.bump, Vec3.add, Vec3.scale, Vec3.neg]
  ext <;> simp <;> ring

/-- When both handles name one body and the mass-scaled directions of `jA` are the negated
ones of `jB`, the four updates of lines 184-189 cancel on that body. -/
theorem Contact.applyDeltas_aliased (c : Contact K) (s : Store K) (d1 d2 d3 : K)
    (hAB : c.A = c.B)
    (hlin : c.jA.linN_scaledM = Vec3.neg c.jB.linN_scaledM ∧
      c.jA.linT1_scaledM = Vec3.neg c.jB.linT1_scaledM ∧
      c.jA.linT2_scaledM = Vec3.neg c.jB.linT2_scaledM)
    (hang : c.jA.angN_scaledM = Vec3.neg c.jB.angN_scaledM ∧
      c.jA.angT1_scaledM = Vec3.neg c.jB.angT1_scaledM ∧
      c.jA.angT2_scaledM = Vec3.neg c.jB.angT2_scaledM) :
    (c.applyDeltas s d1 d2 d3 c.A).deltaV = (s c.A).deltaV ∧
      (c.applyDeltas s d1 d2 d3 c.A).deltaW = (s c.A).deltaW := by
  obtain ⟨p1, p2, p3⟩ := hlin
  obtain ⟨q1, q2, q3⟩ := hang
  simp only [Contact.applyDeltas, ← hAB, Store.setDeltaV_deltaV, Store.setDeltaV_deltaW,
    Store.setDeltaW_deltaV, Store.setDeltaW_deltaW, if_true, p1, p2, p3, q1, q2, q3,
    Vec3.bump_bump_neg, and_self]

/-- When both handles name one body the constructed mass-scaled directions of `jA` are the
negated ones of `jB`. -/
theorem Contact.assembled_self_opposite (sqrt : K → K) (b : RigidBody K) (A B : Nat)
    (cp n t1 : Vec3 K) (bounce dt : K) :
    ((Contact.assembled sqrt b b A B cp n t1 bounce dt).jA.linN_scaledM =
        Vec3.neg (Contact.assembled sqrt b b A B cp n t1 bounce dt).jB.linN_scaledM ∧
      (Contact.assembled sqrt b b A B cp n t1 bounce dt).jA.linT1_scaledM =
        Vec3.neg (Contact.assembled sqrt b b A B cp n t1 bounce dt).jB.linT1_scaledM ∧
      (Contact.assembled sqrt b b A B cp n t1 bounce dt).jA.linT2_scaledM =
        Vec3.neg (Contact.assembled sqrt b b A B cp n t1 bounce dt).jB.linT2_scaledM) ∧
    ((Contact.assembled sqrt b b A B cp n t1 bounce dt).jA.angN_scaledM =
        Vec3.neg (Contact.assembled sqrt b b A B cp n t1 bounce dt).jB.angN_scaledM ∧
      (Contact.assembled sqrt b b A B cp n t1 bounce dt).jA.angT1_scaledM =
        Vec3.neg (Contact.assembled sqrt b b A B cp n t1 bounce dt).jB.angT1_scaledM ∧
      (Contact.assembled sqrt b b A B cp n t1 bounce dt).jA.angT2_scaledM =
        Vec3.neg (Contact.assembled sqrt b b A B cp n t1 bounce dt).jB.angT2_scaledM) := by
  simp only [Contact.assembled, RigidBody.getScaledByMinv, RigidBody.getScaledByIinv,
    Vec3.scale_neg_left, Mat3.apply_neg, and_self]


/-- The first resolve step on a contact freshly built between the two bodies of
`pushStore imp`. -/
theorem pushStore_first_step (sqrt : K → K) (imp cp n t1 : Vec3 K) (bounce dt mu : K) :
    ((Contact.assembled sqrt (pushStore imp 0) (pushStore imp 1) 0 1 cp n t1 bounce
        dt).processContact ((pushStore imp).zeroed 0 1) mu).1.lambda1 =
      clampNormal (-(Vec3.dot n imp * (1 / Vec3.dot n n))) ∧
    ((Contact.assembled sqrt (pushStore imp 0) (pushStore imp 1) 0 1 cp n t1 bounce
        dt).processContact ((pushStore imp).zeroed 0 1) mu).1.lambda2 =
      clampTangent (-(Vec3.dot t1 imp * (1 / Vec3.dot t1 t1)))
        (mu * clampNormal (-(Vec3.dot n imp * (1 / Vec3.dot n n)))) := by
  obtain ⟨b1, b2, -⟩ := pushStore_biases sqrt imp cp n t1 bounce dt
  have ha := Store.zeroed_fresh (pushStore imp) 0 1
  obtain ⟨e1, e2, -⟩ := Contact.cand_fresh
    (Contact.assembled sqrt (pushStore imp 0) (pushStore imp 1) 0 1 cp n t1 bounce dt)
    ((pushStore imp).zeroed 0 1) ⟨rfl, rfl, rfl⟩ ha
  refine ⟨?_, ?_⟩
  · rw [Contact.processContact_lambda1, e1, b1]
  · rw [Contact.processContact_lambda2, e1, e2, b1, b2]


end Lemmas

/-! ## The claims -/

section Claims

variable {K : Type} [LinearOrderedField K]

/-- C1. Non-negativity: whatever the contact, the store and the friction coefficient,
`lambda1 ≥ 0` after `processContact` returns; and a contact the constructor returned has
`lambda1 = 0`, and `lambda1 ≥ 0` after every finite sequence of `processContact` calls. -/
theorem C1_lambda1_nonneg :
    (∀ (c : Contact K) (s : Store K) (mu : K), 0 ≤ (c.processContact s mu).1.lambda1) ∧
    (∀ (sqrt : K → K) (s : Store K) (A B : Nat) (cp n : Vec3 K) (bounce dt : K)
        (c : Contact K) (s' : Store K),
      Contact.new sqrt s A B cp n bounce dt = .ok (c, s') →
        0 ≤ c.lambda1 ∧ ∀ mus : List K, 0 ≤ (c.processContacts s' mus).1.lambda1) := by
  refine ⟨Contact.processContact_lambda1_nonneg, ?_⟩
  intro sqrt s A B cp n bounce dt c s' h
  obtain ⟨t1, -, -, -, -, hc, -⟩ := Contact.new_ok h
  have h0 : c.lambda1 = 0 := by rw [hc]; rfl
  exact ⟨h0.ge, fun mus => Contact.processContacts_lambda1_nonneg c s' mus h0.ge⟩

/-- Witness of C1: the contact built in the scene, resolved with any friction coefficients. -/
theorem C1_lambda1_nonneg_witness :
    0 ≤ ((sceneContact.processContact (sceneStore.zeroed 0 1) (1 / 2)).1.lambda1) ∧
    0 ≤ sceneContact.lambda1 ∧
    ∀ mus : List ℚ, 0 ≤ (sceneContact.processContacts (sceneStore.zeroed 0 1) mus).1.lambda1 :=
  ⟨C1_lambda1_nonneg.1 _ _ _,
   C1_lambda1_nonneg.2 Rat.sqrt sceneStore 0 1 scenePoint sceneNormal 0 1 _ _ (scene_new 0 1)⟩

/-- C2. Friction-cone containment: for every contact, store and friction coefficient
`mu ≥ 0`, after `processContact mu` both `|lambda2| ≤ mu * lambda1` and
`|lambda3| ≤ mu * lambda1`, with `lambda1` the normal impulse committed by that call. -/
theorem C2_friction_cone (c : Contact K) (s : Store K) (mu : K) (hmu : 0 ≤ mu) :
    |(c.processContact s mu).1.lambda2| ≤ mu * (c.processContact s mu).1.lambda1 ∧
    |(c.processContact s mu).1.lambda3| ≤ mu * (c.processContact s mu).1.lambda1 := by
  have hm := mul_nonneg hmu (Contact.processContact_lambda1_nonneg c s mu)
  exact ⟨abs_clamp_le _ _ hm, abs_clamp_le _ _ hm⟩

/-- Witness of C2: the contact built in the scene, resolved with friction `1/2`. -/
theorem C2_friction_cone_witness :
    (0 : ℚ) ≤ 1 / 2 ∧
    |(sceneContact.processContact (sceneStore.zeroed 0 1) (1 / 2)).1.lambda2| ≤
      1 / 2 * (sceneContact.processContact (sceneStore.zeroed 0 1) (1 / 2)).1.lambda1 ∧
    |(sceneContact.processContact (sceneStore.zeroed 0 1) (1 / 2)).1.lambda3| ≤
      1 / 2 * (sceneContact.processContact (sceneStore.zeroed 0 1) (1 / 2)).1.lambda1 :=
  ⟨by norm_num, C2_friction_cone sceneContact (sceneStore.zeroed 0 1) (1 / 2) (by norm_num)⟩

/-- C3, evaluated on the code. Over the reals, with two bodies of inverse mass `1` and the
contact normal `(1, 0, 0)`, the constructor succeeds and the tangent it stores as `jB.linT1`
is `(0, 1, 1)`, of squared length `2`, with `jA.linT1 = (0, -1, -1)`: the value of
`glm::normalize(tangent1)` on line 99 is discarded, so the tangent is not normalized, while
the normalized vector would have squared length `1`. -/
theorem C3_tangent1_not_normalized :
    ∃ c s', Contact.new Real.sqrt (fun _ => pointBody (1 : ℝ)) 0 1 ⟨0, 0, 0⟩ ⟨1, 0, 0⟩ 0 1 =
        .ok (c, s') ∧
      c.jB.linT1 = ⟨0, 1, 1⟩ ∧ c.jA.linT1 = Vec3.neg ⟨0, 1, 1⟩ ∧
      Vec3.dot c.jB.linT1 c.jB.linT1 = 2 ∧
      Vec3.dot (Vec3.normalize Real.sqrt c.jB.linT1) (Vec3.normalize Real.sqrt c.jB.linT1) = 1 := by
  have ht : Contact.tangent1 (⟨1, 0, 0⟩ : Vec3 ℝ) = some ⟨0, 1, 1⟩ := by
    simp only [Contact.tangent1, isnZero]
    norm_num
  have hpos := Contact.cross_tangent1_pos _ _ ht
  have h2 : Vec3.dot (⟨0, 1, 1⟩ : Vec3 ℝ) ⟨0, 1, 1⟩ = 2 := by
    simp only [Vec3.dot]; norm_num
  have hnew := Contact.new_of_checks Real.sqrt (fun _ => pointBody (1 : ℝ)) 0 1 ⟨0, 0, 0⟩
    ⟨1, 0, 0⟩ ⟨0, 1, 1⟩ 0 1 ht
    (by
      rw [Contact.rowD_pointBody]
      simp only [Vec3.dot, isZero]
      norm_num)
    (by
      rw [Contact.rowD_pointBody, h2]
      simp only [isZero]
      norm_num)
    (by
      rw [Contact.rowD_pointBody, Vec3.dot_normalize_self Real.sqrt _ hpos
        (Real.mul_self_sqrt (Vec3.dot_self_nonneg _))]
      simp only [isZero]
      norm_num)
  refine ⟨_, _, hnew, rfl, rfl, h2, ?_⟩
  exact Vec3.dot_normalize_self Real.sqrt (⟨0, 1, 1⟩ : Vec3 ℝ) (by rw [h2]; norm_num)
    (Real.mul_self_sqrt (Vec3.dot_self_nonneg _))

/-- C4, as the code has it. With the zero vector as contact normal the constructor stops at
the effective-mass check of row 1 (message `1:Two Constrained objects colliding...`), for
every pair of bodies, contact point, restitution and `dt`; the case split that reports
`Contact Normal is zero.` is not reached. -/
theorem C4_zero_normal_fails_at_row1 (sqrt : K → K) (s : Store K) (A B : Nat) (cp : Vec3 K)
    (bounce dt : K) :
    Contact.new sqrt s A B cp Vec3.zero bounce dt = .error (.degenerateConstraint 1) := by
  apply Contact.new_row1
  rw [Contact.rowD_zero_dir]
  exact isZero_zero

/-- Counterexample to C4 as stated: in the scene, the zero normal does not end in the
degenerate-normal error. -/
theorem C4_zero_normal_not_degenerateNormal :
    Contact.new Rat.sqrt sceneStore 0 1 scenePoint ⟨0, 0, 0⟩ 0 1 ≠ .error .degenerateNormal := by
  have h : Contact.new Rat.sqrt sceneStore 0 1 scenePoint ⟨0, 0, 0⟩ 0 1 =
      .error (.degenerateConstraint 1) := by
    apply Contact.new_row1
    show isZero (Contact.rowD _ _ _ Vec3.zero) _
    rw [Contact.rowD_zero_dir]
    exact isZero_zero
  rw [h]
  intro h'
  cases h'

/-- C5. Single resting-contact convergence with the movable body as `B`: body `A` is fixed
(zero inverse mass and inertia, at rest, no external impulse), body `B` has inverse mass `1`
and any inverse inertia, is at rest, with external linear impulse `-p * n` (`p ≥ 0`) and no
external angular impulse, `n` has unit length and `(contactPoint - centerOfMass_B) × n = 0`.
Then whenever the constructor succeeds, for every restitution, every `mu ≥ 0` and every
`k ≥ 1`, after `k` calls `processContact mu`: `lambda1 = p`, `lambda2 = lambda3 = 0` and
`B.deltaV = p * n`, which added to the external linear impulse `-p * n` is the zero vector. -/
theorem C5_resting_contact_converges (sqrt : K → K) (s : Store K) (A B : Nat) (cp n : Vec3 K)
    (bounce dt p mu : K) (k : Nat) (c : Contact K) (s' : Store K)
    (hmA : (s A).invMass = 0) (hIA : (s A).invInertia = Mat3.zero)
    (hvA : (s A).linearVelocity = Vec3.zero) (hwA : (s A).angularVelocity = Vec3.zero)
    (hiA : (s A).getLinearImpulse dt = Vec3.zero) (hjA : (s A).getAngularImpulse dt = Vec3.zero)
    (hmB : (s B).invMass = 1)
    (hvB : (s B).linearVelocity = Vec3.zero) (hwB : (s B).angularVelocity = Vec3.zero)
    (hiB : (s B).getLinearImpulse dt = Vec3.scale n (-p))
    (hjB : (s B).getAngularImpulse dt = Vec3.zero)
    (hp : 0 ≤ p) (hn : Vec3.dot n n = 1)
    (hr : Vec3.cross (Vec3.sub cp (s B).centerOfMass) n = Vec3.zero)
    (h : Contact.new sqrt s A B cp n bounce dt = .ok (c, s')) (hmu : 0 ≤ mu) (hk : 1 ≤ k) :
    (c.processContacts s' (List.replicate k mu)).1.lambda1 = p ∧
    (c.processContacts s' (List.replicate k mu)).1.lambda2 = 0 ∧
    (c.processContacts s' (List.replicate k mu)).1.lambda3 = 0 ∧
    ((c.processContacts s' (List.replicate k mu)).2 B).deltaV = Vec3.scale n p ∧
    Vec3.add ((c.processContacts s' (List.replicate k mu)).2 B).deltaV (Vec3.scale n (-p)) =
      Vec3.zero := by
  obtain ⟨t1, ht1, -, -, -, rfl, rfl⟩ := Contact.new_ok h
  have hAB : A ≠ B := by
    intro hAB
    rw [hAB, hmB] at hmA
    exact one_ne_zero hmA
  have hS := Contact.assembled_restsOn sqrt (s A) (s B) A B cp n t1 bounce dt p hAB hmA hIA
    hvA hwA hiA hjA hmB hvB hwB hiB hjB hn hr ht1
  have hC : (Contact.assembled sqrt (s A) (s B) A B cp n t1 bounce dt).Carries
      (s.zeroed A B) n 0 := by
    refine ⟨⟨rfl, rfl, rfl⟩, ?_, ?_, ?_, ?_⟩
    · show (s.zeroed A B A).deltaV = Vec3.zero
      rw [Store.zeroed_deltaV, if_pos (Or.inl rfl)]
    · show (s.zeroed A B A).deltaW = Vec3.zero
      rw [Store.zeroed_deltaW, if_pos (Or.inl rfl)]
    · show (s.zeroed A B B).deltaV = Vec3.scale n 0
      rw [Store.zeroed_deltaV, if_pos (Or.inr rfl), Vec3.scale_zero]
    · show (s.zeroed A B B).deltaW = Vec3.zero
      rw [Store.zeroed_deltaW, if_pos (Or.inr rfl)]
  obtain ⟨j, rfl⟩ : ∃ j, k = j + 1 := ⟨k - 1, by omega⟩
  have hk := Contact.Carries.carries_steps hp mu hmu j _ _ 0 hS hC
  have hB := Contact.processContacts_B
    (Contact.assembled sqrt (s A) (s B) A B cp n t1 bounce dt) (s.zeroed A B)
    (List.replicate (j + 1) mu)
  obtain ⟨⟨l1, l2, l3⟩, -, -, bV, -⟩ := hk
  rw [hB] at bV
  have bV' : (((Contact.assembled sqrt (s A) (s B) A B cp n t1 bounce dt).processContacts
      (s.zeroed A B) (List.replicate (j + 1) mu)).2 B).deltaV = Vec3.scale n p := bV
  refine ⟨l1, l2, l3, bV', ?_⟩
  rw [bV']
  simp only [Vec3.add, Vec3.scale, Vec3.zero]
  ext <;> simp

/-- Witness of C5: the scene, where `p = 3`, with restitution `1/2`, four calls and
friction `1/2`. -/
theorem C5_resting_contact_converges_witness :
    ∃ c s', Contact.new Rat.sqrt sceneStore 0 1 scenePoint sceneNormal (1 / 2) 1 = .ok (c, s') ∧
      (c.processContacts s' (List.replicate 4 (1 / 2))).1.lambda1 = 3 ∧
      (c.processContacts s' (List.replicate 4 (1 / 2))).1.lambda2 = 0 ∧
      (c.processContacts s' (List.replicate 4 (1 / 2))).1.lambda3 = 0 ∧
      ((c.processContacts s' (List.replicate 4 (1 / 2))).2 1).deltaV = Vec3.scale sceneNormal 3 ∧
      Vec3.add ((c.processContacts s' (List.replicate 4 (1 / 2))).2 1).deltaV
        (Vec3.scale sceneNormal (-3)) = Vec3.zero :=
  ⟨_, _, scene_new (1 / 2) 1,
    C5_resting_contact_converges Rat.sqrt sceneStore 0 1 scenePoint sceneNormal (1 / 2) 1 3
      (1 / 2) 4 _ _ rfl rfl rfl rfl rfl rfl rfl rfl rfl
      (by simp only [sceneStore, sceneMovable, RigidBody.getLinearImpulse, sceneNormal,
            Vec3.scale]
          norm_num)
      rfl (by norm_num)
      (by simp only [Vec3.dot, sceneNormal]; norm_num)
      (by simp only [sceneStore, sceneMovable, scenePoint, sceneNormal, Vec3.cross, Vec3.sub,
            Vec3.zero]
          norm_num)
      (scene_new (1 / 2) 1) (by norm_num) (by norm_num)⟩

/-- C6. Separating-contact idempotence: when both bodies are at rest and have zero external
linear and angular impulse, every successful construction has its three biases equal to
zero, and after any finite sequence of `processContact` calls, whatever the friction
coefficients, `lambda1 = lambda2 = lambda3 = 0` and `deltaV`, `deltaW` of both bodies are
the zero vector. -/
theorem C6_separating_idempotent (sqrt : K → K) (s : Store K) (A B : Nat) (cp n : Vec3 K)
    (bounce dt : K) (c : Contact K) (s' : Store K)
    (hvA : (s A).linearVelocity = Vec3.zero) (hwA : (s A).angularVelocity = Vec3.zero)
    (hvB : (s B).linearVelocity = Vec3.zero) (hwB : (s B).angularVelocity = Vec3.zero)
    (hiA : (s A).getLinearImpulse dt = Vec3.zero) (hjA : (s A).getAngularImpulse dt = Vec3.zero)
    (hiB : (s B).getLinearImpulse dt = Vec3.zero) (hjB : (s B).getAngularImpulse dt = Vec3.zero)
    (h : Contact.new sqrt s A B cp n bounce dt = .ok (c, s')) :
    (c.b_row1_scaledD = 0 ∧ c.b_row2_scaledD = 0 ∧ c.b_row3_scaledD = 0) ∧
    ∀ mus : List K,
      ((c.processContacts s' mus).1.lambda1 = 0 ∧ (c.processContacts s' mus).1.lambda2 = 0 ∧
        (c.processContacts s' mus).1.lambda3 = 0) ∧
      (((c.processContacts s' mus).2 A).deltaV = Vec3.zero ∧
        ((c.processContacts s' mus).2 A).deltaW = Vec3.zero ∧
        ((c.processContacts s' mus).2 B).deltaV = Vec3.zero ∧
        ((c.processContacts s' mus).2 B).deltaW = Vec3.zero) := by
  obtain ⟨t1, -, -, -, -, rfl, rfl⟩ := Contact.new_ok h
  have hidle := Contact.assembled_idle sqrt s A B cp n t1 bounce dt hvA hwA hvB hwB hiA hjA
    hiB hjB
  refine ⟨hidle.1, fun mus => ?_⟩
  have hk := hidle.idle_steps mus
  have hA := Contact.processContacts_A
    (Contact.assembled sqrt (s A) (s B) A B cp n t1 bounce dt) (s.zeroed A B) mus
  have hB := Contact.processContacts_B
    (Contact.assembled sqrt (s A) (s B) A B cp n t1 bounce dt) (s.zeroed A B) mus
  obtain ⟨-, hl, hd⟩ := hk
  rw [hA, hB] at hd
  exact ⟨hl, hd⟩

/-- Witness of C6: two unit-mass bodies at rest, no external impulse, the contact normal of
the scene, restitution `1/2`; resolved with friction `1/2`, `0` and `3`. -/
theorem C6_separating_idempotent_witness :
    ∃ c s', Contact.new Rat.sqrt (fun _ => pointBody 1) 0 1 scenePoint sceneNormal (1 / 2) 1 =
        .ok (c, s') ∧
      (c.b_row1_scaledD = 0 ∧ c.b_row2_scaledD = 0 ∧ c.b_row3_scaledD = 0) ∧
      ((c.processContacts s' [1 / 2, 0, 3]).1.lambda1 = 0 ∧
        (c.processContacts s' [1 / 2, 0, 3]).1.lambda2 = 0 ∧
        (c.processContacts s' [1 / 2, 0, 3]).1.lambda3 = 0) ∧
      (((c.processContacts s' [1 / 2, 0, 3]).2 0).deltaV = Vec3.zero ∧
        ((c.processContacts s' [1 / 2, 0, 3]).2 0).deltaW = Vec3.zero ∧
        ((c.processContacts s' [1 / 2, 0, 3]).2 1).deltaV = Vec3.zero ∧
        ((c.processContacts s' [1 / 2, 0, 3]).2 1).deltaW = Vec3.zero) := by
  have hn : Vec3.dot sceneNormal sceneNormal = 1 := by
    simp only [Vec3.dot, sceneNormal]; norm_num
  have ht : Vec3.dot sceneTangent sceneTangent = 1 := by
    simp only [Vec3.dot, sceneTangent]; norm_num
  have ht2 : Vec3.dot (Vec3.normalize Rat.sqrt (Vec3.cross sceneNormal sceneTangent))
      (Vec3.normalize Rat.sqrt (Vec3.cross sceneNormal sceneTangent)) = 1 := by
    rw [scene_tangent2]
    simp only [Vec3.dot]; norm_num
  have hnew := Contact.new_of_checks Rat.sqrt (fun _ => pointBody (1 : ℚ)) 0 1 scenePoint
    sceneNormal sceneTangent (1 / 2) 1 scene_tangent1
    (by rw [Contact.rowD_pointBody, hn]; simp only [isZero]; norm_num)
    (by rw [Contact.rowD_pointBody, ht]; simp only [isZero]; norm_num)
    (by rw [Contact.rowD_pointBody, ht2]; simp only [isZero]; norm_num)
  have hw := C6_separating_idempotent Rat.sqrt (fun _ => pointBody (1 : ℚ)) 0 1 scenePoint
    sceneNormal (1 / 2) 1 _ _ rfl rfl rfl rfl rfl rfl rfl rfl hnew
  exact ⟨_, _, hnew, hw.1, hw.2 [1 / 2, 0, 3]⟩

/-- C7. Two bodies that both have zero inverse mass and zero inverse inertia: for every
contact normal, contact point, restitution and `dt` the constructor fails with the
degenerate-constraint error of row 1, the check that precedes the tangent case split. -/
theorem C7_immovable_pair_fails_at_row1 (sqrt : K → K) (s : Store K) (A B : Nat)
    (cp n : Vec3 K) (bounce dt : K)
    (hA : (s A).invMass = 0) (hA' : (s A).invInertia = Mat3.zero)
    (hB : (s B).invMass = 0) (hB' : (s B).invInertia = Mat3.zero) :
    Contact.new sqrt s A B cp n bounce dt = .error (.degenerateConstraint 1) := by
  apply Contact.new_row1
  rw [Contact.rowD_immovable _ _ _ _ hA hA' hB hB']
  exact isZero_zero

/-- Witness of C7: two copies of the fixed body of the scene. -/
theorem C7_immovable_pair_fails_at_row1_witness :
    Contact.new Rat.sqrt (fun _ => sceneFixed) 0 1 scenePoint sceneNormal (1 / 2) 1 =
      .error (.degenerateConstraint 1) :=
  C7_immovable_pair_fails_at_row1 Rat.sqrt (fun _ => sceneFixed) 0 1 scenePoint sceneNormal
    (1 / 2) 1 rfl rfl rfl rfl

/-- C8. The degenerate-constraint error is raised exactly on the closed interval. Row 1 fails
iff `-1e-6 ≤ D1 ≤ 1e-6`; when row 1 passed and the case split chose `t1`, row 2 fails iff
`-1e-6 ≤ D2 ≤ 1e-6`; when row 2 passed too, row 3 fails iff `-1e-6 ≤ D3 ≤ 1e-6`; and when all
three passed the constructor returns a contact whose D-scaled directions are the directions
times `1 / D_i`. Here `D_i` is the sum over both bodies of
`dot(lin_i, lin_i_scaledM) + dot(ang_i, ang_i_scaledM)`, as stored in the returned contact. -/
theorem C8_degenerate_iff_closed_interval (sqrt : K → K) (s : Store K) (A B : Nat)
    (cp n : Vec3 K) (bounce dt : K) :
    (Contact.new sqrt s A B cp n bounce dt = .error (.degenerateConstraint 1) ↔
      (-(1 / 10 ^ 6) ≤ Contact.rowD (s A) (s B) cp n ∧
        Contact.rowD (s A) (s B) cp n ≤ 1 / 10 ^ 6)) ∧
    (∀ t1, Contact.tangent1 n = some t1 →
      ¬ (-(1 / 10 ^ 6) ≤ Contact.rowD (s A) (s B) cp n ∧
        Contact.rowD (s A) (s B) cp n ≤ 1 / 10 ^ 6) →
      (Contact.new sqrt s A B cp n bounce dt = .error (.degenerateConstraint 2) ↔
        (-(1 / 10 ^ 6) ≤ Contact.rowD (s A) (s B) cp t1 ∧
          Contact.rowD (s A) (s B) cp t1 ≤ 1 / 10 ^ 6)) ∧
      (¬ (-(1 / 10 ^ 6) ≤ Contact.rowD (s A) (s B) cp t1 ∧
          Contact.rowD (s A) (s B) cp t1 ≤ 1 / 10 ^ 6) →
        (Contact.new sqrt s A B cp n bounce dt = .error (.degenerateConstraint 3) ↔
          (-(1 / 10 ^ 6) ≤
              Contact.rowD (s A) (s B) cp (Vec3.normalize sqrt (Vec3.cross n t1)) ∧
            Contact.rowD (s A) (s B) cp (Vec3.normalize sqrt (Vec3.cross n t1)) ≤
              1 / 10 ^ 6)) ∧
        (¬ (-(1 / 10 ^ 6) ≤
              Contact.rowD (s A) (s B) cp (Vec3.normalize sqrt (Vec3.cross n t1)) ∧
            Contact.rowD (s A) (s B) cp (Vec3.normalize sqrt (Vec3.cross n t1)) ≤
              1 / 10 ^ 6) →
          ∃ c s', Contact.new sqrt s A B cp n bounce dt = .ok (c, s') ∧
            Contact.rowD (s A) (s B) cp n =
              Vec3.dot c.jA.linN c.jA.linN_scaledM + Vec3.dot c.jA.angN c.jA.angN_scaledM +
                Vec3.dot c.jB.linN c.jB.linN_scaledM + Vec3.dot c.jB.angN c.jB.angN_scaledM ∧
            Contact.rowD (s A) (s B) cp t1 =
              Vec3.dot c.jA.linT1 c.jA.linT1_scaledM + Vec3.dot c.jA.angT1 c.jA.angT1_scaledM +
                Vec3.dot c.jB.linT1 c.jB.linT1_scaledM + Vec3.dot c.jB.angT1 c.jB.angT1_scaledM ∧
            Contact.rowD (s A) (s B) cp (Vec3.normalize sqrt (Vec3.cross n t1)) =
              Vec3.dot c.jA.linT2 c.jA.linT2_scaledM + Vec3.dot c.jA.angT2 c.jA.angT2_scaledM +
                Vec3.dot c.jB.linT2 c.jB.linT2_scaledM + Vec3.dot c.jB.angT2 c.jB.angT2_scaledM ∧
            c.jB.linN_scaledD = Vec3.scale c.jB.linN (1 / Contact.rowD (s A) (s B) cp n) ∧
            c.jB.linT1_scaledD = Vec3.scale c.jB.linT1 (1 / Contact.rowD (s A) (s B) cp t1) ∧
            c.jB.linT2_scaledD = Vec3.scale c.jB.linT2
              (1 / Contact.rowD (s A) (s B) cp (Vec3.normalize sqrt (Vec3.cross n t1)))))) := by
  have hz : ∀ d : K, (-(1 / 10 ^ 6) ≤ d ∧ d ≤ 1 / 10 ^ 6) ↔ isZero d (1 / 10 ^ 6) :=
    fun d => Iff.rfl
  simp only [hz]
  rw [Contact.new_cases]
  refine ⟨?_, ?_⟩
  · by_cases h1 : isZero (Contact.rowD (s A) (s B) cp n) (1 / 10 ^ 6)
    · rw [if_pos h1]
      exact iff_of_true rfl h1
    · rw [if_neg h1]
      refine iff_of_false ?_ h1
      cases Contact.tangent1 n with
      | none => intro h; cases h
      | some t =>
        dsimp only
        split_ifs <;> intro h <;> cases h
  · intro t1 ht1 h1
    rw [if_neg h1, ht1]
    dsimp only
    refine ⟨?_, ?_⟩
    · by_cases h2 : isZero (Contact.rowD (s A) (s B) cp t1) (1 / 10 ^ 6)
      · rw [if_pos h2]
        exact iff_of_true rfl h2
      · rw [if_neg h2]
        refine iff_of_false ?_ h2
        split_ifs <;> intro h <;> cases h
    · intro h2
      rw [if_neg h2]
      refine ⟨?_, ?_⟩
      · by_cases h3 : isZero (Contact.rowD (s A) (s B) cp
            (Vec3.normalize sqrt (Vec3.cross n t1))) (1 / 10 ^ 6)
        · rw [if_pos h3]
          exact iff_of_true rfl h3
        · rw [if_neg h3]
          refine iff_of_false ?_ h3
          intro h; cases h
      · intro h3
        rw [if_neg h3]
        refine ⟨_, _, rfl, ?_, ?_, ?_, ?_, ?_, ?_⟩
        · rfl
        · rfl
        · rfl
        · rfl
        · rfl
        · rfl

/-- Witness of C8: a denominator equal to `1e-6` and one equal to `-1e-6` are fatal at row 1;
with two bodies of inverse mass `-1` all three denominators are `-2 < -1e-6` and a contact is
returned, its normal direction scaled by `1 / -2`. -/
theorem C8_degenerate_iff_closed_interval_witness :
    Contact.new Rat.sqrt (fun _ => pointBody (1 / 2000000)) 0 1 scenePoint ⟨1, 0, 0⟩ 0 1 =
      .error (.degenerateConstraint 1) ∧
    Contact.new Rat.sqrt (fun _ => pointBody (-1 / 2000000)) 0 1 scenePoint ⟨1, 0, 0⟩ 0 1 =
      .error (.degenerateConstraint 1) ∧
    ∃ c s', Contact.new Rat.sqrt (fun _ => pointBody (-1)) 0 1 scenePoint sceneNormal 0 1 =
        .ok (c, s') ∧
      c.jB.linN_scaledD = Vec3.scale c.jB.linN (1 / -2) := by
  have hn : Vec3.dot sceneNormal sceneNormal = 1 := by
    simp only [Vec3.dot, sceneNormal]; norm_num
  have ht : Vec3.dot sceneTangent sceneTangent = 1 := by
    simp only [Vec3.dot, sceneTangent]; norm_num
  have hx : Vec3.dot (⟨1, 0, 0⟩ : Vec3 ℚ) ⟨1, 0, 0⟩ = 1 := by
    simp only [Vec3.dot]; norm_num
  have ht2 : Vec3.dot (Vec3.normalize Rat.sqrt (Vec3.cross sceneNormal sceneTangent))
      (Vec3.normalize Rat.sqrt (Vec3.cross sceneNormal sceneTangent)) = 1 := by
    rw [scene_tangent2]
    simp only [Vec3.dot]; norm_num
  refine ⟨?_, ?_, ?_⟩
  · refine (C8_degenerate_iff_closed_interval Rat.sqrt (fun _ => pointBody (1 / 2000000)) 0 1
      scenePoint ⟨1, 0, 0⟩ 0 1).1.mpr ?_
    rw [Contact.rowD_pointBody, hx]
    norm_num
  · refine (C8_degenerate_iff_closed_interval Rat.sqrt (fun _ => pointBody (-1 / 2000000)) 0 1
      scenePoint ⟨1, 0, 0⟩ 0 1).1.mpr ?_
    rw [Contact.rowD_pointBody, hx]
    norm_num
  · have h := (C8_degenerate_iff_closed_interval Rat.sqrt (fun _ => pointBody (-1)) 0 1
      scenePoint sceneNormal 0 1).2 sceneTangent scene_tangent1
    rw [Contact.rowD_pointBody, Contact.rowD_pointBody, Contact.rowD_pointBody, hn, ht, ht2] at h
    obtain ⟨c, s', hc, -, -, -, hd, -, -⟩ := ((h (by norm_num)).2 (by norm_num)).2 (by norm_num)
    refine ⟨c, s', hc, ?_⟩
    rw [hd]
    norm_num

/-- C9. In each of the three branches of the case split (`|n.x| ≥ 1e-3`; else `|n.y| ≥ 1e-6`;
else `|n.z| ≥ 1e-16`) the chosen tangent is the vector the branch builds, it is not the zero
vector and `dot(t1, n) = 0` exactly. -/
theorem C9_tangent1_orthogonal (n : Vec3 K) :
    (1 / 10 ^ 3 ≤ |n.x| →
      Contact.tangent1 n = some ⟨-n.y - n.z, n.x, n.x⟩) ∧
    (¬ 1 / 10 ^ 3 ≤ |n.x| → 1 / 10 ^ 6 ≤ |n.y| →
      Contact.tangent1 n = some ⟨n.y, -n.z - n.x, n.y⟩) ∧
    (¬ 1 / 10 ^ 3 ≤ |n.x| → ¬ 1 / 10 ^ 6 ≤ |n.y| → 1 / 10 ^ 16 ≤ |n.z| →
      Contact.tangent1 n = some ⟨n.z, n.z, -n.x - n.y⟩) ∧
    (∀ t1, Contact.tangent1 n = some t1 → t1 ≠ Vec3.zero ∧ Vec3.dot t1 n = 0) := by
  simp only [← isnZero_iff_abs]
  refine ⟨?_, ?_, ?_, ?_⟩
  · intro hx
    simp only [Contact.tangent1, if_pos hx]
  · intro hx hy
    simp only [Contact.tangent1, if_neg hx, if_pos hy]
  · intro hx hy hz
    simp only [Contact.tangent1, if_neg hx, if_neg hy, if_pos hz]
  · intro t1 h
    obtain ⟨h0, ht, -⟩ := Contact.tangent1_spec n t1 h
    exact ⟨Vec3.ne_zero_of_dot_self_pos t1 ht, h0⟩

/-- Witness of C9: one normal per branch, favouring x, y and z in turn, and the scene. -/
theorem C9_tangent1_orthogonal_witness :
    Contact.tangent1 (⟨1, 2, 3⟩ : Vec3 ℚ) = some ⟨-2 - 3, 1, 1⟩ ∧
    Contact.tangent1 (⟨0, 2, 3⟩ : Vec3 ℚ) = some ⟨2, -3 - 0, 2⟩ ∧
    Contact.tangent1 (⟨0, 0, 3⟩ : Vec3 ℚ) = some ⟨3, 3, -0 - 0⟩ ∧
    (sceneTangent ≠ Vec3.zero ∧ Vec3.dot sceneTangent sceneNormal = 0) :=
  ⟨(C9_tangent1_orthogonal (⟨1, 2, 3⟩ : Vec3 ℚ)).1 (by norm_num [abs_of_pos]),
   (C9_tangent1_orthogonal (⟨0, 2, 3⟩ : Vec3 ℚ)).2.1 (by norm_num) (by norm_num [abs_of_pos]),
   (C9_tangent1_orthogonal (⟨0, 0, 3⟩ : Vec3 ℚ)).2.2.1 (by norm_num) (by norm_num)
     (by norm_num [abs_of_pos]),
   (C9_tangent1_orthogonal sceneNormal).2.2.2 sceneTangent scene_tangent1⟩

/-- C10. For every normal on which the case split chooses a tangent `t1`, and a square root
exact on the squared length of `cross(n, t1)`: `cross(n, t1)` is not the zero vector, its length
is not zero, `t2 = normalize(cross(n, t1))` has unit length with `dot(t2, n) = 0` and
`dot(t2, t1) = 0`, and every successful construction stores `t2` as `jB.linT2`. -/
theorem C10_tangent2_orthonormal (sqrt : K → K) (n t1 : Vec3 K)
    (h : Contact.tangent1 n = some t1)
    (hs : sqrt (Vec3.dot (Vec3.cross n t1) (Vec3.cross n t1)) *
        sqrt (Vec3.dot (Vec3.cross n t1) (Vec3.cross n t1)) =
      Vec3.dot (Vec3.cross n t1) (Vec3.cross n t1)) :
    Vec3.cross n t1 ≠ Vec3.zero ∧
    sqrt (Vec3.dot (Vec3.cross n t1) (Vec3.cross n t1)) ≠ 0 ∧
    Vec3.dot (Vec3.normalize sqrt (Vec3.cross n t1)) (Vec3.normalize sqrt (Vec3.cross n t1)) = 1 ∧
    Vec3.dot (Vec3.normalize sqrt (Vec3.cross n t1)) n = 0 ∧
    Vec3.dot (Vec3.normalize sqrt (Vec3.cross n t1)) t1 = 0 ∧
    (∀ (s : Store K) (A B : Nat) (cp : Vec3 K) (bounce dt : K) (c : Contact K) (s' : Store K),
      Contact.new sqrt s A B cp n bounce dt = .ok (c, s') →
        c.jB.linT2 = Vec3.normalize sqrt (Vec3.cross n t1)) := by
  have hpos := Contact.cross_tangent1_pos n t1 h
  refine ⟨Vec3.ne_zero_of_dot_self_pos _ hpos, ?_, Vec3.dot_normalize_self sqrt _ hpos hs,
    ?_, ?_, ?_⟩
  · intro h0
    rw [h0, mul_zero] at hs
    exact absurd hs.symm (ne_of_gt hpos)
  · unfold Vec3.normalize
    rw [Vec3.dot_scale_left, Vec3.dot_cross_left, mul_zero]
  · unfold Vec3.normalize
    rw [Vec3.dot_scale_left, Vec3.dot_cross_right, mul_zero]
  · intro s A B cp bounce dt c s' hc
    obtain ⟨t1', ht1', -, -, -, rfl, -⟩ := Contact.new_ok hc
    rw [h] at ht1'
    cases ht1'
    rfl

/-- Witness of C10: the normal `(1, 0, 0)` over the reals, where `t1 = (0, 1, 1)` and
`cross(n, t1) = (0, -1, 1)` has length `√2`; and the contact built in the scene. -/
theorem C10_tangent2_orthonormal_witness :
    Contact.tangent1 (⟨1, 0, 0⟩ : Vec3 ℝ) = some ⟨0, 1, 1⟩ ∧
    Vec3.cross (⟨1, 0, 0⟩ : Vec3 ℝ) ⟨0, 1, 1⟩ ≠ Vec3.zero ∧
    Vec3.dot (Vec3.normalize Real.sqrt (Vec3.cross (⟨1, 0, 0⟩ : Vec3 ℝ) ⟨0, 1, 1⟩))
      (Vec3.normalize Real.sqrt (Vec3.cross (⟨1, 0, 0⟩ : Vec3 ℝ) ⟨0, 1, 1⟩)) = 1 ∧
    Vec3.dot (Vec3.normalize Real.sqrt (Vec3.cross (⟨1, 0, 0⟩ : Vec3 ℝ) ⟨0, 1, 1⟩)) ⟨1, 0, 0⟩ = 0 ∧
    Vec3.dot (Vec3.normalize Real.sqrt (Vec3.cross (⟨1, 0, 0⟩ : Vec3 ℝ) ⟨0, 1, 1⟩)) ⟨0, 1, 1⟩ = 0 ∧
    sceneContact.jB.linT2 = Vec3.normalize Rat.sqrt (Vec3.cross sceneNormal sceneTangent) := by
  have ht : Contact.tangent1 (⟨1, 0, 0⟩ : Vec3 ℝ) = some ⟨0, 1, 1⟩ := by
    simp only [Contact.tangent1, isnZero]
    norm_num
  have hw := C10_tangent2_orthonormal Real.sqrt (⟨1, 0, 0⟩ : Vec3 ℝ) ⟨0, 1, 1⟩ ht
    (Real.mul_self_sqrt (Vec3.dot_self_nonneg _))
  have hq : Rat.sqrt (Vec3.dot (Vec3.cross sceneNormal sceneTangent)
        (Vec3.cross sceneNormal sceneTangent)) *
      Rat.sqrt (Vec3.dot (Vec3.cross sceneNormal sceneTangent)
        (Vec3.cross sceneNormal sceneTangent)) =
      Vec3.dot (Vec3.cross sceneNormal sceneTangent) (Vec3.cross sceneNormal sceneTangent) := by
    have h1 : Vec3.dot (Vec3.cross sceneNormal sceneTangent)
        (Vec3.cross sceneNormal sceneTangent) = 1 := by
      rw [scene_cross]
      simp only [Vec3.dot]; norm_num
    rw [h1, Rat.sqrt_one_eq]
    norm_num
  have hs := (C10_tangent2_orthonormal Rat.sqrt sceneNormal sceneTangent scene_tangent1
    hq).2.2.2.2.2 sceneStore 0 1 scenePoint 0 1 sceneContact _ (scene_new 0 1)
  exact ⟨ht, hw.1, hw.2.2.1, hw.2.2.2.1, hw.2.2.2.2.1, hs⟩

/-- C11. Bias formula: in every successful construction `b_row1_scaledD * D1` is the projection
of the external impulses of both bodies on the normal row plus `restitution` times the
projection of their current velocities on it, while `b_row2_scaledD * D2` and
`b_row3_scaledD * D3` are the projection of the external impulses on their row only (`D_i` the
sum over both bodies of `dot(lin_i, lin_i_scaledM) + dot(ang_i, ang_i_scaledM)`); so for any
other restitution and any other current velocities of the two bodies the constructor
succeeds too and returns the same `b_row2_scaledD` and `b_row3_scaledD`. -/
theorem C11_bias_formula (sqrt : K → K) (s : Store K) (A B : Nat) (cp n : Vec3 K)
    (bounce dt : K) (c : Contact K) (s' : Store K)
    (h : Contact.new sqrt s A B cp n bounce dt = .ok (c, s')) :
    (c.b_row1_scaledD *
        (Vec3.dot c.jA.linN c.jA.linN_scaledM + Vec3.dot c.jA.angN c.jA.angN_scaledM +
          Vec3.dot c.jB.linN c.jB.linN_scaledM + Vec3.dot c.jB.angN c.jB.angN_scaledM) =
      (Vec3.dot c.jA.linN ((s A).getLinearImpulse dt) +
          Vec3.dot c.jA.angN ((s A).getAngularImpulse dt) +
          Vec3.dot c.jB.linN ((s B).getLinearImpulse dt) +
          Vec3.dot c.jB.angN ((s B).getAngularImpulse dt)) +
        bounce * (Vec3.dot c.jA.linN (s A).linearVelocity +
          Vec3.dot c.jA.angN (s A).angularVelocity +
          Vec3.dot c.jB.linN (s B).linearVelocity +
          Vec3.dot c.jB.angN (s B).angularVelocity)) ∧
    (c.b_row2_scaledD *
        (Vec3.dot c.jA.linT1 c.jA.linT1_scaledM + Vec3.dot c.jA.angT1 c.jA.angT1_scaledM +
          Vec3.dot c.jB.linT1 c.jB.linT1_scaledM + Vec3.dot c.jB.angT1 c.jB.angT1_scaledM) =
      Vec3.dot c.jA.linT1 ((s A).getLinearImpulse dt) +
        Vec3.dot c.jA.angT1 ((s A).getAngularImpulse dt) +
        Vec3.dot c.jB.linT1 ((s B).getLinearImpulse dt) +
        Vec3.dot c.jB.angT1 ((s B).getAngularImpulse dt)) ∧
    (c.b_row3_scaledD *
        (Vec3.dot c.jA.linT2 c.jA.linT2_scaledM + Vec3.dot c.jA.angT2 c.jA.angT2_scaledM +
          Vec3.dot c.jB.linT2 c.jB.linT2_scaledM + Vec3.dot c.jB.angT2 c.jB.angT2_scaledM) =
      Vec3.dot c.jA.linT2 ((s A).getLinearImpulse dt) +
        Vec3.dot c.jA.angT2 ((s A).getAngularImpulse dt) +
        Vec3.dot c.jB.linT2 ((s B).getLinearImpulse dt) +
        Vec3.dot c.jB.angT2 ((s B).getAngularImpulse dt)) ∧
    (∀ (s₂ : Store K) (bounce₂ : K),
      ((s₂ A).invMass = (s A).invMass ∧ (s₂ A).invInertia = (s A).invInertia ∧
        (s₂ A).centerOfMass = (s A).centerOfMass ∧
        (s₂ A).linearImpulse = (s A).linearImpulse ∧
        (s₂ A).angularImpulse = (s A).angularImpulse) →
      ((s₂ B).invMass = (s B).invMass ∧ (s₂ B).invInertia = (s B).invInertia ∧
        (s₂ B).centerOfMass = (s B).centerOfMass ∧
        (s₂ B).linearImpulse = (s B).linearImpulse ∧
        (s₂ B).angularImpulse = (s B).angularImpulse) →
      ∃ c₂ s₂', Contact.new sqrt s₂ A B cp n bounce₂ dt = .ok (c₂, s₂') ∧
        c₂.b_row2_scaledD = c.b_row2_scaledD ∧ c₂.b_row3_scaledD = c.b_row3_scaledD) := by
  obtain ⟨t1, ht1, h1, h2, h3, rfl, -⟩ := Contact.new_ok h
  have d1 := ne_zero_of_not_isZero _ h1
  have d2 := ne_zero_of_not_isZero _ h2
  have d3 := ne_zero_of_not_isZero _ h3
  refine ⟨?_, ?_, ?_, ?_⟩
  · have hV : Vec3.dot (Vec3.neg n) (s A).linearVelocity +
        Vec3.dot (Vec3.neg ((s A).getRcrossN cp n)) (s A).angularVelocity +
        Vec3.dot n (s B).linearVelocity +
        Vec3.dot ((s B).getRcrossN cp n) (s B).angularVelocity =
        Contact.rowVelocity (s A) (s B) cp n := by
      simp only [Contact.rowVelocity, RigidBody.getDotWithV, RigidBody.getDotWithW, Vec3.dot]
      ring
    show (Contact.rowImpulse (s A) (s B) cp n dt +
        bounce * Contact.rowVelocity (s A) (s B) cp n) * (1 / Contact.rowD (s A) (s B) cp n) *
        Contact.rowD (s A) (s B) cp n =
      Contact.rowImpulse (s A) (s B) cp n dt +
        bounce * (Vec3.dot (Vec3.neg n) (s A).linearVelocity +
          Vec3.dot (Vec3.neg ((s A).getRcrossN cp n)) (s A).angularVelocity +
          Vec3.dot n (s B).linearVelocity +
          Vec3.dot ((s B).getRcrossN cp n) (s B).angularVelocity)
    rw [hV]
    field_simp
  · show Contact.rowImpulse (s A) (s B) cp t1 dt * (1 / Contact.rowD (s A) (s B) cp t1) *
        Contact.rowD (s A) (s B) cp t1 = Contact.rowImpulse (s A) (s B) cp t1 dt
    field_simp
  · show Contact.rowImpulse (s A) (s B) cp (Vec3.normalize sqrt (Vec3.cross n t1)) dt *
        (1 / Contact.rowD (s A) (s B) cp (Vec3.normalize sqrt (Vec3.cross n t1))) *
        Contact.rowD (s A) (s B) cp (Vec3.normalize sqrt (Vec3.cross n t1)) =
      Contact.rowImpulse (s A) (s B) cp (Vec3.normalize sqrt (Vec3.cross n t1)) dt
    field_simp
  · rintro s₂ bounce₂ ⟨a1, a2, a3, a6, a7⟩ ⟨b1, b2, b3, b6, b7⟩
    have hD : ∀ dir, Contact.rowD (s₂ A) (s₂ B) cp dir = Contact.rowD (s A) (s B) cp dir :=
      fun dir => Contact.rowD_congr_mass a1 a2 a3 b1 b2 b3 cp dir
    have hI : ∀ dir, Contact.rowImpulse (s₂ A) (s₂ B) cp dir dt =
        Contact.rowImpulse (s A) (s B) cp dir dt :=
      fun dir => Contact.rowImpulse_congr a3 a6 a7 b3 b6 b7 cp dir dt
    refine ⟨_, _, Contact.new_of_checks sqrt s₂ A B cp n t1 bounce₂ dt ht1 ?_ ?_ ?_, ?_, ?_⟩
    · rw [hD]; exact h1
    · rw [hD]; exact h2
    · rw [hD]; exact h3
    · show Contact.rowImpulse (s₂ A) (s₂ B) cp t1 dt * (1 / Contact.rowD (s₂ A) (s₂ B) cp t1) =
        Contact.rowImpulse (s A) (s B) cp t1 dt * (1 / Contact.rowD (s A) (s B) cp t1)
      rw [hD, hI]
    · show Contact.rowImpulse (s₂ A) (s₂ B) cp (Vec3.normalize sqrt (Vec3.cross n t1)) dt *
          (1 / Contact.rowD (s₂ A) (s₂ B) cp (Vec3.normalize sqrt (Vec3.cross n t1))) =
        Contact.rowImpulse (s A) (s B) cp (Vec3.normalize sqrt (Vec3.cross n t1)) dt *
          (1 / Contact.rowD (s A) (s B) cp (Vec3.normalize sqrt (Vec3.cross n t1)))
      rw [hD, hI]

/-- Witness of C11: the scene built with restitution `1/2`, and built again with restitution
`7` after both bodies were given the linear velocity `(1, 2, 3)` and the angular velocity
`(0, 1, 0)`: the two tangent biases are the same. -/
theorem C11_bias_formula_witness :
    ∃ c₂ s₂',
      Contact.new Rat.sqrt
          (fun p => { sceneStore p with linearVelocity := ⟨1, 2, 3⟩, angularVelocity := ⟨0, 1, 0⟩ })
          0 1 scenePoint sceneNormal 7 1 = .ok (c₂, s₂') ∧
        c₂.b_row2_scaledD =
          (Contact.assembled Rat.sqrt (sceneStore 0) (sceneStore 1) 0 1 scenePoint sceneNormal
            sceneTangent (1 / 2) 1).b_row2_scaledD ∧
        c₂.b_row3_scaledD =
          (Contact.assembled Rat.sqrt (sceneStore 0) (sceneStore 1) 0 1 scenePoint sceneNormal
            sceneTangent (1 / 2) 1).b_row3_scaledD :=
  (C11_bias_formula Rat.sqrt sceneStore 0 1 scenePoint sceneNormal (1 / 2) 1 _ _
    (scene_new (1 / 2) 1)).2.2.2
    (fun p => { sceneStore p with linearVelocity := ⟨1, 2, 3⟩, angularVelocity := ⟨0, 1, 0⟩ }) 7
    ⟨rfl, rfl, rfl, rfl, rfl⟩ ⟨rfl, rfl, rfl, rfl, rfl⟩


/-- C12. Construction side effect and initial state: on every input on which the constructor
succeeds, afterwards `deltaV` and `deltaW` of both bodies are the zero vector whatever they
held before, `lambda1 = lambda2 = lambda3 = 0`, every other field of both bodies (inverse
mass, inverse inertia, centre of mass, velocities, external impulses) is unchanged, and so
is every other body of the store. -/
theorem C12_construction_side_effect (sqrt : K → K) (s : Store K) (A B : Nat) (cp n : Vec3 K)
    (bounce dt : K) (c : Contact K) (s' : Store K)
    (h : Contact.new sqrt s A B cp n bounce dt = .ok (c, s')) :
    ((s' A).deltaV = Vec3.zero ∧ (s' A).deltaW = Vec3.zero ∧
      (s' B).deltaV = Vec3.zero ∧ (s' B).deltaW = Vec3.zero) ∧
    (c.lambda1 = 0 ∧ c.lambda2 = 0 ∧ c.lambda3 = 0) ∧
    ((s' A).invMass = (s A).invMass ∧ (s' A).invInertia = (s A).invInertia ∧
      (s' A).centerOfMass = (s A).centerOfMass ∧
      (s' A).linearVelocity = (s A).linearVelocity ∧
      (s' A).angularVelocity = (s A).angularVelocity ∧
      (s' A).linearImpulse = (s A).linearImpulse ∧
      (s' A).angularImpulse = (s A).angularImpulse) ∧
    ((s' B).invMass = (s B).invMass ∧ (s' B).invInertia = (s B).invInertia ∧
      (s' B).centerOfMass = (s B).centerOfMass ∧
      (s' B).linearVelocity = (s B).linearVelocity ∧
      (s' B).angularVelocity = (s B).angularVelocity ∧
      (s' B).linearImpulse = (s B).linearImpulse ∧
      (s' B).angularImpulse = (s B).angularImpulse) ∧
    (∀ q, q ≠ A → q ≠ B → s' q = s q) := by
  obtain ⟨t1, -, -, -, -, rfl, rfl⟩ := Contact.new_ok h
  exact ⟨Store.zeroed_fresh s A B, ⟨rfl, rfl, rfl⟩, Store.zeroed_frame s A B A,
    Store.zeroed_frame s A B B, fun q hA hB => Store.zeroed_other s A B q hA hB⟩

/-- Witness of C12: the scene, whose two bodies enter the constructor with the accumulators
`(5, 5, 5)`, `(1, 2, 3)` and `(7, 7, 7)`, `(0, 0, 1)`. -/
theorem C12_construction_side_effect_witness :
    (sceneStore 0).deltaV = ⟨5, 5, 5⟩ ∧ (sceneStore 1).deltaV = ⟨7, 7, 7⟩ ∧
    Contact.new Rat.sqrt sceneStore 0 1 scenePoint sceneNormal (1 / 2) 1 =
      .ok (Contact.assembled Rat.sqrt (sceneStore 0) (sceneStore 1) 0 1 scenePoint sceneNormal
        sceneTangent (1 / 2) 1, sceneStore.zeroed 0 1) ∧
    ((sceneStore.zeroed 0 1 0).deltaV = Vec3.zero ∧ (sceneStore.zeroed 0 1 0).deltaW = Vec3.zero ∧
      (sceneStore.zeroed 0 1 1).deltaV = Vec3.zero ∧
      (sceneStore.zeroed 0 1 1).deltaW = Vec3.zero) ∧
    (sceneStore.zeroed 0 1 1).invMass = 1 ∧
    (∀ q, q ≠ 0 → q ≠ 1 → sceneStore.zeroed 0 1 q = sceneStore q) :=
  have hw := C12_construction_side_effect Rat.sqrt sceneStore 0 1 scenePoint sceneNormal
    (1 / 2) 1 _ _ (scene_new (1 / 2) 1)
  ⟨rfl, rfl, scene_new (1 / 2) 1, hw.1, hw.2.2.2.1.1, hw.2.2.2.2⟩

/-- C13, evaluated on the code. Over the reals, a fixed point body and a point body of inverse
mass `1` pushed by the impulse `(-1, -5, 0)`, with the unit normal `(1, 0, 0)`: the
constructor succeeds and one `processContact` call with `mu = 1` leaves `lambda1 = 1` and the
saturated `lambda2 = 1`; the normal impulse vector `lambda1 * jB.linN` has squared length `1`
and the tangential one `lambda2 * jB.linT1` has squared length `2`, so
`mu * ‖lambda1 * jB.linN‖ = 1 < √2 = ‖lambda2 * jB.linT1‖`: the tangent stored by the
constructor is `(0, 1, 1)`, which line 99 did not normalize. -/
theorem C13_row2_impulse_vector_exceeds_bound :
    ∃ c s', Contact.new Real.sqrt (pushStore ⟨-1, -5, 0⟩) 0 1 ⟨0, 0, 0⟩ ⟨1, 0, 0⟩ 0 1 =
        .ok (c, s') ∧
      Vec3.dot c.jB.linN c.jB.linN = 1 ∧
      (c.processContact s' 1).1.lambda1 = 1 ∧ (c.processContact s' 1).1.lambda2 = 1 ∧
      Vec3.dot (Vec3.scale c.jB.linN (c.processContact s' 1).1.lambda1)
        (Vec3.scale c.jB.linN (c.processContact s' 1).1.lambda1) = 1 ∧
      Vec3.dot (Vec3.scale c.jB.linT1 (c.processContact s' 1).1.lambda2)
        (Vec3.scale c.jB.linT1 (c.processContact s' 1).1.lambda2) = 2 ∧
      1 * Real.sqrt (Vec3.dot (Vec3.scale c.jB.linN (c.processContact s' 1).1.lambda1)
          (Vec3.scale c.jB.linN (c.processContact s' 1).1.lambda1)) <
        Real.sqrt (Vec3.dot (Vec3.scale c.jB.linT1 (c.processContact s' 1).1.lambda2)
          (Vec3.scale c.jB.linT1 (c.processContact s' 1).1.lambda2)) := by
  have ht : Contact.tangent1 (⟨1, 0, 0⟩ : Vec3 ℝ) = some ⟨0, 1, 1⟩ := by
    simp only [Contact.tangent1, isnZero]
    norm_num
  have hpos := Contact.cross_tangent1_pos _ _ ht
  have hn : Vec3.dot (⟨1, 0, 0⟩ : Vec3 ℝ) ⟨1, 0, 0⟩ = 1 := by
    simp only [Vec3.dot]; norm_num
  have h2 : Vec3.dot (⟨0, 1, 1⟩ : Vec3 ℝ) ⟨0, 1, 1⟩ = 2 := by
    simp only [Vec3.dot]; norm_num
  have hnew := Contact.new_of_checks Real.sqrt (pushStore (⟨-1, -5, 0⟩ : Vec3 ℝ)) 0 1 ⟨0, 0, 0⟩
    ⟨1, 0, 0⟩ ⟨0, 1, 1⟩ 0 1 ht
    (by rw [pushStore_rowD, hn]; simp only [isZero]; norm_num)
    (by rw [pushStore_rowD, h2]; simp only [isZero]; norm_num)
    (by
      rw [pushStore_rowD, Vec3.dot_normalize_self Real.sqrt _ hpos
        (Real.mul_self_sqrt (Vec3.dot_self_nonneg _))]
      simp only [isZero]
      norm_num)
  obtain ⟨f1, f2⟩ := pushStore_first_step Real.sqrt (⟨-1, -5, 0⟩ : Vec3 ℝ) ⟨0, 0, 0⟩ ⟨1, 0, 0⟩
    ⟨0, 1, 1⟩ 0 1 1
  have hi1 : Vec3.dot (⟨1, 0, 0⟩ : Vec3 ℝ) ⟨-1, -5, 0⟩ = -1 := by
    simp only [Vec3.dot]; norm_num
  have hi2 : Vec3.dot (⟨0, 1, 1⟩ : Vec3 ℝ) ⟨-1, -5, 0⟩ = -5 := by
    simp only [Vec3.dot]; norm_num
  rw [hn, hi1] at f1 f2
  rw [h2, hi2] at f2
  have g1 : clampNormal (-(-1 * (1 / 1)) : ℝ) = 1 := by
    unfold clampNormal; norm_num
  rw [g1] at f1 f2
  have g2 : clampTangent (-(-5 * (1 / 2)) : ℝ) (1 * 1) = 1 := by
    unfold clampTangent; norm_num
  rw [g2] at f2
  refine ⟨_, _, hnew, hn, f1, f2, ?_, ?_, ?_⟩
  · rw [f1]
    show Vec3.dot (Vec3.scale (⟨1, 0, 0⟩ : Vec3 ℝ) 1) (Vec3.scale ⟨1, 0, 0⟩ 1) = 1
    simp only [Vec3.dot, Vec3.scale]; norm_num
  · rw [f2]
    show Vec3.dot (Vec3.scale (⟨0, 1, 1⟩ : Vec3 ℝ) 1) (Vec3.scale ⟨0, 1, 1⟩ 1) = 2
    simp only [Vec3.dot, Vec3.scale]; norm_num
  · rw [f1, f2]
    have e1 : Vec3.dot (Vec3.scale (⟨1, 0, 0⟩ : Vec3 ℝ) 1) (Vec3.scale ⟨1, 0, 0⟩ 1) = 1 := by
      simp only [Vec3.dot, Vec3.scale]; norm_num
    have e2 : Vec3.dot (Vec3.scale (⟨0, 1, 1⟩ : Vec3 ℝ) 1) (Vec3.scale ⟨0, 1, 1⟩ 1) = 2 := by
      simp only [Vec3.dot, Vec3.scale]; norm_num
    show 1 * Real.sqrt (Vec3.dot (Vec3.scale (⟨1, 0, 0⟩ : Vec3 ℝ) 1) (Vec3.scale ⟨1, 0, 0⟩ 1)) <
      Real.sqrt (Vec3.dot (Vec3.scale (⟨0, 1, 1⟩ : Vec3 ℝ) 1) (Vec3.scale ⟨0, 1, 1⟩ 1))
    rw [e1, e2, Real.sqrt_one, one_mul, Real.lt_sqrt (by norm_num)]
    norm_num


/-- C14. The effective-mass inverse is the impulse for a unit velocity correction: in every
successfully constructed contact, for each row (normal, tangent 1, tangent 2) the sum over
both bodies of `dot(lin_scaledD, lin_scaledM) + dot(ang_scaledD, ang_scaledM)` is `1`; hence
adding the row's mass-scaled directions times `d` to any accumulators changes the row's
D-scaled constraint velocity by exactly `d`. -/
theorem C14_effective_mass_inverse (sqrt : K → K) (s : Store K) (A B : Nat) (cp n : Vec3 K)
    (bounce dt : K) (c : Contact K) (s' : Store K)
    (h : Contact.new sqrt s A B cp n bounce dt = .ok (c, s')) :
    (Vec3.dot c.jA.linN_scaledD c.jA.linN_scaledM + Vec3.dot c.jA.angN_scaledD c.jA.angN_scaledM +
      Vec3.dot c.jB.linN_scaledD c.jB.linN_scaledM +
      Vec3.dot c.jB.angN_scaledD c.jB.angN_scaledM = 1) ∧
    (Vec3.dot c.jA.linT1_scaledD c.jA.linT1_scaledM +
      Vec3.dot c.jA.angT1_scaledD c.jA.angT1_scaledM +
      Vec3.dot c.jB.linT1_scaledD c.jB.linT1_scaledM +
      Vec3.dot c.jB.angT1_scaledD c.jB.angT1_scaledM = 1) ∧
    (Vec3.dot c.jA.linT2_scaledD c.jA.linT2_scaledM +
      Vec3.dot c.jA.angT2_scaledD c.jA.angT2_scaledM +
      Vec3.dot c.jB.linT2_scaledD c.jB.linT2_scaledM +
      Vec3.dot c.jB.angT2_scaledD c.jB.angT2_scaledM = 1) ∧
    (∀ (vA wA vB wB : Vec3 K) (d : K),
      (Vec3.dot c.jA.linN_scaledD (Vec3.add vA (Vec3.scale c.jA.linN_scaledM d)) +
          Vec3.dot c.jA.angN_scaledD (Vec3.add wA (Vec3.scale c.jA.angN_scaledM d)) +
          Vec3.dot c.jB.linN_scaledD (Vec3.add vB (Vec3.scale c.jB.linN_scaledM d)) +
          Vec3.dot c.jB.angN_scaledD (Vec3.add wB (Vec3.scale c.jB.angN_scaledM d)) =
        Vec3.dot c.jA.linN_scaledD vA + Vec3.dot c.jA.angN_scaledD wA +
          Vec3.dot c.jB.linN_scaledD vB + Vec3.dot c.jB.angN_scaledD wB + d) ∧
      (Vec3.dot c.jA.linT1_scaledD (Vec3.add vA (Vec3.scale c.jA.linT1_scaledM d)) +
          Vec3.dot c.jA.angT1_scaledD (Vec3.add wA (Vec3.scale c.jA.angT1_scaledM d)) +
          Vec3.dot c.jB.linT1_scaledD (Vec3.add vB (Vec3.scale c.jB.linT1_scaledM d)) +
          Vec3.dot c.jB.angT1_scaledD (Vec3.add wB (Vec3.scale c.jB.angT1_scaledM d)) =
        Vec3.dot c.jA.linT1_scaledD vA + Vec3.dot c.jA.angT1_scaledD wA +
          Vec3.dot c.jB.linT1_scaledD vB + Vec3.dot c.jB.angT1_scaledD wB + d) ∧
      (Vec3.dot c.jA.linT2_scaledD (Vec3.add vA (Vec3.scale c.jA.linT2_scaledM d)) +
          Vec3.dot c.jA.angT2_scaledD (Vec3.add wA (Vec3.scale c.jA.angT2_scaledM d)) +
          Vec3.dot c.jB.linT2_scaledD (Vec3.add vB (Vec3.scale c.jB.linT2_scaledM d)) +
          Vec3.dot c.jB.angT2_scaledD (Vec3.add wB (Vec3.scale c.jB.angT2_scaledM d)) =
        Vec3.dot c.jA.linT2_scaledD vA + Vec3.dot c.jA.angT2_scaledD wA +
          Vec3.dot c.jB.linT2_scaledD vB + Vec3.dot c.jB.angT2_scaledD wB + d)) := by
  obtain ⟨u1, u2, u3⟩ := Contact.new_unitDiagonal h
  exact ⟨u1, u2, u3, fun vA wA vB wB d =>
    ⟨row_shift _ _ _ _ _ _ _ _ vA wA vB wB d u1, row_shift _ _ _ _ _ _ _ _ vA wA vB wB d u2,
      row_shift _ _ _ _ _ _ _ _ vA wA vB wB d u3⟩⟩

/-- Witness of C14: the contact built in the scene. -/
theorem C14_effective_mass_inverse_witness :
    (Vec3.dot sceneContact.jA.linN_scaledD sceneContact.jA.linN_scaledM +
      Vec3.dot sceneContact.jA.angN_scaledD sceneContact.jA.angN_scaledM +
      Vec3.dot sceneContact.jB.linN_scaledD sceneContact.jB.linN_scaledM +
      Vec3.dot sceneContact.jB.angN_scaledD sceneContact.jB.angN_scaledM = 1) ∧
    (Vec3.dot sceneContact.jA.linT1_scaledD sceneContact.jA.linT1_scaledM +
      Vec3.dot sceneContact.jA.angT1_scaledD sceneContact.jA.angT1_scaledM +
      Vec3.dot sceneContact.jB.linT1_scaledD sceneContact.jB.linT1_scaledM +
      Vec3.dot sceneContact.jB.angT1_scaledD sceneContact.jB.angT1_scaledM = 1) ∧
    (Vec3.dot sceneContact.jA.linT2_scaledD sceneContact.jA.linT2_scaledM +
      Vec3.dot sceneContact.jA.angT2_scaledD sceneContact.jA.angT2_scaledM +
      Vec3.dot sceneContact.jB.linT2_scaledD sceneContact.jB.linT2_scaledM +
      Vec3.dot sceneContact.jB.angT2_scaledD sceneContact.jB.angT2_scaledM = 1) :=
  have hw := C14_effective_mass_inverse Rat.sqrt sceneStore 0 1 scenePoint sceneNormal 0 1
    sceneContact _ (scene_new 0 1)
  ⟨hw.1, hw.2.1, hw.2.2.1⟩


/-- C15. Accumulator/impulse invariant: for two distinct bodies, after a successful
construction followed by any finite sequence of `processContact` calls with arbitrary
friction coefficients, `A.deltaV = jA.linN_scaledM * lambda1 + jA.linT1_scaledM * lambda2 +
jA.linT2_scaledM * lambda3`, `A.deltaW` is the same combination of the `ang` directions of
`jA`, and the same two equations hold for `B` with `jB`. -/
theorem C15_accumulator_impulse_invariant (sqrt : K → K) (s : Store K) (A B : Nat)
    (cp n : Vec3 K) (bounce dt : K) (c : Contact K) (s' : Store K) (mus : List K)
    (hAB : A ≠ B) (h : Contact.new sqrt s A B cp n bounce dt = .ok (c, s')) :
    ((c.processContacts s' mus).2 A).deltaV =
      Vec3.add (Vec3.add
        (Vec3.scale (c.processContacts s' mus).1.jA.linN_scaledM
          (c.processContacts s' mus).1.lambda1)
        (Vec3.scale (c.processContacts s' mus).1.jA.linT1_scaledM
          (c.processContacts s' mus).1.lambda2))
        (Vec3.scale (c.processContacts s' mus).1.jA.linT2_scaledM
          (c.processContacts s' mus).1.lambda3) ∧
    ((c.processContacts s' mus).2 A).deltaW =
      Vec3.add (Vec3.add
        (Vec3.scale (c.processContacts s' mus).1.jA.angN_scaledM
          (c.processContacts s' mus).1.lambda1)
        (Vec3.scale (c.processContacts s' mus).1.jA.angT1_scaledM
          (c.processContacts s' mus).1.lambda2))
        (Vec3.scale (c.processContacts s' mus).1.jA.angT2_scaledM
          (c.processContacts s' mus).1.lambda3) ∧
    ((c.processContacts s' mus).2 B).deltaV =
      Vec3.add (Vec3.add
        (Vec3.scale (c.processContacts s' mus).1.jB.linN_scaledM
          (c.processContacts s' mus).1.lambda1)
        (Vec3.scale (c.processContacts s' mus).1.jB.linT1_scaledM
          (c.processContacts s' mus).1.lambda2))
        (Vec3.scale (c.processContacts s' mus).1.jB.linT2_scaledM
          (c.processContacts s' mus).1.lambda3) ∧
    ((c.processContacts s' mus).2 B).deltaW =
      Vec3.add (Vec3.add
        (Vec3.scale (c.processContacts s' mus).1.jB.angN_scaledM
          (c.processContacts s' mus).1.lambda1)
        (Vec3.scale (c.processContacts s' mus).1.jB.angT1_scaledM
          (c.processContacts s' mus).1.lambda2))
        (Vec3.scale (c.processContacts s' mus).1.jB.angT2_scaledM
          (c.processContacts s' mus).1.lambda3) := by
  obtain ⟨t1, -, -, -, -, rfl, rfl⟩ := Contact.new_ok h
  have hacc := Contact.Accounted.accounted_steps mus _ _
    (Contact.assembled_accounted sqrt s A B cp n t1 bounce dt) hAB
  have hA := Contact.processContacts_A
    (Contact.assembled sqrt (s A) (s B) A B cp n t1 bounce dt) (s.zeroed A B) mus
  have hB := Contact.processContacts_B
    (Contact.assembled sqrt (s A) (s B) A B cp n t1 bounce dt) (s.zeroed A B) mus
  unfold Contact.Accounted at hacc
  rw [hA, hB] at hacc
  exact hacc

/-- Witness of C15: the scene, resolved with friction `1/2`, `0` and `2`. -/
theorem C15_accumulator_impulse_invariant_witness :
    ((sceneContact.processContacts (sceneStore.zeroed 0 1) [1 / 2, 0, 2]).2 1).deltaV =
      Vec3.add (Vec3.add
        (Vec3.scale (sceneContact.processContacts (sceneStore.zeroed 0 1) [1 / 2, 0, 2]).1.jB.linN_scaledM
          (sceneContact.processContacts (sceneStore.zeroed 0 1) [1 / 2, 0, 2]).1.lambda1)
        (Vec3.scale (sceneContact.processContacts (sceneStore.zeroed 0 1) [1 / 2, 0, 2]).1.jB.linT1_scaledM
          (sceneContact.processContacts (sceneStore.zeroed 0 1) [1 / 2, 0, 2]).1.lambda2))
        (Vec3.scale (sceneContact.processContacts (sceneStore.zeroed 0 1) [1 / 2, 0, 2]).1.jB.linT2_scaledM
          (sceneContact.processContacts (sceneStore.zeroed 0 1) [1 / 2, 0, 2]).1.lambda3) :=
  (C15_accumulator_impulse_invariant Rat.sqrt sceneStore 0 1 scenePoint sceneNormal 0 1
    sceneContact _ [1 / 2, 0, 2] (by decide) (scene_new 0 1)).2.2.1


/-- C16, as the code has it. One-sweep convergence for decoupled rows between two distinct
bodies: for every successfully constructed contact between bodies `A ≠ B` whose rows are
mutually decoupled, every starting `lambda1..3`, every store (so every starting
accumulators) and every `mu`, calling `processContact mu` twice leaves `lambda1..3` and
`deltaV`, `deltaW` of both bodies exactly as they are after the first call. -/
theorem C16_one_sweep_for_decoupled_rows (sqrt : K → K) (s : Store K) (A B : Nat)
    (cp n : Vec3 K) (bounce dt : K) (c : Contact K) (s' : Store K) (l1 l2 l3 mu : K)
    (s₀ : Store K) (hAB : A ≠ B)
    (h : Contact.new sqrt s A B cp n bounce dt = .ok (c, s')) (hdec : c.Decoupled) :
    (((c.withImpulses l1 l2 l3).processTwice s₀ mu).1.lambda1 =
        ((c.withImpulses l1 l2 l3).processContact s₀ mu).1.lambda1 ∧
      ((c.withImpulses l1 l2 l3).processTwice s₀ mu).1.lambda2 =
        ((c.withImpulses l1 l2 l3).processContact s₀ mu).1.lambda2 ∧
      ((c.withImpulses l1 l2 l3).processTwice s₀ mu).1.lambda3 =
        ((c.withImpulses l1 l2 l3).processContact s₀ mu).1.lambda3) ∧
    ((((c.withImpulses l1 l2 l3).processTwice s₀ mu).2 A).deltaV =
        (((c.withImpulses l1 l2 l3).processContact s₀ mu).2 A).deltaV ∧
      (((c.withImpulses l1 l2 l3).processTwice s₀ mu).2 A).deltaW =
        (((c.withImpulses l1 l2 l3).processContact s₀ mu).2 A).deltaW ∧
      (((c.withImpulses l1 l2 l3).processTwice s₀ mu).2 B).deltaV =
        (((c.withImpulses l1 l2 l3).processContact s₀ mu).2 B).deltaV ∧
      (((c.withImpulses l1 l2 l3).processTwice s₀ mu).2 B).deltaW =
        (((c.withImpulses l1 l2 l3).processContact s₀ mu).2 B).deltaW) := by
  have hU0 : c.UnitDiagonal := Contact.new_unitDiagonal h
  have hU : (c.withImpulses l1 l2 l3).UnitDiagonal := hU0
  have hX : (c.withImpulses l1 l2 l3).Decoupled := hdec
  obtain ⟨t1, -, -, -, -, rfl, -⟩ := Contact.new_ok h
  exact Contact.processTwice_fixed _ s₀ mu hAB hU hX

/-- Witness of C16: the fixed point body and the pushed one, in the frame of the scene, with
starting impulses `2`, `1`, `-1`, the store as it entered the constructor and `mu = -1`. -/
theorem C16_one_sweep_for_decoupled_rows_witness :
    (pushContact ⟨-3, 0, 3⟩ 0 1).Decoupled ∧
    ((((pushContact ⟨-3, 0, 3⟩ 0 1).withImpulses 2 1 (-1)).processTwice
          (pushStore ⟨-3, 0, 3⟩) (-1)).1.lambda1 =
        (((pushContact ⟨-3, 0, 3⟩ 0 1).withImpulses 2 1 (-1)).processContact
          (pushStore ⟨-3, 0, 3⟩) (-1)).1.lambda1 ∧
      (((pushContact ⟨-3, 0, 3⟩ 0 1).withImpulses 2 1 (-1)).processTwice
          (pushStore ⟨-3, 0, 3⟩) (-1)).1.lambda2 =
        (((pushContact ⟨-3, 0, 3⟩ 0 1).withImpulses 2 1 (-1)).processContact
          (pushStore ⟨-3, 0, 3⟩) (-1)).1.lambda2 ∧
      (((pushContact ⟨-3, 0, 3⟩ 0 1).withImpulses 2 1 (-1)).processTwice
          (pushStore ⟨-3, 0, 3⟩) (-1)).1.lambda3 =
        (((pushContact ⟨-3, 0, 3⟩ 0 1).withImpulses 2 1 (-1)).processContact
          (pushStore ⟨-3, 0, 3⟩) (-1)).1.lambda3) :=
  have hd : (pushContact ⟨-3, 0, 3⟩ 0 1).Decoupled :=
    Contact.assembled_decoupled Rat.sqrt _ _ 0 1 scenePoint sceneNormal sceneTangent 0 1 rfl rfl
      scene_tangent1
  ⟨hd, (C16_one_sweep_for_decoupled_rows Rat.sqrt (pushStore ⟨-3, 0, 3⟩) 0 1 scenePoint
    sceneNormal 0 1 _ _ 2 1 (-1) (-1) (pushStore ⟨-3, 0, 3⟩) (by decide)
    (pushContact_new ⟨-3, 0, 3⟩ 0 1) hd).1⟩

/-- Counterexample to C16 as stated, which does not ask for two distinct bodies: with both
handles naming the same point body of inverse mass `1`, in the frame of the scene, the
constructor succeeds and the rows are decoupled; starting from `lambda1 = 1`,
`lambda2 = lambda3 = 0` with `mu = -1`, the first call leaves `lambda2 = 1` and the second
call leaves `lambda2 = -1`. -/
theorem C16_same_body_second_sweep_differs :
    Contact.new Rat.sqrt selfStore 0 0 scenePoint sceneNormal 0 1 =
      .ok (selfContact, selfStore.zeroed 0 0) ∧
    selfContact.Decoupled ∧
    selfLoaded = selfContact.withImpulses 1 0 0 ∧
    (selfLoaded.processContact (selfStore.zeroed 0 0) (-1)).1.lambda2 = 1 ∧
    (selfLoaded.processTwice (selfStore.zeroed 0 0) (-1)).1.lambda2 = -1 := by
  obtain ⟨n1, n2, n3⟩ := scene_norms
  have hnew : Contact.new Rat.sqrt selfStore 0 0 scenePoint sceneNormal 0 1 =
      .ok (selfContact, selfStore.zeroed 0 0) := by
    apply Contact.new_of_checks _ _ _ _ _ _ _ _ _ scene_tangent1
    · show ¬ isZero (Contact.rowD (pointBody 1) (pointBody 1) _ _) _
      rw [Contact.rowD_pointBody, n1]; unfold isZero; norm_num
    · show ¬ isZero (Contact.rowD (pointBody 1) (pointBody 1) _ _) _
      rw [Contact.rowD_pointBody, n2]; unfold isZero; norm_num
    · show ¬ isZero (Contact.rowD (pointBody 1) (pointBody 1) _ _) _
      rw [Contact.rowD_pointBody, n3]; unfold isZero; norm_num
  have hdec : selfContact.Decoupled :=
    Contact.assembled_decoupled Rat.sqrt _ _ 0 0 scenePoint sceneNormal sceneTangent 0 1 rfl rfl
      scene_tangent1
  obtain ⟨⟨b1, b2, b3⟩, -, ha⟩ := Contact.assembled_idle Rat.sqrt selfStore 0 0 scenePoint
    sceneNormal sceneTangent 0 1 rfl rfl rfl rfl rfl rfl rfl rfl
  have b1' : selfLoaded.b_row1_scaledD = 0 := b1
  have b2' : selfLoaded.b_row2_scaledD = 0 := b2
  have ha' : ((selfStore.zeroed 0 0) selfLoaded.A).deltaV = Vec3.zero ∧
      ((selfStore.zeroed 0 0) selfLoaded.A).deltaW = Vec3.zero ∧
      ((selfStore.zeroed 0 0) selfLoaded.B).deltaV = Vec3.zero ∧
      ((selfStore.zeroed 0 0) selfLoaded.B).deltaW = Vec3.zero := ha
  obtain ⟨e1, e2, -⟩ := Contact.cand_empty selfLoaded (selfStore.zeroed 0 0) ha'
  have f1 : (selfLoaded.processContact (selfStore.zeroed 0 0) (-1)).1.lambda1 = 1 := by
    rw [Contact.processContact_lambda1, e1, b1']
    show clampNormal ((1 : ℚ) - 0) = 1
    unfold clampNormal; norm_num
  have f2 : (selfLoaded.processContact (selfStore.zeroed 0 0) (-1)).1.lambda2 = 1 := by
    rw [Contact.processContact_lambda2, e1, e2, b1', b2']
    show clampTangent ((0 : ℚ) - 0) (-1 * clampNormal ((1 : ℚ) - 0)) = 1
    unfold clampTangent clampNormal; norm_num
  have hopp := Contact.assembled_self_opposite Rat.sqrt (pointBody (1 : ℚ)) 0 0 scenePoint
    sceneNormal sceneTangent 0 1
  obtain ⟨gV, gW⟩ := Contact.applyDeltas_aliased
    (selfLoaded.processContact (selfStore.zeroed 0 0) (-1)).1 (selfStore.zeroed 0 0)
    ((selfLoaded.processContact (selfStore.zeroed 0 0) (-1)).1.lambda1 - selfLoaded.lambda1)
    ((selfLoaded.processContact (selfStore.zeroed 0 0) (-1)).1.lambda2 - selfLoaded.lambda2)
    ((selfLoaded.processContact (selfStore.zeroed 0 0) (-1)).1.lambda3 - selfLoaded.lambda3)
    rfl hopp.1 hopp.2
  have hs : ((selfLoaded.processContact (selfStore.zeroed 0 0) (-1)).2
        (selfLoaded.processContact (selfStore.zeroed 0 0) (-1)).1.A).deltaV = Vec3.zero ∧
      ((selfLoaded.processContact (selfStore.zeroed 0 0) (-1)).2
        (selfLoaded.processContact (selfStore.zeroed 0 0) (-1)).1.A).deltaW = Vec3.zero ∧
      ((selfLoaded.processContact (selfStore.zeroed 0 0) (-1)).2
        (selfLoaded.processContact (selfStore.zeroed 0 0) (-1)).1.B).deltaV = Vec3.zero ∧
      ((selfLoaded.processContact (selfStore.zeroed 0 0) (-1)).2
        (selfLoaded.processContact (selfStore.zeroed 0 0) (-1)).1.B).deltaW = Vec3.zero :=
    ⟨gV.trans ha'.1, gW.trans ha'.2.1, gV.trans ha'.1, gW.trans ha'.2.1⟩
  obtain ⟨k1, k2, -⟩ := Contact.cand_empty _ _ hs
  refine ⟨hnew, hdec, rfl, f2, ?_⟩
  have b1'' : (selfLoaded.processContact (selfStore.zeroed 0 0) (-1)).1.b_row1_scaledD = 0 := b1
  have b2'' : (selfLoaded.processContact (selfStore.zeroed 0 0) (-1)).1.b_row2_scaledD = 0 := b2
  unfold Contact.processTwice
  rw [Contact.processContact_lambda2, k1, k2, f1, f2, b1'', b2'']
  unfold clampTangent clampNormal; norm_num


/-- C17. Unit normals never hit the degenerate-normal branch: for every normal with
`n.x^2 + n.y^2 + n.z^2 = 1` at least one of `|n.x| ≥ 1e-3`, `|n.y| ≥ 1e-6`, `|n.z| ≥ 1e-16`
holds, the case split chooses a tangent and no construction ends in the degenerate-normal
error; whereas the non-zero normal `(5e-4, 0, 0)` is rejected by the case split, and between
two point bodies of inverse mass `10` the constructor ends in the degenerate-normal error
on it. -/
theorem C17_unit_normal_never_degenerate :
    (∀ n : Vec3 K, n.x ^ 2 + n.y ^ 2 + n.z ^ 2 = 1 →
      (1 / 10 ^ 3 ≤ |n.x| ∨ 1 / 10 ^ 6 ≤ |n.y| ∨ 1 / 10 ^ 16 ≤ |n.z|) ∧
      (∃ t1, Contact.tangent1 n = some t1) ∧
      ∀ (sqrt : K → K) (s : Store K) (A B : Nat) (cp : Vec3 K) (bounce dt : K),
        Contact.new sqrt s A B cp n bounce dt ≠ .error .degenerateNormal) ∧
    ((⟨5 / 10 ^ 4, 0, 0⟩ : Vec3 K) ≠ Vec3.zero ∧
      Contact.tangent1 (⟨5 / 10 ^ 4, 0, 0⟩ : Vec3 K) = none ∧
      ∀ (sqrt : K → K) (cp : Vec3 K) (bounce dt : K),
        Contact.new sqrt (fun _ => pointBody (10 : K)) 0 1 cp ⟨5 / 10 ^ 4, 0, 0⟩ bounce dt =
          .error .degenerateNormal) := by
  have hnone : Contact.tangent1 (⟨5 / 10 ^ 4, 0, 0⟩ : Vec3 K) = none := by
    have h0 : ¬ (1 / 10 ^ 3 ≤ |(5 / 10 ^ 4 : K)| ∨ 1 / 10 ^ 6 ≤ |(0 : K)| ∨
        1 / 10 ^ 16 ≤ |(0 : K)|) := by
      rw [abs_of_pos (by positivity : (0 : K) < 5 / 10 ^ 4), abs_zero]
      norm_num
    cases ht : Contact.tangent1 (⟨5 / 10 ^ 4, 0, 0⟩ : Vec3 K) with
    | none => rfl
    | some t1 => exact absurd ((Contact.tangent1_isSome_iff _).mp ⟨t1, ht⟩) h0
  refine ⟨?_, ?_, hnone, ?_⟩
  · intro n hn
    have h := unit_passes_case_split n hn
    have ht := (Contact.tangent1_isSome_iff n).mpr h
    refine ⟨h, ht, ?_⟩
    intro sqrt s A B cp bounce dt hnew
    obtain ⟨t1, ht1⟩ := ht
    rw [Contact.new_degenerateNormal sqrt s A B cp n bounce dt hnew] at ht1
    cases ht1
  · intro h
    have hx := congrArg Vec3.x h
    simp only [Vec3.zero] at hx
    norm_num at hx
  · intro sqrt cp bounce dt
    rw [Contact.new_cases, hnone]
    have hD : ¬ isZero (Contact.rowD ((fun _ => pointBody (10 : K)) 0)
        ((fun _ => pointBody (10 : K)) 1) cp ⟨5 / 10 ^ 4, 0, 0⟩) (1 / 10 ^ 6) := by
      rw [Contact.rowD_pointBody]
      simp only [Vec3.dot, isZero]
      norm_num
    rw [if_neg hD]

/-- Witness of C17: the unit normal of the scene. -/
theorem C17_unit_normal_never_degenerate_witness :
    (1 / 10 ^ 3 ≤ |sceneNormal.x| ∨ 1 / 10 ^ 6 ≤ |sceneNormal.y| ∨
      1 / 10 ^ 16 ≤ |sceneNormal.z|) ∧
    (∃ t1, Contact.tangent1 sceneNormal = some t1) ∧
    Contact.new Rat.sqrt sceneStore 0 1 scenePoint sceneNormal 0 1 ≠ .error .degenerateNormal :=
  have h := (C17_unit_normal_never_degenerate (K := ℚ)).1 sceneNormal
    (by simp only [sceneNormal]; norm_num)
  ⟨h.1, h.2.1, h.2.2 Rat.sqrt sceneStore 0 1 scenePoint 0 1⟩


/-- C18. Linear momentum is conserved by every resolve call: for a successfully constructed
contact between two distinct bodies with inverse masses `a` (body `A`) and `b` (body `B`),
whatever impulses `lambda1..3` the contact holds, whatever the store holds and whatever `mu`,
one `processContact` call changes the accumulators so that
`b * (A.deltaV_after - A.deltaV_before) + a * (B.deltaV_after - B.deltaV_before) = 0`. -/
theorem C18_linear_momentum_conserved (sqrt : K → K) (s : Store K) (A B : Nat) (cp n : Vec3 K)
    (bounce dt : K) (c : Contact K) (s' : Store K) (l1 l2 l3 mu : K) (s₀ : Store K)
    (hAB : A ≠ B) (h : Contact.new sqrt s A B cp n bounce dt = .ok (c, s')) :
    Vec3.add
        (Vec3.scale
          (Vec3.sub
            ((({ c with lambda1 := l1, lambda2 := l2, lambda3 := l3 } : Contact K).processContact
              s₀ mu).2 A).deltaV
            (s₀ A).deltaV)
          (s B).invMass)
        (Vec3.scale
          (Vec3.sub
            ((({ c with lambda1 := l1, lambda2 := l2, lambda3 := l3 } : Contact K).processContact
              s₀ mu).2 B).deltaV
            (s₀ B).deltaV)
          (s A).invMass) = Vec3.zero := by
  obtain ⟨t1, -, -, -, -, rfl, -⟩ := Contact.new_ok h
  obtain ⟨sAV, -, sBV, -⟩ := Contact.processContact_store
    ({ Contact.assembled sqrt (s A) (s B) A B cp n t1 bounce dt with
      lambda1 := l1, lambda2 := l2, lambda3 := l3 } : Contact K) s₀ mu hAB
  have sAV' : ((({ Contact.assembled sqrt (s A) (s B) A B cp n t1 bounce dt with
      lambda1 := l1, lambda2 := l2, lambda3 := l3 } : Contact K).processContact s₀ mu).2
      A).deltaV = _ := sAV
  have sBV' : ((({ Contact.assembled sqrt (s A) (s B) A B cp n t1 bounce dt with
      lambda1 := l1, lambda2 := l2, lambda3 := l3 } : Contact K).processContact s₀ mu).2
      B).deltaV = _ := sBV
  rw [sAV', sBV']
  exact Vec3.bump_opposite (s₀ A).deltaV (s₀ B).deltaV n t1
    (Vec3.normalize sqrt (Vec3.cross n t1)) (s A).invMass (s B).invMass _ _ _

/-- Witness of C18: the scene, with the contact holding the impulses `2`, `1`, `-1`, the
store as it entered the constructor, and friction `1/2`. -/
theorem C18_linear_momentum_conserved_witness :
    Vec3.add
        (Vec3.scale
          (Vec3.sub
            ((({ sceneContact with lambda1 := 2, lambda2 := 1, lambda3 := -1 } :
              Contact ℚ).processContact sceneStore (1 / 2)).2 0).deltaV
            (sceneStore 0).deltaV)
          (sceneStore 1).invMass)
        (Vec3.scale
          (Vec3.sub
            ((({ sceneContact with lambda1 := 2, lambda2 := 1, lambda3 := -1 } :
              Contact ℚ).processContact sceneStore (1 / 2)).2 1).deltaV
            (sceneStore 1).deltaV)
          (sceneStore 0).invMass) = Vec3.zero :=
  C18_linear_momentum_conserved Rat.sqrt sceneStore 0 1 scenePoint sceneNormal 0 1
    sceneContact _ 2 1 (-1) (1 / 2) sceneStore (by decide) (scene_new 0 1)


/-- C19. No friction without normal impulse: a contact with `lambda1 = lambda2 = lambda3 = 0`
whose two bodies have empty accumulators, as the constructor leaves them, and whose normal
bias satisfies `b_row1_scaledD ≥ 0`: whatever the tangent biases and the friction
coefficients, after any number of `processContact` calls all three impulses are `0` and
`deltaV`, `deltaW` of both bodies are the zero vector. -/
theorem C19_no_friction_without_normal_impulse (c : Contact K) (s : Store K) (mus : List K)
    (hl : c.lambda1 = 0 ∧ c.lambda2 = 0 ∧ c.lambda3 = 0)
    (ha : (s c.A).deltaV = Vec3.zero ∧ (s c.A).deltaW = Vec3.zero ∧
      (s c.B).deltaV = Vec3.zero ∧ (s c.B).deltaW = Vec3.zero)
    (hb : 0 ≤ c.b_row1_scaledD) :
    ((c.processContacts s mus).1.lambda1 = 0 ∧ (c.processContacts s mus).1.lambda2 = 0 ∧
      (c.processContacts s mus).1.lambda3 = 0) ∧
    (((c.processContacts s mus).2 c.A).deltaV = Vec3.zero ∧
      ((c.processContacts s mus).2 c.A).deltaW = Vec3.zero ∧
      ((c.processContacts s mus).2 c.B).deltaV = Vec3.zero ∧
      ((c.processContacts s mus).2 c.B).deltaW = Vec3.zero) :=
  Contact.processContacts_unloaded mus c s hl ha hb

/-- Witness of C19: a unit-mass point body pushed by the impulse `(1, 4, 1)`, which has the
component `3` along the normal of the scene and `3` along its tangent; the constructor
returns a contact with biases `3`, `3`, `0`, and three calls with friction `1`, `-2`, `5`
leave everything at zero. -/
theorem C19_no_friction_without_normal_impulse_witness :
    Contact.new Rat.sqrt (pushStore ⟨1, 4, 1⟩) 0 1 scenePoint sceneNormal (1 / 2) 1 =
      .ok (pushContact ⟨1, 4, 1⟩ (1 / 2) 1, (pushStore ⟨1, 4, 1⟩).zeroed 0 1) ∧
    (pushContact ⟨1, 4, 1⟩ (1 / 2) 1).b_row1_scaledD = 3 ∧
    (pushContact ⟨1, 4, 1⟩ (1 / 2) 1).b_row2_scaledD = 3 ∧
    (((pushContact ⟨1, 4, 1⟩ (1 / 2) 1).processContacts ((pushStore ⟨1, 4, 1⟩).zeroed 0 1)
        [1, -2, 5]).1.lambda1 = 0 ∧
      ((pushContact ⟨1, 4, 1⟩ (1 / 2) 1).processContacts ((pushStore ⟨1, 4, 1⟩).zeroed 0 1)
        [1, -2, 5]).1.lambda2 = 0 ∧
      ((pushContact ⟨1, 4, 1⟩ (1 / 2) 1).processContacts ((pushStore ⟨1, 4, 1⟩).zeroed 0 1)
        [1, -2, 5]).1.lambda3 = 0) ∧
    ((((pushContact ⟨1, 4, 1⟩ (1 / 2) 1).processContacts ((pushStore ⟨1, 4, 1⟩).zeroed 0 1)
        [1, -2, 5]).2 0).deltaV = Vec3.zero ∧
      (((pushContact ⟨1, 4, 1⟩ (1 / 2) 1).processContacts ((pushStore ⟨1, 4, 1⟩).zeroed 0 1)
        [1, -2, 5]).2 0).deltaW = Vec3.zero ∧
      (((pushContact ⟨1, 4, 1⟩ (1 / 2) 1).processContacts ((pushStore ⟨1, 4, 1⟩).zeroed 0 1)
        [1, -2, 5]).2 1).deltaV = Vec3.zero ∧
      (((pushContact ⟨1, 4, 1⟩ (1 / 2) 1).processContacts ((pushStore ⟨1, 4, 1⟩).zeroed 0 1)
        [1, -2, 5]).2 1).deltaW = Vec3.zero) := by
  obtain ⟨b1, b2, -⟩ := pushContact_biases ⟨1, 4, 1⟩ (1 / 2) 1
  have e1 : (pushContact ⟨1, 4, 1⟩ (1 / 2) 1).b_row1_scaledD = 3 := by
    rw [b1]; simp only [Vec3.dot, sceneNormal]; norm_num
  have e2 : (pushContact ⟨1, 4, 1⟩ (1 / 2) 1).b_row2_scaledD = 3 := by
    rw [b2]; simp only [Vec3.dot, sceneTangent]; norm_num
  obtain ⟨hl, ha⟩ := pushContact_fresh ⟨1, 4, 1⟩ (1 / 2) 1
  have hw := C19_no_friction_without_normal_impulse (pushContact ⟨1, 4, 1⟩ (1 / 2) 1)
    ((pushStore ⟨1, 4, 1⟩).zeroed 0 1) [1, -2, 5] hl ha (by rw [e1]; norm_num)
  exact ⟨pushContact_new _ _ _, e1, e2, hw.1, hw.2⟩

/-- C20. The friction coefficient is not validated: for every contact, store and `mu < 0`
for which the freshly clamped normal impulse is positive, after `processContact mu` each of
`lambda2`, `lambda3` is `mu * lambda1` or `-mu * lambda1` whatever its candidate was, so
`|lambda2| = |lambda3| = |mu| * lambda1 > mu * lambda1` and the containment
`|lambda2| ≤ mu * lambda1` fails, as does the one for `lambda3`. -/
theorem C20_negative_mu_not_validated (c : Contact K) (s : Store K) (mu : K) (hmu : mu < 0)
    (hpos : 0 < (c.processContact s mu).1.lambda1) :
    ((c.processContact s mu).1.lambda2 = mu * (c.processContact s mu).1.lambda1 ∨
      (c.processContact s mu).1.lambda2 = -mu * (c.processContact s mu).1.lambda1) ∧
    ((c.processContact s mu).1.lambda3 = mu * (c.processContact s mu).1.lambda1 ∨
      (c.processContact s mu).1.lambda3 = -mu * (c.processContact s mu).1.lambda1) ∧
    |(c.processContact s mu).1.lambda2| = |mu| * (c.processContact s mu).1.lambda1 ∧
    |(c.processContact s mu).1.lambda3| = |mu| * (c.processContact s mu).1.lambda1 ∧
    mu * (c.processContact s mu).1.lambda1 < |mu| * (c.processContact s mu).1.lambda1 ∧
    ¬ |(c.processContact s mu).1.lambda2| ≤ mu * (c.processContact s mu).1.lambda1 ∧
    ¬ |(c.processContact s mu).1.lambda3| ≤ mu * (c.processContact s mu).1.lambda1 := by
  have hm : mu * (c.processContact s mu).1.lambda1 < 0 := mul_neg_of_neg_of_pos hmu hpos
  have h2 := clampTangent_of_neg (c.cand2 s) _ hm
  have h3 := clampTangent_of_neg (c.cand3 s) _ hm
  rw [Contact.processContact_lambda1] at h2 h3
  rw [← Contact.processContact_lambda2] at h2
  rw [← Contact.processContact_lambda3] at h3
  rw [← Contact.processContact_lambda1 c s mu] at h2 h3
  have habs : |mu| * (c.processContact s mu).1.lambda1 =
      -(mu * (c.processContact s mu).1.lambda1) := by
    rw [abs_of_neg hmu]; ring
  have a2 : |(c.processContact s mu).1.lambda2| =
      |mu| * (c.processContact s mu).1.lambda1 := by
    rcases h2 with h | h
    · rw [h, abs_of_neg hm, habs]
    · rw [h, abs_neg, abs_of_neg hm, habs]
  have a3 : |(c.processContact s mu).1.lambda3| =
      |mu| * (c.processContact s mu).1.lambda1 := by
    rcases h3 with h | h
    · rw [h, abs_of_neg hm, habs]
    · rw [h, abs_neg, abs_of_neg hm, habs]
  have hlt : mu * (c.processContact s mu).1.lambda1 <
      |mu| * (c.processContact s mu).1.lambda1 := by
    rw [habs]; linarith
  refine ⟨?_, ?_, a2, a3, hlt, ?_, ?_⟩
  · rcases h2 with h | h
    · exact Or.inl h
    · exact Or.inr (by rw [h]; ring)
  · rcases h3 with h | h
    · exact Or.inl h
    · exact Or.inr (by rw [h]; ring)
  · rw [a2]; exact not_le.mpr hlt
  · rw [a3]; exact not_le.mpr hlt


/-- Witness of C20: the point body pushed by `(-3, 0, 3)`, that is `-3` along the normal of
the scene and `3` along its tangent, resolved once with `mu = -1`: the normal impulse is `3`
and `|lambda2| = 3 > -3 = mu * lambda1`. -/
theorem C20_negative_mu_not_validated_witness :
    ((pushContact ⟨-3, 0, 3⟩ 0 1).processContact ((pushStore ⟨-3, 0, 3⟩).zeroed 0 1)
        (-1)).1.lambda1 = 3 ∧
    |((pushContact ⟨-3, 0, 3⟩ 0 1).processContact ((pushStore ⟨-3, 0, 3⟩).zeroed 0 1)
        (-1)).1.lambda2| =
      |(-1 : ℚ)| * ((pushContact ⟨-3, 0, 3⟩ 0 1).processContact
        ((pushStore ⟨-3, 0, 3⟩).zeroed 0 1) (-1)).1.lambda1 ∧
    ¬ |((pushContact ⟨-3, 0, 3⟩ 0 1).processContact ((pushStore ⟨-3, 0, 3⟩).zeroed 0 1)
        (-1)).1.lambda2| ≤
      -1 * ((pushContact ⟨-3, 0, 3⟩ 0 1).processContact
        ((pushStore ⟨-3, 0, 3⟩).zeroed 0 1) (-1)).1.lambda1 := by
  have h1 : ((pushContact ⟨-3, 0, 3⟩ 0 1).processContact ((pushStore ⟨-3, 0, 3⟩).zeroed 0 1)
      (-1)).1.lambda1 = 3 := by
    rw [pushContact_first_lambda1]
    simp only [Vec3.dot, sceneNormal, clampNormal]
    norm_num
  have hw := C20_negative_mu_not_validated (pushContact ⟨-3, 0, 3⟩ 0 1)
    ((pushStore ⟨-3, 0, 3⟩).zeroed 0 1) (-1) (by norm_num) (by rw [h1]; norm_num)
  exact ⟨h1, hw.2.2.1, hw.2.2.2.2.2.1⟩


end Claims
